import Mathlib

/-!
# OCF request dispatch, mode resolution, pass-through read path, parallelizer

A shallow embedding of

* `src/engine/cache_engine.c` (dispatch table, mode resolver, entry points),
* `src/engine/engine_pt.c` (pass-through read path),
* `src/utils/utils_parallelize.c` (fan-out parallelizer),

followed by theorems about the embedded functions.

Conventions of the embedding.

* C `int` values are `Int`; unsigned counters are `Nat`.
* `ENV_BUG_ON` is an assertion: a function that can hit it returns `Option`,
  with `none` standing for the assertion firing.
* Calls of functions that live outside these three files (reference counting,
  locks, statistics, queues, the device layer) are recorded, in program order,
  as events of a trace; values such calls return are inputs of the model.
* Constants and helpers declared in headers outside the three files are
  collected in `ocf_env`, or modelled from the specification where noted.
-/

namespace Ocf

/-! ## Data model -/

/-- Modelled from the spec: the header declaring `ocf_cache_mode_t` and
`ocf_req_cache_mode_t` is not among the sources. The specification gives one
closed enumeration of cache modes, wt, wb, wa, wi, wo, pt, fast, plus the
sentinel max; the enumerator names are the ones `cache_engine.c` uses with the
common prefix `ocf_req_cache_mode_` dropped. -/
inductive ocf_req_cache_mode_t
  | wt | wb | wa | pt | wi | wo | fast | max
  deriving DecidableEq, Repr

/-- The configuration-side mode type. The C code converts between the two
enumerations with plain casts, so one Lean type serves both. -/
abbrev ocf_cache_mode_t := ocf_req_cache_mode_t

/-- Direction of a request: `OCF_READ` or `OCF_WRITE`. -/
inductive ocf_rw
  | OCF_READ | OCF_WRITE
  deriving DecidableEq, Repr

/-- The engine functions that appear as request callbacks (`ocf_req_cb`) in
the embedded files. -/
inductive ocf_req_cb
  | ocf_read_generic | ocf_write_wt | ocf_write_wb | ocf_write_wa
  | ocf_write_wi | ocf_read_pt | ocf_read_wo | ocf_read_fast | ocf_write_fast
  | ocf_engine_flush | ocf_engine_discard | ocf_read_pt_do
  | _ocf_parallelize_hndl
  deriving DecidableEq, Repr

/-- The `info` block of a request, filled by the traverse service. -/
structure ocf_req_info where
  dirty_any : Bool
  hit_no : Nat
  deriving DecidableEq, Repr

/-- The fields of `struct ocf_request` read or written by the embedded code. -/
structure ocf_request where
  addr : Nat
  bytes : Nat
  core_line_count : Nat
  rw : ocf_rw
  cache_mode : ocf_req_cache_mode_t
  part_id : Nat
  seq_cutoff : Bool
  force_pt : Bool
  info : ocf_req_info
  engine_handler : Option ocf_req_cb
  deriving DecidableEq, Repr

/-- The part `cache->conf_meta` of the cache read by the resolver. -/
structure ocf_cache_conf_meta where
  cachelines : Nat
  cache_mode : ocf_cache_mode_t
  deriving DecidableEq, Repr

/-- The fields of `struct ocf_cache` read by the embedded code. -/
structure ocf_cache where
  fallback_pt_error_counter : Int
  fallback_pt_error_threshold : Int
  pt_unaligned_io : Bool
  conf_meta : ocf_cache_conf_meta
  deriving DecidableEq, Repr

/-- Constants and helper functions that the embedded code uses and that are
declared outside the embedded files. They are inputs of the model.

* `ocf_core_seq_cutoff_check core req`: the sequential cut-off decision.
* `ocf_req_set_dirty req`: the `int` returned by the dirty-mark operation.
  The call site tests it for being non-zero, and the comment at the call site
  (`cache_engine.c`, line 186) says that the branch taken on a non-zero value
  is the one where the dirty state is frozen, so that write-through is needed:
  `0` is the value of a mark that succeeded.
* `ocf_user_part_class2id`, `ocf_user_part_get_cache_mode`: partition lookup.
-/
structure ocf_env (Core : Type) where
  OCF_CACHE_FALLBACK_PT_INACTIVE : Int
  OCF_ERR_INVAL : Int
  OCF_FAST_PATH_NO : Int
  ocf_core_seq_cutoff_check : Core → ocf_request → Bool
  ocf_req_set_dirty : ocf_request → Int
  ocf_user_part_class2id : ocf_cache → Nat → Nat
  ocf_user_part_get_cache_mode : ocf_cache → Nat → ocf_cache_mode_t

/-- Modelled from the spec: `ocf_cache_mode_is_valid` is declared in a header
that is not among the sources. The modes that can be configured are the six
public ones; `fast` and the sentinel `max` are not valid configured modes. -/
def ocf_cache_mode_is_valid (mode : ocf_cache_mode_t) : Bool :=
  match mode with
  | .wt | .wb | .wa | .pt | .wi | .wo => true
  | .fast | .max => false

/-- Modelled from the spec: `ocf_mngt_cache_mode_has_lazy_write` is declared in
a header that is not among the sources. Lazy write holds for the modes that may
defer writes to the core device: write-back and write-only. -/
def ocf_mngt_cache_mode_has_lazy_write (mode : ocf_cache_mode_t) : Bool :=
  match mode with
  | .wb | .wo => true
  | _ => false

/-- Modelled from the spec: `ocf_cache_mode_to_req_cache_mode` is declared in a
header that is not among the sources; it is the cast between the two
enumerations. -/
def ocf_cache_mode_to_req_cache_mode (mode : ocf_cache_mode_t) :
    ocf_req_cache_mode_t := mode

/-- Modelled from the spec: the macro `ocf_req_is_4k` is declared in a header
that is not among the sources. A request is 4 KiB aligned when both its start
and its length are multiples of 4096. -/
def ocf_req_is_4k (addr bytes : Nat) : Bool :=
  addr % 4096 == 0 && bytes % 4096 == 0

/-! ## `cache_engine.c`: the dispatch table -/

/-- Index type of `IO_IFS` (`enum ocf_io_if_type`), the two bounds included. -/
inductive ocf_io_if_type
  | OCF_IO_WT_IF | OCF_IO_WB_IF | OCF_IO_WA_IF | OCF_IO_WI_IF | OCF_IO_PT_IF
  | OCF_IO_WO_IF | OCF_IO_MAX_IF
  | OCF_IO_FAST_IF | OCF_IO_FLUSH_IF | OCF_IO_DISCARD_IF
  deriving DecidableEq, Repr

/-- The record `struct ocf_io_if`: two callbacks indexed by direction, and a
name. A slot left without initialiser is a null pointer, here `none`. -/
structure ocf_io_if where
  cbs : ocf_rw → Option ocf_req_cb
  name : Option String

/-- The table `IO_IFS`. The slot `OCF_IO_MAX_IF` has no initialiser. -/
def IO_IFS : ocf_io_if_type → ocf_io_if
  | .OCF_IO_WT_IF =>
    { cbs := fun rw => match rw with
        | .OCF_READ => some .ocf_read_generic
        | .OCF_WRITE => some .ocf_write_wt,
      name := some "Write Through" }
  | .OCF_IO_WB_IF =>
    { cbs := fun rw => match rw with
        | .OCF_READ => some .ocf_read_generic
        | .OCF_WRITE => some .ocf_write_wb,
      name := some "Write Back" }
  | .OCF_IO_WA_IF =>
    { cbs := fun rw => match rw with
        | .OCF_READ => some .ocf_read_generic
        | .OCF_WRITE => some .ocf_write_wa,
      name := some "Write Around" }
  | .OCF_IO_WI_IF =>
    { cbs := fun rw => match rw with
        | .OCF_READ => some .ocf_read_generic
        | .OCF_WRITE => some .ocf_write_wi,
      name := some "Write Invalidate" }
  | .OCF_IO_PT_IF =>
    { cbs := fun rw => match rw with
        | .OCF_READ => some .ocf_read_pt
        | .OCF_WRITE => some .ocf_write_wi,
      name := some "Pass Through" }
  | .OCF_IO_WO_IF =>
    { cbs := fun rw => match rw with
        | .OCF_READ => some .ocf_read_wo
        | .OCF_WRITE => some .ocf_write_wb,
      name := some "Write Only" }
  | .OCF_IO_MAX_IF =>
    { cbs := fun _ => none, name := none }
  | .OCF_IO_FAST_IF =>
    { cbs := fun rw => match rw with
        | .OCF_READ => some .ocf_read_fast
        | .OCF_WRITE => some .ocf_write_fast,
      name := some "Fast" }
  | .OCF_IO_FLUSH_IF =>
    { cbs := fun rw => match rw with
        | .OCF_READ => some .ocf_engine_flush
        | .OCF_WRITE => some .ocf_engine_flush,
      name := some "Flush" }
  | .OCF_IO_DISCARD_IF =>
    { cbs := fun rw => match rw with
        | .OCF_READ => some .ocf_engine_discard
        | .OCF_WRITE => some .ocf_engine_discard,
      name := some "Discard" }

/-- The table `cache_mode_io_if_map`. Its C array has `ocf_req_cache_mode_max`
slots, so the sentinel `max` is not an index of it: `none`. -/
def cache_mode_io_if_map : ocf_req_cache_mode_t → Option ocf_io_if_type
  | .wt => some .OCF_IO_WT_IF
  | .wb => some .OCF_IO_WB_IF
  | .wa => some .OCF_IO_WA_IF
  | .wi => some .OCF_IO_WI_IF
  | .wo => some .OCF_IO_WO_IF
  | .pt => some .OCF_IO_PT_IF
  | .fast => some .OCF_IO_FAST_IF
  | .max => none

/-- The lookup `ocf_cache_mode_to_engine_cb`. -/
def ocf_cache_mode_to_engine_cb (req_cache_mode : ocf_req_cache_mode_t)
    (rw : ocf_rw) : Option ocf_req_cb :=
  if req_cache_mode = .max then none
  else
    match cache_mode_io_if_map req_cache_mode with
    | some i => (IO_IFS i).cbs rw
    | none => none

/-! ## `cache_engine.c`: the mode resolver -/

/-- The function `ocf_fallback_pt_is_on`. The result is `none` when the
assertion `ENV_BUG_ON(counter < 0)` fires. -/
def ocf_fallback_pt_is_on {Core : Type} (env : ocf_env Core)
    (cache : ocf_cache) : Option Bool :=
  if cache.fallback_pt_error_counter < 0 then none
  else some
    (decide (cache.fallback_pt_error_threshold ≠
        env.OCF_CACHE_FALLBACK_PT_INACTIVE) &&
      decide (cache.fallback_pt_error_counter ≥
        cache.fallback_pt_error_threshold))

/-- The function `ocf_req_cache_mode_has_lazy_write`. -/
def ocf_req_cache_mode_has_lazy_write (mode : ocf_req_cache_mode_t) : Bool :=
  ocf_cache_mode_is_valid mode && ocf_mngt_cache_mode_has_lazy_write mode

/-- The function `ocf_resolve_effective_cache_mode`. It returns the request as
the C function leaves it; `none` when the assertion inside
`ocf_fallback_pt_is_on` fires. The flag `force_pt` is not read. -/
def ocf_resolve_effective_cache_mode {Core : Type} (env : ocf_env Core)
    (cache : ocf_cache) (core : Core) (req : ocf_request) :
    Option ocf_request :=
  match ocf_fallback_pt_is_on env cache with
  | none => none
  | some true => some { req with cache_mode := .pt }
  | some false =>
    if cache.pt_unaligned_io && !ocf_req_is_4k req.addr req.bytes then
      some { req with cache_mode := .pt }
    else if req.core_line_count > cache.conf_meta.cachelines then
      some { req with cache_mode := .pt }
    else if env.ocf_core_seq_cutoff_check core req then
      some { req with cache_mode := .pt, seq_cutoff := true }
    else
      let cache_mode := env.ocf_user_part_get_cache_mode cache
        (env.ocf_user_part_class2id cache req.part_id)
      let cache_mode :=
        if !ocf_cache_mode_is_valid cache_mode then cache.conf_meta.cache_mode
        else cache_mode
      let req := { req with
        cache_mode := ocf_cache_mode_to_req_cache_mode cache_mode }
      if req.rw = .OCF_WRITE &&
          ocf_req_cache_mode_has_lazy_write req.cache_mode &&
          env.ocf_req_set_dirty req != 0 then
        some { req with cache_mode := .wt }
      else
        some req

/-! ## Traces of calls -/

/-- The flags argument of `ocf_queue_push_req`: a set of the two flag bits
`OCF_QUEUE_ALLOW_SYNC` and `OCF_QUEUE_PRIO_HIGH`. -/
structure ocf_queue_flags where
  OCF_QUEUE_ALLOW_SYNC : Bool
  OCF_QUEUE_PRIO_HIGH : Bool
  deriving DecidableEq, Repr

/-- The completion callbacks handed to the device layer. -/
inductive ocf_req_end_t
  | _ocf_read_pt_complete
  deriving DecidableEq, Repr

/-- One call made by the embedded code on a request, to a function outside the
embedded files or through a function pointer. A trace is the list of these
calls in program order. -/
inductive ocf_event
  | ocf_req_get
  | ocf_req_put
  | ocf_queue_push_req (flags : ocf_queue_flags)
  | ocf_queue_push_req_cb (cb : ocf_req_cb) (flags : ocf_queue_flags)
  | call (cb : ocf_req_cb)
  | complete (error : Int)
  | ocf_req_unlock
  | ocf_core_stats_core_error_update (rw : ocf_rw)
  | ocf_req_hash
  | ocf_hb_req_prot_lock_rd
  | ocf_hb_req_prot_unlock_rd
  | ocf_hb_req_prot_lock_wr
  | ocf_hb_req_prot_unlock_wr
  | ocf_engine_traverse
  | ocf_req_async_lock_rd
  | ocf_req_clear
  | ocf_engine_clean
  | ocf_user_part_move
  | ocf_engine_forward_core_io_req (completion : ocf_req_end_t)
  | ocf_engine_update_block_stats
  | ocf_core_stats_pt_block_update (part_id : Nat) (rw : ocf_rw) (bytes : Nat)
  | ocf_core_stats_request_pt_update (part_id : Nat) (rw : ocf_rw)
      (hit_no : Nat) (core_line_count : Nat)
  deriving DecidableEq, Repr

/-- Number of `ocf_req_get` calls of a trace. -/
def gets (t : List ocf_event) : Nat := t.count .ocf_req_get

/-- Number of `ocf_req_put` calls of a trace. -/
def puts (t : List ocf_event) : Nat := t.count .ocf_req_put

/-- Whether an event is a call of `req->complete`. -/
def is_complete : ocf_event → Bool
  | .complete _ => true
  | _ => false

/-- Whether an event is a synchronous call of an engine callback. -/
def is_call : ocf_event → Bool
  | .call _ => true
  | _ => false

/-! ## `cache_engine.c`: the entry points -/

/-- The function `ocf_engine_hndl_req`: return value, the request as it is
left, and the trace of calls. `OCF_CHECK_NULL(cache)` asserts that the request
belongs to a cache, which holds for every allocated request. -/
def ocf_engine_hndl_req {Core : Type} (env : ocf_env Core)
    (req : ocf_request) : Int × ocf_request × List ocf_event :=
  let req := { req with
    engine_handler := ocf_cache_mode_to_engine_cb req.cache_mode req.rw }
  if req.engine_handler.isNone then
    (-env.OCF_ERR_INVAL, req, [])
  else
    (0, req,
      [.ocf_req_get,
       .ocf_queue_push_req
         { OCF_QUEUE_ALLOW_SYNC := true, OCF_QUEUE_PRIO_HIGH := false }])

/-- The function `ocf_engine_hndl_fast_req`: return value and trace.
`engine_cb_ret cb req` is the value the handler `cb` returns on `req`. -/
def ocf_engine_hndl_fast_req {Core : Type} (env : ocf_env Core)
    (engine_cb_ret : ocf_req_cb → ocf_request → Int)
    (req : ocf_request) : Int × List ocf_event :=
  match ocf_cache_mode_to_engine_cb req.cache_mode req.rw with
  | none => (-env.OCF_ERR_INVAL, [])
  | some engine_cb =>
    let ret := engine_cb_ret engine_cb req
    if ret = env.OCF_FAST_PATH_NO then
      (ret, [.ocf_req_get, .call engine_cb, .ocf_req_put])
    else
      (ret, [.ocf_req_get, .call engine_cb])

/-- The function `ocf_engine_hndl_discard_req`: the trace. -/
def ocf_engine_hndl_discard_req (req : ocf_request) : List ocf_event :=
  match (IO_IFS .OCF_IO_DISCARD_IF).cbs req.rw with
  | some cb => [.ocf_req_get, .call cb]
  | none => [.ocf_req_get]

/-- The function `ocf_engine_hndl_flush_req`: the request as it is left, and
the trace. -/
def ocf_engine_hndl_flush_req (req : ocf_request) :
    ocf_request × List ocf_event :=
  ({ req with engine_handler := (IO_IFS .OCF_IO_FLUSH_IF).cbs req.rw },
    [.ocf_req_get,
     .ocf_queue_push_req
       { OCF_QUEUE_ALLOW_SYNC := true, OCF_QUEUE_PRIO_HIGH := false }])

/-! ## `engine_pt.c`: the pass-through read path -/

/-- Constants and helpers of the pass-through read path that are declared
outside the embedded files; they are inputs of the model.

* `ocf_engine_traverse req`: the request with `info` filled in.
* `ocf_req_async_lock_rd req`: the `int` the lock manager returns.
* `ocf_req_clear req`: the request with its mapping state reset.
-/
structure ocf_pt_env where
  OCF_LOCK_ACQUIRED : Int
  ocf_engine_traverse : ocf_request → ocf_request
  ocf_engine_is_dirty_all : ocf_request → Bool
  ocf_engine_mapped_count : ocf_request → Nat
  ocf_req_async_lock_rd : ocf_request → Int
  ocf_engine_needs_repart : ocf_request → Bool
  ocf_req_clear : ocf_request → ocf_request

/-- The function `_ocf_read_pt_complete`: the trace, for the status `error`
the core read completed with. -/
def _ocf_read_pt_complete (error : Int) : List ocf_event :=
  (if error ≠ 0 then [.ocf_core_stats_core_error_update .OCF_READ] else []) ++
  [.complete error, .ocf_req_unlock, .ocf_req_put]

/-- The function `_ocf_read_pt_submit`: the trace. -/
def _ocf_read_pt_submit : List ocf_event :=
  [.ocf_engine_forward_core_io_req ._ocf_read_pt_complete]

/-- The function `ocf_read_pt_do`: return value and trace. -/
def ocf_read_pt_do (pt : ocf_pt_env) (req : ocf_request) :
    Int × List ocf_event :=
  if req.info.dirty_any then
    (0, [.ocf_req_get,
         .ocf_hb_req_prot_lock_rd, .ocf_engine_clean,
         .ocf_hb_req_prot_unlock_rd,
         .ocf_req_put])
  else
    (0, [.ocf_req_get] ++
        (if pt.ocf_engine_needs_repart req then
          [.ocf_hb_req_prot_lock_wr, .ocf_user_part_move,
           .ocf_hb_req_prot_unlock_wr]
         else []) ++
        _ocf_read_pt_submit ++
        [.ocf_engine_update_block_stats,
         .ocf_core_stats_pt_block_update req.part_id req.rw req.bytes,
         .ocf_core_stats_request_pt_update req.part_id req.rw
           req.info.hit_no req.core_line_count,
         .ocf_req_put])

/-- The function `ocf_read_pt`: return value, the request as it is left, and
the trace. A direct call of an engine function is recorded as a `call` event;
the trace of `ocf_read_pt_do`, which is embedded, follows its `call`. -/
def ocf_read_pt (pt : ocf_pt_env) (req : ocf_request) :
    Int × ocf_request × List ocf_event :=
  let req := { req with engine_handler := some .ocf_read_pt_do }
  let req := pt.ocf_engine_traverse req
  let head : List ocf_event :=
    [.ocf_req_get, .ocf_req_hash, .ocf_hb_req_prot_lock_rd,
     .ocf_engine_traverse]
  if req.seq_cutoff && pt.ocf_engine_is_dirty_all req && !req.force_pt then
    let req' := pt.ocf_req_clear req
    (0, req',
      head ++ [.ocf_hb_req_prot_unlock_rd, .ocf_req_clear,
        .call .ocf_read_generic, .ocf_req_put])
  else
    let locked := decide (pt.ocf_engine_mapped_count req ≠ 0)
    let lock : Int :=
      if locked then pt.ocf_req_async_lock_rd req else pt.OCF_LOCK_ACQUIRED
    let head := head ++
      (if locked then [.ocf_req_async_lock_rd] else []) ++
      [.ocf_hb_req_prot_unlock_rd]
    if lock ≥ 0 then
      if lock = pt.OCF_LOCK_ACQUIRED then
        (0, req,
          head ++ [.call .ocf_read_pt_do] ++ (ocf_read_pt_do pt req).2 ++
            [.ocf_req_put])
      else
        (0, req, head ++ [.ocf_req_put])
    else
      (0, req, head ++ [.complete lock, .ocf_req_put, .ocf_req_put])

/-- The function `ocf_queue_push_req_pt`: the trace. -/
def ocf_queue_push_req_pt : List ocf_event :=
  [.ocf_queue_push_req_cb .ocf_read_pt_do
     { OCF_QUEUE_ALLOW_SYNC := true, OCF_QUEUE_PRIO_HIGH := true }]

/-- All ways of merging two sequences of events, each keeping its own order:
the possible global orders of two activities running side by side. -/
def interleavings {α : Type} : List α → List α → List (List α)
  | [], ys => [ys]
  | x :: xs, [] => [x :: xs]
  | x :: xs, y :: ys =>
    (interleavings xs (y :: ys)).map (x :: ·) ++
    (interleavings (x :: xs) ys).map (y :: ·)
termination_by xs ys => xs.length + ys.length

/-- Split a trace after its first core-read submission: the events up to and
including the submission, and the events after it. -/
def split_at_forward :
    List ocf_event → Option (List ocf_event × List ocf_event)
  | [] => none
  | e :: es =>
    match e with
    | .ocf_engine_forward_core_io_req _ => some ([e], es)
    | _ => (split_at_forward es).map (fun p => (e :: p.1, p.2))

/-- The traces of a whole pass-through read: `ocf_read_pt` runs on `req`, and
the core read it forwards, if any, completes with status `error`. The device
layer calls `_ocf_read_pt_complete` at some moment after the submission, on
its own thread or inline, so the calls of the completion are merged in every
possible way with the calls `ocf_read_pt` still makes after the submission. -/
def ocf_read_pt_runs (pt : ocf_pt_env) (req : ocf_request) (error : Int) :
    List (List ocf_event) :=
  let main := (ocf_read_pt pt req).2.2
  match split_at_forward main with
  | none => [main]
  | some (pre, post) =>
    (interleavings post (_ocf_read_pt_complete error)).map (pre ++ ·)

/-! ## `utils_parallelize.c`: the parallelizer -/

/-- The value of a C `int` holding the integer `v` after wrap-around. -/
def to_int32 (v : Int) : Int := (v + 2 ^ 31) % 2 ^ 32 - 2 ^ 31

/-- The alignment `OCF_PARALLELIZE_ALIGNMENT`. -/
def OCF_PARALLELIZE_ALIGNMENT : Nat := 64

/-- Modelled from the spec: the macro `OCF_DIV_ROUND_UP` is declared in a
header that is not among the sources. It is the quotient rounded up, computed
on 64-bit unsigned values. -/
def OCF_DIV_ROUND_UP (x y : Nat) : Nat := ((x + y - 1) % 2 ^ 64) / y

/-- The fields of a shard request set by `ocf_parallelize_create`. -/
structure ocf_prl_req where
  queue : Nat
  internal : Bool
  engine_handler : ocf_req_cb
  byte_position : Nat
  deriving DecidableEq, Repr

/-- The record `struct ocf_parallelize`. `priv` is an address, `none` for the
null pointer left by the zeroing allocator. The callbacks `handle` and
`finish` are inputs of the functions that call them. -/
structure ocf_parallelize where
  priv : Option Nat
  shards_cnt : Nat
  remaining : Int
  error : Int
  reqs : List ocf_prl_req
  deriving DecidableEq, Repr

/-- What `ocf_parallelize_create` takes from outside the embedded files.

* `io_queues`, `mngt_queue`: the I/O queue list of the cache, in list order,
  and its management queue; `ocf_cache_get_queue_count` is the length of the
  list.
* `env_vzalloc size`: the base address of the allocation, `none` on failure.
* `ocf_req_new_mngt i queue`: whether the allocation of the request of shard
  `i` succeeds.
* `sizeof_parallelize`, `sizeof_req_ptr`: the two `sizeof` values.
-/
structure ocf_prl_env where
  OCF_ERR_NO_MEM : Int
  sizeof_parallelize : Nat
  sizeof_req_ptr : Nat
  io_queues : List Nat
  mngt_queue : Nat
  env_vzalloc : Nat → Option Nat
  ocf_req_new_mngt : Nat → Nat → Bool

/-- The loop of `ocf_parallelize_create` that allocates the shard requests:
`n` iterations are left, `i` is the loop counter, `iter` the position in the
I/O queue list. On an allocation failure the result is the number of requests
to release. -/
def ocf_parallelize_create_reqs (env : ocf_prl_env) (queue_count : Nat) :
    Nat → Nat → Nat → List ocf_prl_req → Except Nat (List ocf_prl_req)
  | 0, _, _, reqs => .ok reqs
  | n + 1, i, iter, reqs =>
    let queue :=
      if queue_count > 0 then env.io_queues.getD iter env.mngt_queue
      else env.mngt_queue
    let iter :=
      if queue_count > 0 then
        (if iter + 1 = env.io_queues.length then 0 else iter + 1)
      else iter
    if env.ocf_req_new_mngt i queue then
      ocf_parallelize_create_reqs env queue_count n (i + 1) iter
        (reqs ++ [{ queue := queue, internal := true,
                    engine_handler := ._ocf_parallelize_hndl,
                    byte_position := i }])
    else
      .error i

/-- The function `ocf_parallelize_create`: the parallelizer, or the negative
error code. -/
def ocf_parallelize_create (env : ocf_prl_env) (shards_cnt : Nat)
    (priv_size : Nat) : Except Int ocf_parallelize :=
  let queue_count := env.io_queues.length
  let shards_cnt :=
    if shards_cnt = 0 then (if queue_count ≠ 0 then queue_count else 1)
    else shards_cnt
  let prl_size :=
    (env.sizeof_parallelize + shards_cnt * env.sizeof_req_ptr) % 2 ^ 64
  match env.env_vzalloc
      ((prl_size + priv_size + OCF_PARALLELIZE_ALIGNMENT) % 2 ^ 64) with
  | none => .error (-env.OCF_ERR_NO_MEM)
  | some tmp_parallelize =>
    let priv : Option Nat :=
      if priv_size > 0 then
        some ((OCF_DIV_ROUND_UP ((tmp_parallelize + prl_size) % 2 ^ 64)
          OCF_PARALLELIZE_ALIGNMENT * OCF_PARALLELIZE_ALIGNMENT) % 2 ^ 64)
      else none
    match ocf_parallelize_create_reqs env queue_count shards_cnt 0 0 [] with
    | .error _ => .error (-env.OCF_ERR_NO_MEM)
    | .ok reqs =>
      .ok { priv := priv,
            shards_cnt := shards_cnt,
            remaining := to_int32 (((shards_cnt + 1) % 2 ^ 32 : Nat) : Int),
            error := 0,
            reqs := reqs }

/-- What the parallelizer does to the outside: a shard request pushed to its
queue, or `finish` called with an error value. -/
inductive ocf_prl_event
  | ocf_queue_push_req (shard : Nat) (flags : ocf_queue_flags)
  | finish (error : Int)
  deriving DecidableEq, Repr

/-- A parallelizer together with the log of what it has done so far. -/
structure ocf_prl_state where
  parallelize : ocf_parallelize
  log : List ocf_prl_event
  deriving DecidableEq, Repr

/-- The errors with which `finish` was called, in order. -/
def finish_calls (log : List ocf_prl_event) : List Int :=
  log.filterMap (fun e => match e with
    | .finish error => some error
    | _ => none)

/-- The function `_ocf_parallelize_finish`: one atomic decrement of
`remaining`; `finish` is called with the latched error when the new value
is zero. -/
def _ocf_parallelize_finish (s : ocf_prl_state) : ocf_prl_state :=
  let remaining := to_int32 (s.parallelize.remaining - 1)
  let s := { s with parallelize := { s.parallelize with remaining := remaining } }
  if remaining ≠ 0 then s
  else { s with log := s.log ++ [.finish s.parallelize.error] }

/-- The function `_ocf_parallelize_hndl` on the shard request `req`:
`handle shard_id shards_cnt` is the value the user handler returns; it is
latched by a compare-and-swap from 0, then the shard reports. -/
def _ocf_parallelize_hndl (handle : Nat → Nat → Int) (req : ocf_prl_req)
    (s : ocf_prl_state) : ocf_prl_state :=
  let error := handle req.byte_position s.parallelize.shards_cnt
  let s := { s with parallelize := { s.parallelize with
    error := if s.parallelize.error = 0 then error else s.parallelize.error } }
  _ocf_parallelize_finish s

/-- The loop of `ocf_parallelize_run`: every shard request is pushed to its
queue at high priority. -/
def ocf_parallelize_run_push (s : ocf_prl_state) : ocf_prl_state :=
  { s with log := s.log ++
      (List.range s.parallelize.shards_cnt).map (fun i =>
        .ocf_queue_push_req i
          { OCF_QUEUE_ALLOW_SYNC := false, OCF_QUEUE_PRIO_HIGH := true }) }

/-- The function `ocf_parallelize_run`: the pushes, then the caller's own
report. -/
def ocf_parallelize_run (s : ocf_prl_state) : ocf_prl_state :=
  _ocf_parallelize_finish (ocf_parallelize_run_push s)

/-- A thread that takes part in a run of the parallelizer: the caller of
`ocf_parallelize_run`, or the queue worker that runs the handler
`_ocf_parallelize_hndl` of shard `i`. -/
inductive ocf_prl_thread
  | run
  | shard (i : Nat)
  deriving DecidableEq, Repr

/-- Where a thread stands in its code.

* `idle`: the request of the shard has not been pushed yet.
* `push i`: the caller is in the loop of `ocf_parallelize_run` with loop
  counter `i`, about to push the request of shard `i`.
* `handle`: the request of the shard has been pushed; its handler
  `_ocf_parallelize_hndl` has yet to call the user handler.
* `cmpxchg error`: the user handler has returned `error` into the local
  variable of `_ocf_parallelize_hndl`; the `env_atomic_cmpxchg` is next.
* `dec`: the thread is about to execute `env_atomic_dec_return` on `remaining`
  in `_ocf_parallelize_finish`.
* `read`: that decrement returned 0; the `env_atomic_read` of `error` is next.
* `finish error`: the thread has read `error` into the local variable of
  `_ocf_parallelize_finish` and is about to call `finish` with it.
* `done`: the thread has returned. -/
inductive ocf_prl_pc
  | idle
  | push (i : Nat)
  | handle
  | cmpxchg (error : Int)
  | dec
  | read
  | finish (error : Int)
  | done
  deriving DecidableEq, Repr

/-- The state of a concurrent run: the parallelizer with its log, and the
position of every thread. -/
structure ocf_prl_conc where
  state : ocf_prl_state
  pc : ocf_prl_thread → ocf_prl_pc

/-- The positions `pc` with thread `w` moved to `v`. -/
def pc_set (pc : ocf_prl_thread → ocf_prl_pc) (w : ocf_prl_thread)
    (v : ocf_prl_pc) : ocf_prl_thread → ocf_prl_pc :=
  fun w' => if w' = w then v else pc w'

/-- One operation of a run; each accesses the shared parallelizer at most
once.

* `push`: one iteration of the loop of `ocf_parallelize_run`.
* `handle i`: in the handler of shard `i`, the call of the user handler.
* `cmpxchg i`: in the handler of shard `i`, the compare-and-swap of the
  returned value into `error`.
* `dec w`: the `env_atomic_dec_return` on `remaining` executed by thread `w`.
* `read w`: the `env_atomic_read` of `error` by thread `w`.
* `finish w`: the call of `finish` by thread `w`. -/
inductive ocf_prl_op
  | push
  | handle (shard : Nat)
  | cmpxchg (shard : Nat)
  | dec (who : ocf_prl_thread)
  | read (who : ocf_prl_thread)
  | finish (who : ocf_prl_thread)
  deriving DecidableEq, Repr

/-- One operation executed by the thread it belongs to; `none` when that
thread is not at this operation. Each thread executes, in program order, the
operations of `ocf_parallelize_run` followed by those of
`_ocf_parallelize_finish`, or the operations of `_ocf_parallelize_hndl`
followed by those of `_ocf_parallelize_finish`; operations of different
threads may come in any order. -/
def ocf_prl_op_exec (handle : Nat → Nat → Int) (c : ocf_prl_conc) :
    ocf_prl_op → Option ocf_prl_conc
  | .push =>
    match c.pc .run with
    | .push i =>
      some
        { state := { c.state with
            log := c.state.log ++
              [.ocf_queue_push_req i
                { OCF_QUEUE_ALLOW_SYNC := false,
                  OCF_QUEUE_PRIO_HIGH := true }] },
          pc := pc_set (pc_set c.pc (.shard i) .handle) .run
            (if i + 1 < c.state.parallelize.shards_cnt then .push (i + 1)
             else .dec) }
    | _ => none
  | .handle i =>
    if c.pc (.shard i) = .handle then
      match c.state.parallelize.reqs.get? i with
      | some req =>
        let error := handle req.byte_position c.state.parallelize.shards_cnt
        some { c with pc := pc_set c.pc (.shard i) (.cmpxchg error) }
      | none => none
    else none
  | .cmpxchg i =>
    match c.pc (.shard i) with
    | .cmpxchg error =>
      some
        { state := { c.state with
            parallelize := { c.state.parallelize with
              error :=
                if c.state.parallelize.error = 0 then error
                else c.state.parallelize.error } },
          pc := pc_set c.pc (.shard i) .dec }
    | _ => none
  | .dec w =>
    if c.pc w = .dec then
      let remaining := to_int32 (c.state.parallelize.remaining - 1)
      some
        { state := { c.state with
            parallelize := { c.state.parallelize with
              remaining := remaining } },
          pc := pc_set c.pc w (if remaining ≠ 0 then .done else .read) }
    else none
  | .read w =>
    if c.pc w = .read then
      some { c with pc := pc_set c.pc w (.finish c.state.parallelize.error) }
    else none
  | .finish w =>
    match c.pc w with
    | .finish error =>
      some
        { state := { c.state with log := c.state.log ++ [.finish error] },
          pc := pc_set c.pc w .done }
    | _ => none

/-- The state in which `ocf_parallelize_run` is entered on the parallelizer
`p`: nothing is logged, the caller is at the head of its loop, and no shard
request has been pushed. -/
def ocf_prl_init (p : ocf_parallelize) : ocf_prl_conc where
  state := { parallelize := p, log := [] }
  pc := fun w =>
    match w with
    | .run => if 0 < p.shards_cnt then .push 0 else .dec
    | .shard _ => .idle

/-- The run from the state `c` in which the operations of the threads happen
in the order `sched`; `none` when `sched` asks a thread for an operation it
is not at. -/
def ocf_prl_run_from (handle : Nat → Nat → Int) (c : ocf_prl_conc)
    (sched : List ocf_prl_op) : Option ocf_prl_conc :=
  sched.foldlM (ocf_prl_op_exec handle) c

/-- The run of the parallelizer `p`, from the entry of
`ocf_parallelize_run`, in which the operations of the threads happen in the
order `sched`. -/
def ocf_prl_run (handle : Nat → Nat → Int) (p : ocf_parallelize)
    (sched : List ocf_prl_op) : Option ocf_prl_conc :=
  ocf_prl_run_from handle (ocf_prl_init p) sched

/-- Whether every thread of a run has returned. -/
def ocf_prl_complete (c : ocf_prl_conc) : Bool :=
  decide (c.pc .run = .done) &&
  (List.range c.state.parallelize.shards_cnt).all
    (fun i => decide (c.pc (.shard i) = .done))

/-- The operations of `_ocf_parallelize_finish` executed by the thread `w`
from the state `s`, one after the other: the decrement and, when it returns
0, the read of `error` and the call of `finish`. -/
def ocf_prl_finish_ops (s : ocf_prl_state) (w : ocf_prl_thread) :
    List ocf_prl_op :=
  if to_int32 (s.parallelize.remaining - 1) ≠ 0 then [.dec w]
  else [.dec w, .read w, .finish w]

/-- The operations of `_ocf_parallelize_hndl` executed for shard `i` from the
state `s`, one after the other. -/
def ocf_prl_hndl_ops (s : ocf_prl_state) (i : Nat) : List ocf_prl_op :=
  [.handle i, .cmpxchg i] ++ ocf_prl_finish_ops s (.shard i)

/-- The operations of `ocf_parallelize_run` executed from the state `s`, one
after the other. -/
def ocf_prl_run_ops (s : ocf_prl_state) : List ocf_prl_op :=
  List.replicate s.parallelize.shards_cnt .push ++ ocf_prl_finish_ops s .run

/-- The thread that executes an operation. -/
def op_thread : ocf_prl_op → ocf_prl_thread
  | .push => .run
  | .handle i => .shard i
  | .cmpxchg i => .shard i
  | .dec w => w
  | .read w => w
  | .finish w => w

/-- Whether `sched` keeps the handlers of one queue apart: for shards `i < j`
whose requests are on the same queue, no operation of shard `i` comes after
the first operation of shard `j`. Nothing in the source fixes how a queue runs
its requests; this is the most restrictive discipline, one request at a time
in the order of the pushes. -/
def queue_serial (reqs : List ocf_prl_req) (sched : List ocf_prl_op) : Bool :=
  (List.range reqs.length).all (fun j =>
    (List.range j).all (fun i =>
      if (reqs.get? i).map (fun r => r.queue) =
          (reqs.get? j).map (fun r => r.queue) then
        (sched.dropWhile (fun op => decide (op_thread op ≠ .shard j))).all
          (fun op => decide (op_thread op ≠ .shard i))
      else true))

/-- The shards in the order of their compare-and-swaps on `error`. -/
def cas_order (sched : List ocf_prl_op) : List Nat :=
  sched.filterMap (fun op => match op with
    | .cmpxchg i => some i
    | _ => none)

/-- The threads in the order of their decrements of `remaining`: the order in
which the shard handlers, and the caller of `ocf_parallelize_run`, report. -/
def dec_order (sched : List ocf_prl_op) : List ocf_prl_thread :=
  sched.filterMap (fun op => match op with
    | .dec w => some w
    | _ => none)

/-- The shards among a list of threads, in the order of the list. -/
def shards_of (threads : List ocf_prl_thread) : List Nat :=
  threads.filterMap (fun w => match w with
    | .shard i => some i
    | .run => none)

/-- The values the handlers of the shards `order` return, in that order: the
handler of shard `i` is called with the shard index stored in its request and
with the shard count. -/
def shard_errors (handle : Nat → Nat → Int) (reqs : List ocf_prl_req)
    (shards_cnt : Nat) (order : List Nat) : List Int :=
  order.filterMap (fun i =>
    (reqs.get? i).map (fun req => handle req.byte_position shards_cnt))

/-- The first non-zero value of a list of error codes, 0 if there is none. -/
def first_error : List Int → Int
  | [] => 0
  | e :: errors => if e ≠ 0 then e else first_error errors

/-- The value of the `error` cell after the compare-and-swaps of a list of
error codes, starting from the value `error`. -/
def latch (error : Int) (errors : List Int) : Int :=
  if error ≠ 0 then error else first_error errors

/-- The threads of a run of `n` shards: the caller of `ocf_parallelize_run`
and one worker per shard. -/
def ocf_prl_threads (n : Nat) : List ocf_prl_thread :=
  .run :: (List.range n).map .shard

/-- Whether a thread at this position has executed its compare-and-swap. -/
def latched : ocf_prl_pc → Bool
  | .dec => true
  | .read => true
  | .finish _ => true
  | .done => true
  | _ => false

/-- Whether a thread at this position has decremented `remaining`. -/
def reported : ocf_prl_pc → Bool
  | .read => true
  | .finish _ => true
  | .done => true
  | _ => false

/-- Whether a thread at this position has seen its decrement return 0 and has
not called `finish` yet. -/
def finishing : ocf_prl_pc → Bool
  | .read => true
  | .finish _ => true
  | _ => false

/-- The four phases of a run, for the operations `l` executed so far and the
state `c` reached: `finish` is not called and no thread is about to call it;
or the last operation was the decrement that returned 0, by the thread `w`,
which alone is on its way to `finish`; or that thread has also read `error`;
or it has also called `finish`, with the latched error. -/
def prl_phase (p : ocf_parallelize) (l : List ocf_prl_op)
    (c : ocf_prl_conc) : Prop :=
  (finish_calls c.state.log = [] ∧ (∀ w, finishing (c.pc w) = false) ∧
    (dec_order l).length ≤ p.shards_cnt) ∨
  (∃ l' w, l = l' ++ [.dec w] ∧ finish_calls c.state.log = [] ∧
    c.pc w = .read ∧ (∀ w', finishing (c.pc w') = true → w' = w) ∧
    (dec_order l).length = p.shards_cnt + 1) ∨
  (∃ l' w, l = l' ++ [.dec w, .read w] ∧ finish_calls c.state.log = [] ∧
    c.pc w = .finish c.state.parallelize.error ∧
    (∀ w', finishing (c.pc w') = true → w' = w) ∧
    (dec_order l).length = p.shards_cnt + 1) ∨
  (∃ l' w, l = l' ++ [.dec w, .read w, .finish w] ∧
    finish_calls c.state.log = [c.state.parallelize.error] ∧
    (∀ w', finishing (c.pc w') = false) ∧
    (dec_order l).length = p.shards_cnt + 1)

/-- The invariant of a run of the parallelizer `p`, relating the operations
`l` executed so far to the state `c` reached. -/
structure prl_inv (handle : Nat → Nat → Int) (p : ocf_parallelize)
    (l : List ocf_prl_op) (c : ocf_prl_conc) : Prop where
  cnt : c.state.parallelize.shards_cnt = p.shards_cnt
  reqs : c.state.parallelize.reqs = p.reqs
  rem : c.state.parallelize.remaining =
    (p.shards_cnt : Int) + 1 - ((dec_order l).length : Int)
  err : c.state.parallelize.error =
    latch 0 (shard_errors handle p.reqs p.shards_cnt (cas_order l))
  dec_nodup : (dec_order l).Nodup
  dec_mem : ∀ w, w ∈ dec_order l ↔ reported (c.pc w) = true
  cas_nodup : (cas_order l).Nodup
  cas_mem : ∀ i, i ∈ cas_order l ↔ latched (c.pc (.shard i)) = true
  value : ∀ i e, c.pc (.shard i) = .cmpxchg e →
    ∃ req, p.reqs.get? i = some req ∧
      e = handle req.byte_position p.shards_cnt
  idle : ∀ i, ¬ i < p.shards_cnt → c.pc (.shard i) = .idle
  push_lt : ∀ j, c.pc .run = .push j → j < p.shards_cnt
  unpushed : ∀ i j, c.pc .run = .push j → j ≤ i → c.pc (.shard i) = .idle
  pushed : ∀ i, i < p.shards_cnt → c.pc (.shard i) = .idle →
    ∃ j, c.pc .run = .push j ∧ j ≤ i
  run_pc : c.pc .run ≠ .idle ∧ c.pc .run ≠ .handle ∧
    ∀ e, c.pc .run ≠ .cmpxchg e
  shard_pc : ∀ i j, c.pc (.shard i) ≠ .push j
  phase : prl_phase p l c

/-- An upper bound on the operations a thread at this position still
executes, in a run of `n` shards. -/
def ops_left (n : Nat) : ocf_prl_pc → Nat
  | .idle => 5
  | .push i => n - i + 3
  | .handle => 5
  | .cmpxchg _ => 4
  | .dec => 3
  | .read => 2
  | .finish _ => 1
  | .done => 0

/-- An upper bound on the operations the threads of a run of `n` shards still
execute. -/
def prl_ops_left (n : Nat) (pc : ocf_prl_thread → ocf_prl_pc) : Nat :=
  ops_left n (pc .run) +
    ((List.range n).map (fun i => ops_left n (pc (.shard i)))).sum

/-! ## Derived notions used in the statements -/

/-- The mode `M` of lines 176-180 of `cache_engine.c`: the mode configured for
the user partition of the request when that mode is valid, the cache-wide
default mode otherwise. -/
def configured_mode {Core : Type} (env : ocf_env Core) (cache : ocf_cache)
    (req : ocf_request) : ocf_cache_mode_t :=
  let cache_mode := env.ocf_user_part_get_cache_mode cache
    (env.ocf_user_part_class2id cache req.part_id)
  if ocf_cache_mode_is_valid cache_mode then cache_mode
  else cache.conf_meta.cache_mode

/-- The first call `x` of a trace happens before its first call `y`. -/
def precedes (x y : ocf_event) (t : List ocf_event) : Prop :=
  x ∈ t ∧ y ∈ t ∧ t.indexOf x < t.indexOf y

instance (x y : ocf_event) (t : List ocf_event) : Decidable (precedes x y t) := by
  unfold precedes
  infer_instance

/-- Whether an event is an update of statistics. -/
def is_stats_update : ocf_event → Bool
  | .ocf_core_stats_core_error_update _ => true
  | .ocf_engine_update_block_stats => true
  | .ocf_core_stats_pt_block_update _ _ _ => true
  | .ocf_core_stats_request_pt_update _ _ _ _ => true
  | _ => false

/-- Whether an event is the submission of a core I/O. -/
def is_forward : ocf_event → Bool
  | .ocf_engine_forward_core_io_req _ => true
  | _ => false

/-- The request as `ocf_read_pt` sees it after the traverse: the resume
handler is set, then `ocf_engine_traverse` fills `info`. -/
def traversed (pt : ocf_pt_env) (req : ocf_request) : ocf_request :=
  pt.ocf_engine_traverse { req with engine_handler := some .ocf_read_pt_do }

/-! ## Concrete inputs -/

/-- An environment in which the sequential cut-off never fires, the dirty mark
always succeeds (returns 0), and every partition is configured write-back. -/
def ex_env : ocf_env Unit where
  OCF_CACHE_FALLBACK_PT_INACTIVE := 0
  OCF_ERR_INVAL := 1000000
  OCF_FAST_PATH_NO := 13
  ocf_core_seq_cutoff_check := fun _ _ => false
  ocf_req_set_dirty := fun _ => 0
  ocf_user_part_class2id := fun _ id => id
  ocf_user_part_get_cache_mode := fun _ _ => .wb

/-- The environment `ex_env` with a dirty mark that always fails with the
non-zero value `-11`. -/
def ex_env_frozen : ocf_env Unit :=
  { ex_env with ocf_req_set_dirty := fun _ => -11 }

/-- A cache of 1024 lines, default mode write-through, no errors counted,
fallback threshold 100. -/
def ex_cache : ocf_cache where
  fallback_pt_error_counter := 0
  fallback_pt_error_threshold := 100
  pt_unaligned_io := true
  conf_meta := { cachelines := 1024, cache_mode := .wt }

/-- The cache `ex_cache` after 100 errors: the counter equals the
threshold. -/
def ex_cache_fallback : ocf_cache :=
  { ex_cache with fallback_pt_error_counter := 100 }

/-- A cache with four I/O queues, on which every allocation succeeds. -/
def ex_prl_env : ocf_prl_env where
  OCF_ERR_NO_MEM := 1000001
  sizeof_parallelize := 56
  sizeof_req_ptr := 8
  io_queues := [10, 11, 12, 13]
  mngt_queue := 1
  env_vzalloc := fun _ => some 4104
  ocf_req_new_mngt := fun _ _ => true

/-- A user handler that fails with `-3` on shard 3 and with `-5` on shard 5
and succeeds on every other shard. -/
def ex_handle (shard_id _shards_cnt : Nat) : Int :=
  if shard_id = 3 then -3 else if shard_id = 5 then -5 else 0

/-- The parallelizer of eight shards that `ocf_parallelize_create` builds on
`ex_prl_env`, without a private area. -/
def ex_parallelize : ocf_parallelize where
  priv := none
  shards_cnt := 8
  remaining := 9
  error := 0
  reqs := [
    { queue := 10, internal := true,
      engine_handler := ._ocf_parallelize_hndl, byte_position := 0 },
    { queue := 11, internal := true,
      engine_handler := ._ocf_parallelize_hndl, byte_position := 1 },
    { queue := 12, internal := true,
      engine_handler := ._ocf_parallelize_hndl, byte_position := 2 },
    { queue := 13, internal := true,
      engine_handler := ._ocf_parallelize_hndl, byte_position := 3 },
    { queue := 10, internal := true,
      engine_handler := ._ocf_parallelize_hndl, byte_position := 4 },
    { queue := 11, internal := true,
      engine_handler := ._ocf_parallelize_hndl, byte_position := 5 },
    { queue := 12, internal := true,
      engine_handler := ._ocf_parallelize_hndl, byte_position := 6 },
    { queue := 13, internal := true,
      engine_handler := ._ocf_parallelize_hndl, byte_position := 7 }]

/-- A run of eight shards, operation by operation. The requests of a queue
are handled one at a time, in the order of the pushes; handlers of different
queues overlap, and the first ones start while the caller is still pushing.
The handlers of shard 3 (queue 13) and of shard 5 (queue 11) overlap: shard 3
latches its error first, but shard 5 decrements `remaining` first. The caller
decrements in the middle; the handler of shard 4 decrements last and calls
`finish`. -/
def ex_sched : List ocf_prl_op :=
  [.push, .push, .push, .push, .handle 1, .cmpxchg 1, .push, .push,
   .dec (.shard 1), .handle 3, .handle 5, .push, .push,
   .cmpxchg 3, .cmpxchg 5, .dec (.shard 5), .dec (.shard 3), .dec .run,
   .handle 0, .cmpxchg 0, .dec (.shard 0),
   .handle 2, .cmpxchg 2, .dec (.shard 2),
   .handle 7, .handle 4, .handle 6, .cmpxchg 7, .cmpxchg 6, .cmpxchg 4,
   .dec (.shard 6), .dec (.shard 7), .dec (.shard 4),
   .read (.shard 4), .finish (.shard 4)]

/-- A pass-through environment in which `OCF_LOCK_ACQUIRED` is 0, the
request has one mapped line, the lock is acquired at once, no line is dirty
and a repartition is needed. -/
def ex_pt_env : ocf_pt_env where
  OCF_LOCK_ACQUIRED := 0
  ocf_engine_traverse := fun req => req
  ocf_engine_is_dirty_all := fun _ => false
  ocf_engine_mapped_count := fun _ => 1
  ocf_req_async_lock_rd := fun _ => 0
  ocf_engine_needs_repart := fun _ => true
  ocf_req_clear := fun req => req

/-- An aligned one-line read with `force_pt` set and no mode resolved yet. -/
def ex_req_force_pt : ocf_request where
  addr := 4096
  bytes := 4096
  core_line_count := 1
  rw := .OCF_READ
  cache_mode := .max
  part_id := 0
  seq_cutoff := false
  force_pt := true
  info := { dirty_any := false, hit_no := 0 }
  engine_handler := none

/-- An aligned one-line write. -/
def ex_req_write : ocf_request :=
  { ex_req_force_pt with rw := .OCF_WRITE, force_pt := false }

/-- An aligned one-line read, `force_pt` clear. -/
def ex_req_read : ocf_request :=
  { ex_req_force_pt with force_pt := false }

/-- A read whose length, 512 bytes, is not a multiple of 4 KiB. -/
def ex_req_unaligned : ocf_request :=
  { ex_req_read with bytes := 512 }

/-- An aligned read that spans exactly as many lines as `ex_cache` holds. -/
def ex_req_1024_lines : ocf_request :=
  { ex_req_read with bytes := 4194304, core_line_count := 1024 }

/-- An aligned read that spans one line more than `ex_cache` holds. -/
def ex_req_1025_lines : ocf_request :=
  { ex_req_read with bytes := 4198400, core_line_count := 1025 }

/-- An aligned one-line read on which the traverse has found a dirty line. -/
def ex_req_dirty : ocf_request :=
  { ex_req_read with info := { dirty_any := true, hit_no := 1 } }

/-- The environment `ex_pt_env` with a lock manager that fails with `-12`. -/
def ex_pt_env_lock_error : ocf_pt_env :=
  { ex_pt_env with ocf_req_async_lock_rd := fun _ => -12 }

/-- The environment `ex_pt_env` with a lock manager that answers 1: the lock
is not acquired yet and the request will be resumed. -/
def ex_pt_env_pending : ocf_pt_env :=
  { ex_pt_env with ocf_req_async_lock_rd := fun _ => 1 }

/-- The environment `ex_pt_env` with a traverse that finds every line of the
request dirty. -/
def ex_pt_env_dirty_all : ocf_pt_env :=
  { ex_pt_env with ocf_engine_is_dirty_all := fun _ => true }

/-- An aligned one-line read redirected by the sequential cut-off. -/
def ex_req_seq_cutoff : ocf_request :=
  { ex_req_read with cache_mode := .pt, seq_cutoff := true }

/-- The cache of `ex_prl_env` without any I/O queue. -/
def ex_prl_env_no_queue : ocf_prl_env :=
  { ex_prl_env with io_queues := [] }

/-- The parallelizer of three shards and a private area of 100 bytes that
`ocf_parallelize_create` builds on `ex_prl_env`: the allocation starts at
4104, the header and the three request pointers take 80 bytes, and the
private area starts at 4224, the first multiple of 64 from 4184 on. -/
def ex_parallelize_priv : ocf_parallelize where
  priv := some 4224
  shards_cnt := 3
  remaining := 4
  error := 0
  reqs := [
    { queue := 10, internal := true,
      engine_handler := ._ocf_parallelize_hndl, byte_position := 0 },
    { queue := 11, internal := true,
      engine_handler := ._ocf_parallelize_hndl, byte_position := 1 },
    { queue := 12, internal := true,
      engine_handler := ._ocf_parallelize_hndl, byte_position := 2 }]

/-- The environment `ex_env` with a sequential cut-off check that fires on
every request. -/
def ex_env_seq : ocf_env Unit :=
  { ex_env with ocf_core_seq_cutoff_check := fun _ _ => true }

end Ocf

namespace Ocf

/-! ## The mode resolver -/

/-- The resolver never fails on a cache whose error counter is not negative. -/
theorem fallback_pt_is_on_some {Core : Type} (env : ocf_env Core)
    (cache : ocf_cache) (hc : 0 ≤ cache.fallback_pt_error_counter) :
    ocf_fallback_pt_is_on env cache = some
      (decide (cache.fallback_pt_error_threshold ≠
          env.OCF_CACHE_FALLBACK_PT_INACTIVE) &&
        decide (cache.fallback_pt_error_counter ≥
          cache.fallback_pt_error_threshold)) := by
  unfold ocf_fallback_pt_is_on
  rw [if_neg (not_lt.mpr hc)]

/-- Value of the resolver when rules 1 to 4 do not match. -/
theorem resolve_rule_5_6 {Core : Type} (env : ocf_env Core)
    (cache : ocf_cache) (core : Core) (req : ocf_request)
    (h1 : ocf_fallback_pt_is_on env cache = some false)
    (h2 : (cache.pt_unaligned_io && !ocf_req_is_4k req.addr req.bytes) = false)
    (h3 : req.core_line_count ≤ cache.conf_meta.cachelines)
    (h4 : env.ocf_core_seq_cutoff_check core req = false) :
    ocf_resolve_effective_cache_mode env cache core req =
      some (if req.rw = .OCF_WRITE ∧
          ocf_req_cache_mode_has_lazy_write (configured_mode env cache req)
            = true ∧
          env.ocf_req_set_dirty
            { req with cache_mode := configured_mode env cache req } ≠ 0
        then { req with cache_mode := .wt }
        else { req with cache_mode := configured_mode env cache req }) := by
  have hM : (if (!ocf_cache_mode_is_valid
        (env.ocf_user_part_get_cache_mode cache
          (env.ocf_user_part_class2id cache req.part_id))) = true
      then cache.conf_meta.cache_mode
      else env.ocf_user_part_get_cache_mode cache
          (env.ocf_user_part_class2id cache req.part_id))
      = configured_mode env cache req := by
    cases h : ocf_cache_mode_is_valid (env.ocf_user_part_get_cache_mode cache
          (env.ocf_user_part_class2id cache req.part_id)) <;>
      simp [configured_mode, h]
  unfold ocf_resolve_effective_cache_mode
  simp only [h1, h2, h4, not_lt.mpr h3, if_false, Bool.false_eq_true,
    gt_iff_lt, hM, ocf_cache_mode_to_req_cache_mode]
  by_cases hw : req.rw = .OCF_WRITE
  · by_cases hl : ocf_req_cache_mode_has_lazy_write
        (configured_mode env cache req) = true
    · by_cases hd : env.ocf_req_set_dirty
          { req with cache_mode := configured_mode env cache req } = 0
      · simp only [hw] at hd ⊢
        simp [hl, hd]
      · simp only [hw] at hd ⊢
        simp [hl, hd]
    · simp [hw, hl]
  · simp [hw]

/-- Closed form of the resolver on a cache whose error counter is not
negative: the request it leaves, rule by rule. -/
theorem resolve_eq {Core : Type} (env : ocf_env Core)
    (cache : ocf_cache) (core : Core) (req : ocf_request)
    (hc : 0 ≤ cache.fallback_pt_error_counter) :
    ocf_resolve_effective_cache_mode env cache core req = some
      (if ocf_fallback_pt_is_on env cache = some true ∨
          (cache.pt_unaligned_io && !ocf_req_is_4k req.addr req.bytes) = true ∨
          cache.conf_meta.cachelines < req.core_line_count
        then { req with cache_mode := .pt }
        else if env.ocf_core_seq_cutoff_check core req = true
        then { req with cache_mode := .pt, seq_cutoff := true }
        else if req.rw = .OCF_WRITE ∧
          ocf_req_cache_mode_has_lazy_write (configured_mode env cache req)
            = true ∧
          env.ocf_req_set_dirty
            { req with cache_mode := configured_mode env cache req } ≠ 0
        then { req with cache_mode := .wt }
        else { req with cache_mode := configured_mode env cache req }) := by
  have hs := fallback_pt_is_on_some env cache hc
  cases hon : ocf_fallback_pt_is_on env cache with
  | none => rw [hon] at hs; cases hs
  | some b =>
    cases b with
    | true =>
      unfold ocf_resolve_effective_cache_mode
      rw [hon]
      simp
    | false =>
      by_cases h2 : (cache.pt_unaligned_io &&
          !ocf_req_is_4k req.addr req.bytes) = true
      · unfold ocf_resolve_effective_cache_mode
        rw [hon]
        simp only []
        rw [if_pos h2, if_pos (Or.inr (Or.inl h2))]
      · by_cases h3 : req.core_line_count > cache.conf_meta.cachelines
        · unfold ocf_resolve_effective_cache_mode
          rw [hon]
          simp only []
          rw [if_neg h2, if_pos h3, if_pos (Or.inr (Or.inr h3))]
        · have hn : ¬ (some false = some true ∨
              (cache.pt_unaligned_io &&
                !ocf_req_is_4k req.addr req.bytes) = true ∨
              cache.conf_meta.cachelines < req.core_line_count) := by
            rintro (h | h | h)
            · cases h
            · exact h2 h
            · exact h3 h
          by_cases h4 : env.ocf_core_seq_cutoff_check core req = true
          · unfold ocf_resolve_effective_cache_mode
            rw [hon]
            simp only []
            rw [if_neg h2, if_neg h3, if_pos h4, if_neg hn, if_pos h4]
          · rw [if_neg hn, if_neg h4]
            exact resolve_rule_5_6 env cache core req hon
              (by simpa using h2) (not_lt.mp h3) (by simpa using h4)

/-- The resolver leaves `force_pt` as it is. -/
theorem resolve_force_pt_eq {Core : Type} (env : ocf_env Core)
    (cache : ocf_cache) (core : Core) (req r : ocf_request)
    (hc : 0 ≤ cache.fallback_pt_error_counter)
    (h : ocf_resolve_effective_cache_mode env cache core req = some r) :
    r.force_pt = req.force_pt := by
  rw [resolve_eq env cache core req hc] at h
  injection h with h
  subst h
  split_ifs <;> rfl

/-- C1 (counterexample): an aligned one-line read with `force_pt` set, on a
cache that is not in fallback and whose partition is configured write-back,
is resolved to write-back, not to pass-through. -/
theorem C1_force_pt_not_resolved_to_pt :
    ex_req_force_pt.force_pt = true ∧
    (ocf_resolve_effective_cache_mode ex_env ex_cache () ex_req_force_pt).map
      (fun r => r.cache_mode) = some .wb := by
  decide

/-- C1 (amended): the resolver does not read `force_pt`. For a request with
`force_pt` set, on a cache whose error counter is not negative, resolution
succeeds, keeps the flag, and the resolved mode is pass-through exactly when
the cache is in fallback, or the request is unaligned while `pt_unaligned_io`
is on, or it spans more lines than the cache holds, or the sequential cut-off
check fires, or the configured mode `M` is itself pass-through. -/
theorem C1_force_pt_resolved_mode {Core : Type} (env : ocf_env Core)
    (cache : ocf_cache) (core : Core) (req : ocf_request)
    (hc : 0 ≤ cache.fallback_pt_error_counter)
    (hf : req.force_pt = true) :
    ∃ r, ocf_resolve_effective_cache_mode env cache core req = some r ∧
      r.force_pt = true ∧
      (r.cache_mode = .pt ↔
        (ocf_fallback_pt_is_on env cache = some true ∨
         (cache.pt_unaligned_io && !ocf_req_is_4k req.addr req.bytes) = true ∨
         cache.conf_meta.cachelines < req.core_line_count ∨
         env.ocf_core_seq_cutoff_check core req = true ∨
         configured_mode env cache req = .pt)) := by
  refine ⟨_, resolve_eq env cache core req hc, ?_, ?_⟩
  · split_ifs <;> exact hf
  · split_ifs with h13 h4 h6
    · simp only [true_iff]
      rcases h13 with h | h | h
      · exact Or.inl h
      · exact Or.inr (Or.inl h)
      · exact Or.inr (Or.inr (Or.inl h))
    · simp only [true_iff]
      exact Or.inr (Or.inr (Or.inr (Or.inl h4)))
    · have hM : configured_mode env cache req ≠ .pt := by
        intro hM
        rw [hM] at h6
        exact absurd h6.2.1 (by decide)
      simp only [not_or] at h13
      simp [h13.1, h13.2.1, h13.2.2, h4, hM]
    · simp only [not_or] at h13
      simp [h13.1, h13.2.1, h13.2.2, h4]

/-- C1 (witness): the amended statement at the request of the
counterexample. -/
theorem C1_force_pt_resolved_mode_witness :
    ∃ r, ocf_resolve_effective_cache_mode ex_env ex_cache () ex_req_force_pt
        = some r ∧
      r.force_pt = true ∧
      (r.cache_mode = .pt ↔
        (ocf_fallback_pt_is_on ex_env ex_cache = some true ∨
         (ex_cache.pt_unaligned_io &&
            !ocf_req_is_4k ex_req_force_pt.addr ex_req_force_pt.bytes) = true ∨
         ex_cache.conf_meta.cachelines < ex_req_force_pt.core_line_count ∨
         ex_env.ocf_core_seq_cutoff_check () ex_req_force_pt = true ∨
         configured_mode ex_env ex_cache ex_req_force_pt = .pt)) :=
  C1_force_pt_resolved_mode ex_env ex_cache () ex_req_force_pt
    (by decide) (by decide)

/-- C5 (counterexample): rules 1 to 4 do not match, the configured mode is
write-back, the request is a write and the dirty mark succeeds (the operation
returns 0); the resolved mode is write-back, not write-through. -/
theorem C5_mark_success_keeps_lazy_mode :
    ocf_fallback_pt_is_on ex_env ex_cache = some false ∧
    ocf_req_is_4k ex_req_write.addr ex_req_write.bytes = true ∧
    ex_req_write.core_line_count ≤ ex_cache.conf_meta.cachelines ∧
    ex_env.ocf_core_seq_cutoff_check () ex_req_write = false ∧
    configured_mode ex_env ex_cache ex_req_write = .wb ∧
    ex_req_write.rw = .OCF_WRITE ∧
    ocf_req_cache_mode_has_lazy_write .wb = true ∧
    ex_env.ocf_req_set_dirty
      { ex_req_write with cache_mode := .wb } = 0 ∧
    (ocf_resolve_effective_cache_mode ex_env ex_cache () ex_req_write).map
      (fun r => r.cache_mode) = some .wb := by
  decide

/-- C5 (amended): when rules 1 to 4 do not match, the resolver sets the mode
to write-through if the request is a write, the configured mode `M` has lazy
write and `ocf_req_set_dirty`, called on the request carrying `M`, returns a
non-zero value; in every other case (a read, a non-lazy `M`, or the operation
returning 0) it sets the mode to `M`. In particular configured write-back,
a write and a non-zero return give write-through, and configured write-back,
a write and a return of 0 give write-back. -/
theorem C5_lazy_write_escalation {Core : Type} (env : ocf_env Core)
    (cache : ocf_cache) (core : Core) (req : ocf_request)
    (h1 : ocf_fallback_pt_is_on env cache = some false)
    (h2 : cache.pt_unaligned_io = false ∨
      ocf_req_is_4k req.addr req.bytes = true)
    (h3 : req.core_line_count ≤ cache.conf_meta.cachelines)
    (h4 : env.ocf_core_seq_cutoff_check core req = false) :
    ∃ r, ocf_resolve_effective_cache_mode env cache core req = some r ∧
      r.cache_mode =
        (if req.rw = .OCF_WRITE ∧
            ocf_req_cache_mode_has_lazy_write (configured_mode env cache req)
              = true ∧
            env.ocf_req_set_dirty
              { req with cache_mode := configured_mode env cache req } ≠ 0
          then .wt else configured_mode env cache req) ∧
      (configured_mode env cache req = .wb → req.rw = .OCF_WRITE →
        env.ocf_req_set_dirty { req with cache_mode := .wb } ≠ 0 →
        r.cache_mode = .wt) ∧
      (configured_mode env cache req = .wb → req.rw = .OCF_WRITE →
        env.ocf_req_set_dirty { req with cache_mode := .wb } = 0 →
        r.cache_mode = .wb) := by
  have h2' : (cache.pt_unaligned_io &&
      !ocf_req_is_4k req.addr req.bytes) = false := by
    rcases h2 with h | h <;> simp [h]
  refine ⟨_, resolve_rule_5_6 env cache core req h1 h2' h3 h4, ?_, ?_, ?_⟩
  · split_ifs <;> rfl
  · intro hM hw hd
    rw [hM]
    rw [if_pos ⟨hw, by decide, hd⟩]
  · intro hM hw hd
    rw [hM]
    rw [if_neg (fun h => h.2.2 hd)]

/-- C5 (witness): the amended statement at a write on a write-back partition
whose dirty mark returns `-11`. -/
theorem C5_lazy_write_escalation_witness :
    ∃ r, ocf_resolve_effective_cache_mode ex_env_frozen ex_cache ()
        ex_req_write = some r ∧
      r.cache_mode =
        (if ex_req_write.rw = .OCF_WRITE ∧
            ocf_req_cache_mode_has_lazy_write
              (configured_mode ex_env_frozen ex_cache ex_req_write) = true ∧
            ex_env_frozen.ocf_req_set_dirty
              { ex_req_write with
                cache_mode :=
                  configured_mode ex_env_frozen ex_cache ex_req_write } ≠ 0
          then .wt else configured_mode ex_env_frozen ex_cache ex_req_write) ∧
      (configured_mode ex_env_frozen ex_cache ex_req_write = .wb →
        ex_req_write.rw = .OCF_WRITE →
        ex_env_frozen.ocf_req_set_dirty
          { ex_req_write with cache_mode := .wb } ≠ 0 →
        r.cache_mode = .wt) ∧
      (configured_mode ex_env_frozen ex_cache ex_req_write = .wb →
        ex_req_write.rw = .OCF_WRITE →
        ex_env_frozen.ocf_req_set_dirty
          { ex_req_write with cache_mode := .wb } = 0 →
        r.cache_mode = .wb) :=
  C5_lazy_write_escalation ex_env_frozen ex_cache () ex_req_write
    (by decide) (Or.inr (by decide)) (by decide) (by decide)

/-! ## The dispatcher -/

/-- A valid mode has a handler for both directions. -/
theorem engine_cb_of_valid (mode : ocf_req_cache_mode_t) (rw : ocf_rw)
    (h : ocf_cache_mode_is_valid mode = true) :
    (ocf_cache_mode_to_engine_cb mode rw).isSome = true := by
  cases mode <;> cases rw <;> first | rfl | cases h

/-- The configured mode is valid when the cache-wide default is. -/
theorem configured_mode_valid {Core : Type} (env : ocf_env Core)
    (cache : ocf_cache) (req : ocf_request)
    (hv : ocf_cache_mode_is_valid cache.conf_meta.cache_mode = true) :
    ocf_cache_mode_is_valid (configured_mode env cache req) = true := by
  unfold configured_mode
  simp only []
  split_ifs with h
  · exact h
  · exact hv

/-- C6: on a cache whose default mode is valid (and whose error counter
satisfies the asserted invariant of not being negative), the resolver succeeds
and leaves one of the six modes wt, wb, wa, wi, wo, pt, never `max` and never
`fast`; `ocf_engine_hndl_req` on the resolved request finds a handler and
returns 0, not the `INVALID` error. -/
theorem C6_resolved_mode_dispatchable {Core : Type} (env : ocf_env Core)
    (cache : ocf_cache) (core : Core) (req : ocf_request)
    (hc : 0 ≤ cache.fallback_pt_error_counter)
    (hv : ocf_cache_mode_is_valid cache.conf_meta.cache_mode = true) :
    ∃ r, ocf_resolve_effective_cache_mode env cache core req = some r ∧
      r.cache_mode ∈ [ocf_req_cache_mode_t.wt, .wb, .wa, .wi, .wo, .pt] ∧
      r.cache_mode ≠ .max ∧ r.cache_mode ≠ .fast ∧
      (ocf_engine_hndl_req env r).2.1.engine_handler.isSome = true ∧
      (ocf_engine_hndl_req env r).1 = 0 ∧
      (env.OCF_ERR_INVAL ≠ 0 →
        (ocf_engine_hndl_req env r).1 ≠ -env.OCF_ERR_INVAL) := by
  have hM := configured_mode_valid env cache req hv
  have hvalid : ∀ r, ocf_resolve_effective_cache_mode env cache core req
      = some r → ocf_cache_mode_is_valid r.cache_mode = true := by
    intro r hr
    rw [resolve_eq env cache core req hc] at hr
    injection hr with hr
    subst hr
    split_ifs
    · rfl
    · rfl
    · rfl
    · exact hM
  refine ⟨_, resolve_eq env cache core req hc, ?_⟩
  have hval := hvalid _ (resolve_eq env cache core req hc)
  generalize (if ocf_fallback_pt_is_on env cache = some true ∨
          (cache.pt_unaligned_io && !ocf_req_is_4k req.addr req.bytes) = true ∨
          cache.conf_meta.cachelines < req.core_line_count
        then { req with cache_mode := .pt }
        else if env.ocf_core_seq_cutoff_check core req = true
        then { req with cache_mode := .pt, seq_cutoff := true }
        else if req.rw = .OCF_WRITE ∧
          ocf_req_cache_mode_has_lazy_write (configured_mode env cache req)
            = true ∧
          env.ocf_req_set_dirty
            { req with cache_mode := configured_mode env cache req } ≠ 0
        then { req with cache_mode := .wt }
        else { req with cache_mode := configured_mode env cache req }) = r
    at hval ⊢
  have hcb := engine_cb_of_valid r.cache_mode r.rw hval
  have hmem : r.cache_mode ∈
      [ocf_req_cache_mode_t.wt, .wb, .wa, .wi, .wo, .pt] ∧
      r.cache_mode ≠ .max ∧ r.cache_mode ≠ .fast := by
    revert hval
    cases r.cache_mode <;> simp [ocf_cache_mode_is_valid]
  have hh : (ocf_engine_hndl_req env r).2.1.engine_handler.isSome = true ∧
      (ocf_engine_hndl_req env r).1 = 0 := by
    unfold ocf_engine_hndl_req
    simp only []
    have hn : (ocf_cache_mode_to_engine_cb r.cache_mode r.rw).isNone
        = false := by
      rw [Option.isNone_eq_false_iff]
      exact hcb
    rw [if_neg (by rw [hn]; simp)]
    exact ⟨hcb, rfl⟩
  refine ⟨hmem.1, hmem.2.1, hmem.2.2, hh.1, hh.2, ?_⟩
  intro hne heq
  rw [hh.2] at heq
  exact hne (by omega)

/-- C6 (witness): the statement at the write of the examples. -/
theorem C6_resolved_mode_dispatchable_witness :
    ∃ r, ocf_resolve_effective_cache_mode ex_env ex_cache () ex_req_write
        = some r ∧
      r.cache_mode ∈ [ocf_req_cache_mode_t.wt, .wb, .wa, .wi, .wo, .pt] ∧
      r.cache_mode ≠ .max ∧ r.cache_mode ≠ .fast ∧
      (ocf_engine_hndl_req ex_env r).2.1.engine_handler.isSome = true ∧
      (ocf_engine_hndl_req ex_env r).1 = 0 ∧
      (ex_env.OCF_ERR_INVAL ≠ 0 →
        (ocf_engine_hndl_req ex_env r).1 ≠ -ex_env.OCF_ERR_INVAL) :=
  C6_resolved_mode_dispatchable ex_env ex_cache () ex_req_write
    (by decide) (by decide)

/-- C7: `ocf_cache_mode_to_engine_cb` returns a handler for each of the 14
pairs of a mode among wt, wb, wa, wi, pt, wo, fast and a direction, namely the
one of the dispatch table; it never returns the flush or the discard handler;
for the sentinel `max` it returns no handler. -/
theorem C7_dispatch_table :
    ocf_cache_mode_to_engine_cb .wt .OCF_READ = some .ocf_read_generic ∧
    ocf_cache_mode_to_engine_cb .wb .OCF_READ = some .ocf_read_generic ∧
    ocf_cache_mode_to_engine_cb .wa .OCF_READ = some .ocf_read_generic ∧
    ocf_cache_mode_to_engine_cb .wi .OCF_READ = some .ocf_read_generic ∧
    ocf_cache_mode_to_engine_cb .pt .OCF_READ = some .ocf_read_pt ∧
    ocf_cache_mode_to_engine_cb .wo .OCF_READ = some .ocf_read_wo ∧
    ocf_cache_mode_to_engine_cb .fast .OCF_READ = some .ocf_read_fast ∧
    ocf_cache_mode_to_engine_cb .wt .OCF_WRITE = some .ocf_write_wt ∧
    ocf_cache_mode_to_engine_cb .wb .OCF_WRITE = some .ocf_write_wb ∧
    ocf_cache_mode_to_engine_cb .wa .OCF_WRITE = some .ocf_write_wa ∧
    ocf_cache_mode_to_engine_cb .wi .OCF_WRITE = some .ocf_write_wi ∧
    ocf_cache_mode_to_engine_cb .pt .OCF_WRITE = some .ocf_write_wi ∧
    ocf_cache_mode_to_engine_cb .wo .OCF_WRITE = some .ocf_write_wb ∧
    ocf_cache_mode_to_engine_cb .fast .OCF_WRITE = some .ocf_write_fast ∧
    (∀ mode rw,
      ocf_cache_mode_to_engine_cb mode rw ≠ some .ocf_engine_flush ∧
      ocf_cache_mode_to_engine_cb mode rw ≠ some .ocf_engine_discard) ∧
    (∀ rw, ocf_cache_mode_to_engine_cb .max rw = none) := by
  refine ⟨rfl, rfl, rfl, rfl, rfl, rfl, rfl, rfl, rfl, rfl, rfl, rfl, rfl,
    rfl, ?_, ?_⟩
  · intro mode rw
    cases mode <;> cases rw <;> decide
  · intro rw
    rfl

/-- The lookup finds no handler exactly for the sentinel `max`. -/
theorem engine_cb_none_iff (mode : ocf_req_cache_mode_t) (rw : ocf_rw) :
    ocf_cache_mode_to_engine_cb mode rw = none ↔ mode = .max := by
  cases mode <;> cases rw <;> decide

/-- C8: with a positive error constant `OCF_ERR_INVAL`, `ocf_engine_hndl_req`
returns `-OCF_ERR_INVAL` if and only if no handler is registered for
`(req.cache_mode, req.rw)`, which is the case exactly when the mode is the
sentinel `max`; it then takes no reference and enqueues nothing. Otherwise it
binds `engine_handler` to the table entry, calls `ocf_req_get` once and no
`ocf_req_put`, pushes the request once with only the `ALLOW_SYNC` flag, after
the get, and returns 0. -/
theorem C8_hndl_req {Core : Type} (env : ocf_env Core) (req : ocf_request)
    (hpos : 0 < env.OCF_ERR_INVAL) :
    ((ocf_engine_hndl_req env req).1 = -env.OCF_ERR_INVAL ↔
      ocf_cache_mode_to_engine_cb req.cache_mode req.rw = none) ∧
    (ocf_cache_mode_to_engine_cb req.cache_mode req.rw = none ↔
      req.cache_mode = .max) ∧
    (ocf_cache_mode_to_engine_cb req.cache_mode req.rw = none →
      (ocf_engine_hndl_req env req).2.2 = []) ∧
    (∀ cb, ocf_cache_mode_to_engine_cb req.cache_mode req.rw = some cb →
      (ocf_engine_hndl_req env req).1 = 0 ∧
      (ocf_engine_hndl_req env req).2.1 =
        { req with engine_handler := some cb } ∧
      (ocf_engine_hndl_req env req).2.2 =
        [.ocf_req_get,
         .ocf_queue_push_req
           { OCF_QUEUE_ALLOW_SYNC := true, OCF_QUEUE_PRIO_HIGH := false }] ∧
      gets (ocf_engine_hndl_req env req).2.2 = 1 ∧
      puts (ocf_engine_hndl_req env req).2.2 = 0) := by
  refine ⟨?_, engine_cb_none_iff _ _, ?_, ?_⟩
  · cases hcb : ocf_cache_mode_to_engine_cb req.cache_mode req.rw with
    | none => simp [ocf_engine_hndl_req, hcb]
    | some cb0 =>
      simp only [ocf_engine_hndl_req, hcb, Option.isNone_some,
        Bool.false_eq_true, if_false]
      constructor
      · intro h; omega
      · intro h; cases h
  · intro hcb
    simp [ocf_engine_hndl_req, hcb]
  · intro cb hcb
    have hout : ocf_engine_hndl_req env req =
        (0, { req with engine_handler := some cb },
          [.ocf_req_get,
           .ocf_queue_push_req
             { OCF_QUEUE_ALLOW_SYNC := true,
               OCF_QUEUE_PRIO_HIGH := false }]) := by
      simp only [ocf_engine_hndl_req, hcb, Option.isNone_some,
        Bool.false_eq_true, if_false]
    rw [hout]
    exact ⟨rfl, rfl, rfl, by simp [gets], by simp [puts]⟩

/-- C8 (witness): the statement at the write of the examples. -/
theorem C8_hndl_req_witness :
    ((ocf_engine_hndl_req ex_env ex_req_write).1 = -ex_env.OCF_ERR_INVAL ↔
      ocf_cache_mode_to_engine_cb ex_req_write.cache_mode ex_req_write.rw
        = none) ∧
    (ocf_cache_mode_to_engine_cb ex_req_write.cache_mode ex_req_write.rw
        = none ↔ ex_req_write.cache_mode = .max) ∧
    (ocf_cache_mode_to_engine_cb ex_req_write.cache_mode ex_req_write.rw
        = none → (ocf_engine_hndl_req ex_env ex_req_write).2.2 = []) ∧
    (∀ cb, ocf_cache_mode_to_engine_cb ex_req_write.cache_mode
        ex_req_write.rw = some cb →
      (ocf_engine_hndl_req ex_env ex_req_write).1 = 0 ∧
      (ocf_engine_hndl_req ex_env ex_req_write).2.1 =
        { ex_req_write with engine_handler := some cb } ∧
      (ocf_engine_hndl_req ex_env ex_req_write).2.2 =
        [.ocf_req_get,
         .ocf_queue_push_req
           { OCF_QUEUE_ALLOW_SYNC := true, OCF_QUEUE_PRIO_HIGH := false }] ∧
      gets (ocf_engine_hndl_req ex_env ex_req_write).2.2 = 1 ∧
      puts (ocf_engine_hndl_req ex_env ex_req_write).2.2 = 0) :=
  C8_hndl_req ex_env ex_req_write (by decide)

/-- C9: when a handler is registered for the request,
`ocf_engine_hndl_fast_req` takes one reference, then calls that handler once,
and returns the value the handler returned; it puts the reference back, after
the call, if and only if that value is `OCF_FAST_PATH_NO`, so the net change
of the reference count is 0 in that case and +1 otherwise. When no handler is
registered it returns `-OCF_ERR_INVAL` and makes no call at all. -/
theorem C9_hndl_fast_req {Core : Type} (env : ocf_env Core)
    (engine_cb_ret : ocf_req_cb → ocf_request → Int) (req : ocf_request) :
    (∀ cb, ocf_cache_mode_to_engine_cb req.cache_mode req.rw = some cb →
      (ocf_engine_hndl_fast_req env engine_cb_ret req).1
        = engine_cb_ret cb req ∧
      (ocf_engine_hndl_fast_req env engine_cb_ret req).2.filter is_call
        = [.call cb] ∧
      gets (ocf_engine_hndl_fast_req env engine_cb_ret req).2 = 1 ∧
      (engine_cb_ret cb req = env.OCF_FAST_PATH_NO →
        (ocf_engine_hndl_fast_req env engine_cb_ret req).2
          = [.ocf_req_get, .call cb, .ocf_req_put]) ∧
      (engine_cb_ret cb req ≠ env.OCF_FAST_PATH_NO →
        (ocf_engine_hndl_fast_req env engine_cb_ret req).2
          = [.ocf_req_get, .call cb]) ∧
      (puts (ocf_engine_hndl_fast_req env engine_cb_ret req).2 = 1 ↔
        engine_cb_ret cb req = env.OCF_FAST_PATH_NO) ∧
      ((gets (ocf_engine_hndl_fast_req env engine_cb_ret req).2 : Int) -
          puts (ocf_engine_hndl_fast_req env engine_cb_ret req).2 =
        if engine_cb_ret cb req = env.OCF_FAST_PATH_NO then 0 else 1)) ∧
    (ocf_cache_mode_to_engine_cb req.cache_mode req.rw = none →
      ocf_engine_hndl_fast_req env engine_cb_ret req
        = (-env.OCF_ERR_INVAL, [])) := by
  constructor
  · intro cb hcb
    by_cases hret : engine_cb_ret cb req = env.OCF_FAST_PATH_NO
    · have hout : ocf_engine_hndl_fast_req env engine_cb_ret req =
          (engine_cb_ret cb req, [.ocf_req_get, .call cb, .ocf_req_put]) := by
        simp only [ocf_engine_hndl_fast_req, hcb]
        rw [if_pos hret]
      rw [hout]
      refine ⟨rfl, by simp [is_call], by simp [gets], fun _ => rfl,
        fun h => absurd hret h, ?_, ?_⟩
      · simp [puts, hret]
      · simp [puts, gets, hret]
    · have hout : ocf_engine_hndl_fast_req env engine_cb_ret req =
          (engine_cb_ret cb req, [.ocf_req_get, .call cb]) := by
        simp only [ocf_engine_hndl_fast_req, hcb]
        rw [if_neg hret]
      rw [hout]
      refine ⟨rfl, by simp [is_call], by simp [gets], fun h => absurd h hret,
        fun _ => rfl, ?_, ?_⟩
      · simp [puts, hret]
      · simp [puts, gets, hret]
  · intro hcb
    simp only [ocf_engine_hndl_fast_req, hcb]

/-- C10: on a cache whose error counter is not negative,
`ocf_fallback_pt_is_on` returns true if and only if the threshold is not the
inactive sentinel and the counter is at least the threshold; with an active
threshold a counter equal to the threshold gives true and a counter one below
gives false; and whenever it is true the resolver leaves every request in
pass-through mode. -/
theorem C10_fallback_pt {Core : Type} (env : ocf_env Core)
    (cache : ocf_cache) (hc : 0 ≤ cache.fallback_pt_error_counter) :
    (ocf_fallback_pt_is_on env cache = some true ↔
      (cache.fallback_pt_error_threshold ≠
          env.OCF_CACHE_FALLBACK_PT_INACTIVE ∧
        cache.fallback_pt_error_counter ≥
          cache.fallback_pt_error_threshold)) ∧
    (ocf_fallback_pt_is_on env cache = some false ↔
      ¬ (cache.fallback_pt_error_threshold ≠
          env.OCF_CACHE_FALLBACK_PT_INACTIVE ∧
        cache.fallback_pt_error_counter ≥
          cache.fallback_pt_error_threshold)) ∧
    (cache.fallback_pt_error_threshold ≠ env.OCF_CACHE_FALLBACK_PT_INACTIVE →
      cache.fallback_pt_error_counter = cache.fallback_pt_error_threshold →
      ocf_fallback_pt_is_on env cache = some true) ∧
    (cache.fallback_pt_error_threshold ≠ env.OCF_CACHE_FALLBACK_PT_INACTIVE →
      cache.fallback_pt_error_counter = cache.fallback_pt_error_threshold - 1 →
      ocf_fallback_pt_is_on env cache = some false) ∧
    (ocf_fallback_pt_is_on env cache = some true →
      ∀ (core : Core) (req : ocf_request),
        ∃ r, ocf_resolve_effective_cache_mode env cache core req = some r ∧
          r.cache_mode = .pt) := by
  have hs := fallback_pt_is_on_some env cache hc
  refine ⟨?_, ?_, ?_, ?_, ?_⟩
  · rw [hs]; simp
  · rw [hs]; simp
  · intro ha he
    rw [hs]; simp [ha, he]
  · intro ha he
    rw [hs]; simp [ha, he]
  · intro hon core req
    refine ⟨_, resolve_eq env cache core req hc, ?_⟩
    rw [if_pos (Or.inl hon)]

/-- C10 (witness): the statement at a cache whose counter has reached its
active threshold of 100. -/
theorem C10_fallback_pt_witness :
    (ocf_fallback_pt_is_on ex_env ex_cache_fallback = some true ↔
      (ex_cache_fallback.fallback_pt_error_threshold ≠
          ex_env.OCF_CACHE_FALLBACK_PT_INACTIVE ∧
        ex_cache_fallback.fallback_pt_error_counter ≥
          ex_cache_fallback.fallback_pt_error_threshold)) ∧
    (ocf_fallback_pt_is_on ex_env ex_cache_fallback = some false ↔
      ¬ (ex_cache_fallback.fallback_pt_error_threshold ≠
          ex_env.OCF_CACHE_FALLBACK_PT_INACTIVE ∧
        ex_cache_fallback.fallback_pt_error_counter ≥
          ex_cache_fallback.fallback_pt_error_threshold)) ∧
    (ex_cache_fallback.fallback_pt_error_threshold ≠
        ex_env.OCF_CACHE_FALLBACK_PT_INACTIVE →
      ex_cache_fallback.fallback_pt_error_counter =
        ex_cache_fallback.fallback_pt_error_threshold →
      ocf_fallback_pt_is_on ex_env ex_cache_fallback = some true) ∧
    (ex_cache_fallback.fallback_pt_error_threshold ≠
        ex_env.OCF_CACHE_FALLBACK_PT_INACTIVE →
      ex_cache_fallback.fallback_pt_error_counter =
        ex_cache_fallback.fallback_pt_error_threshold - 1 →
      ocf_fallback_pt_is_on ex_env ex_cache_fallback = some false) ∧
    (ocf_fallback_pt_is_on ex_env ex_cache_fallback = some true →
      ∀ (core : Unit) (req : ocf_request),
        ∃ r, ocf_resolve_effective_cache_mode ex_env ex_cache_fallback core
            req = some r ∧
          r.cache_mode = .pt) :=
  C10_fallback_pt ex_env ex_cache_fallback (by decide)

/-! ## The parallelizer -/

/-- A C `int` in range is its own value. -/
theorem to_int32_of_range (v : Int) (h1 : -2 ^ 31 ≤ v) (h2 : v < 2 ^ 31) :
    to_int32 v = v := by
  unfold to_int32
  omega

/-- The allocation loop, when it succeeds, adds one request per iteration. -/
theorem create_reqs_length (env : ocf_prl_env) (queue_count : Nat) :
    ∀ (n i iter : Nat) (reqs r : List ocf_prl_req),
      ocf_parallelize_create_reqs env queue_count n i iter reqs = .ok r →
      r.length = reqs.length + n := by
  intro n
  induction n with
  | zero =>
    intro i iter reqs r h
    simp only [ocf_parallelize_create_reqs] at h
    cases h
    rfl
  | succ n ih =>
    intro i iter reqs r h
    simp only [ocf_parallelize_create_reqs] at h
    split_ifs at h
    all_goals
      have hlen := ih _ _ _ _ h
      simp only [List.length_append, List.length_singleton] at hlen
      omega

/-- What `ocf_parallelize_create` establishes when it succeeds. -/
theorem create_ok (env : ocf_prl_env) (shards_cnt priv_size : Nat)
    (p : ocf_parallelize)
    (h : ocf_parallelize_create env shards_cnt priv_size = .ok p) :
    1 ≤ p.shards_cnt ∧ p.reqs.length = p.shards_cnt ∧ p.error = 0 ∧
    p.remaining = to_int32 (((p.shards_cnt + 1) % 2 ^ 32 : Nat) : Int) := by
  unfold ocf_parallelize_create at h
  simp only [] at h
  split at h
  · cases h
  · split at h
    · cases h
    · rename_i reqs hreqs
      have hlen := create_reqs_length env _ _ _ _ _ _ hreqs
      cases h
      refine ⟨?_, ?_, rfl, rfl⟩
      · simp only []
        split_ifs <;> omega
      · simpa using hlen

/-- One report on a counter that is positive and in range: the counter drops
by one, and `finish` is logged, with the latched error, exactly when the
counter was 1. -/
theorem prl_finish_eq (s : ocf_prl_state)
    (h1 : 0 < s.parallelize.remaining)
    (h2 : s.parallelize.remaining < 2 ^ 31) :
    _ocf_parallelize_finish s =
      { parallelize :=
          { s.parallelize with remaining := s.parallelize.remaining - 1 },
        log := if s.parallelize.remaining = 1
          then s.log ++ [.finish s.parallelize.error] else s.log } := by
  have hr : to_int32 (s.parallelize.remaining - 1)
      = s.parallelize.remaining - 1 :=
    to_int32_of_range _ (by omega) (by omega)
  unfold _ocf_parallelize_finish
  simp only [hr]
  by_cases h : s.parallelize.remaining = 1
  · simp [h]
  · have h' : s.parallelize.remaining - 1 ≠ 0 := by omega
    simp [h, h']

/-- The latch after one more compare-and-swap. -/
theorem latch_cons (error e : Int) (errors : List Int) :
    latch error (e :: errors) = latch (if error = 0 then e else error) errors := by
  unfold latch
  by_cases h : error = 0
  · simp only [h, ne_eq, not_true_eq_false, if_false, if_true, first_error]
  · simp [h]

/-- The pushes of `ocf_parallelize_run` contain no call of `finish`. -/
theorem finish_calls_pushes (flags : ocf_queue_flags) (l : List Nat) :
    finish_calls (l.map (fun i => ocf_prl_event.ocf_queue_push_req i flags))
      = [] := by
  induction l with
  | nil => rfl
  | cons a l ih =>
    simp only [finish_calls, List.map_cons, List.filterMap_cons] at ih ⊢
    exact ih

/-- The calls of `finish` in a log made of two parts. -/
theorem finish_calls_append (a b : List ocf_prl_event) :
    finish_calls (a ++ b) = finish_calls a ++ finish_calls b := by
  simp [finish_calls, List.filterMap_append]

/-! ### Runs of the parallelizer, operation by operation -/

/-- The position of the thread that was moved. -/
theorem pc_set_same (pc : ocf_prl_thread → ocf_prl_pc) (w : ocf_prl_thread)
    (v : ocf_prl_pc) : pc_set pc w v w = v := by
  simp [pc_set]

/-- The position of a thread that was not moved. -/
theorem pc_set_ne (pc : ocf_prl_thread → ocf_prl_pc) (w w' : ocf_prl_thread)
    (v : ocf_prl_pc) (h : w' ≠ w) : pc_set pc w v w' = pc w' := by
  simp [pc_set, h]

/-- The compare-and-swap order of two runs of operations, one after the
other. -/
theorem cas_order_append (a b : List ocf_prl_op) :
    cas_order (a ++ b) = cas_order a ++ cas_order b := by
  simp [cas_order, List.filterMap_append]

/-- The decrement order of two runs of operations, one after the other. -/
theorem dec_order_append (a b : List ocf_prl_op) :
    dec_order (a ++ b) = dec_order a ++ dec_order b := by
  simp [dec_order, List.filterMap_append]

/-- The threads of a run are pairwise distinct. -/
theorem prl_threads_nodup (n : Nat) : (ocf_prl_threads n).Nodup := by
  unfold ocf_prl_threads
  rw [List.nodup_cons]
  constructor
  · simp
  · exact (List.nodup_range n).map (fun a b h => by cases h; rfl)

/-- There are `n + 1` threads. -/
theorem prl_threads_length (n : Nat) : (ocf_prl_threads n).length = n + 1 := by
  simp [ocf_prl_threads]

/-- Membership in the threads of a run. -/
theorem mem_prl_threads (n : Nat) (w : ocf_prl_thread) :
    w ∈ ocf_prl_threads n ↔ w = .run ∨ ∃ i, i < n ∧ w = .shard i := by
  unfold ocf_prl_threads
  simp only [List.mem_cons, List.mem_map, List.mem_range]
  constructor
  · rintro (h | ⟨i, hi, h⟩)
    · exact Or.inl h
    · exact Or.inr ⟨i, hi, h.symm⟩
  · rintro (h | ⟨i, hi, h⟩)
    · exact Or.inl h
    · exact Or.inr ⟨i, hi, h.symm⟩

/-- Distinct threads of a run are at most `n + 1`. -/
theorem prl_threads_bound (n : Nat) (d : List ocf_prl_thread)
    (hd : d.Nodup) (hv : ∀ w ∈ d, w ∈ ocf_prl_threads n) :
    d.length ≤ n + 1 := by
  have h := (List.subperm_of_subset hd hv).length_le
  rwa [prl_threads_length] at h

/-- When `n + 1` distinct threads of a run are listed, every thread is. -/
theorem prl_threads_full (n : Nat) (d : List ocf_prl_thread)
    (hd : d.Nodup) (hv : ∀ w ∈ d, w ∈ ocf_prl_threads n)
    (hl : d.length = n + 1) :
    ∀ w, w ∈ ocf_prl_threads n → w ∈ d := by
  have h := (List.subperm_of_subset hd hv).perm_of_length_le
    (by rw [prl_threads_length, hl])
  intro w hw
  exact h.symm.subset hw

/-- The latch after the compare-and-swap of one more error code. -/
theorem latch_append_singleton (error e : Int) (errors : List Int) :
    latch error (errors ++ [e]) =
      if latch error errors = 0 then e else latch error errors := by
  induction errors generalizing error with
  | nil =>
    by_cases h : error = 0
    · subst h
      by_cases he : e = 0 <;> simp [latch, first_error, he]
    · simp [latch, h]
  | cons x xs ih =>
    rw [List.cons_append, latch_cons, latch_cons, ih]

/-! ## Merging the calls of two activities -/

/-- A merge of two sequences is a rearrangement of their concatenation. -/
theorem interleavings_perm {α : Type} :
    ∀ (a b t : List α), t ∈ interleavings a b → t.Perm (a ++ b) := by
  intro a b
  induction a, b using interleavings.induct with
  | case1 ys =>
    intro t ht
    simp only [interleavings, List.mem_singleton] at ht
    subst ht
    simp
  | case2 x xs =>
    intro t ht
    simp only [interleavings, List.mem_singleton] at ht
    subst ht
    simp
  | case3 x xs y ys ih1 ih2 =>
    intro t ht
    simp only [interleavings, List.mem_append, List.mem_map] at ht
    rcases ht with ⟨t', ht', rfl⟩ | ⟨t', ht', rfl⟩
    · exact List.Perm.cons x (ih1 t' ht')
    · have h := ih2 t' ht'
      have h2 : (y :: t').Perm (y :: (x :: xs ++ ys)) := List.Perm.cons y h
      exact h2.trans (List.perm_middle.symm)

/-- A merge keeps the order of its second sequence. -/
theorem interleavings_sublist_right {α : Type} :
    ∀ (a b t : List α), t ∈ interleavings a b → b.Sublist t := by
  intro a b
  induction a, b using interleavings.induct with
  | case1 ys =>
    intro t ht
    simp only [interleavings, List.mem_singleton] at ht
    subst ht
    exact List.Sublist.refl _
  | case2 x xs =>
    intro t ht
    exact List.nil_sublist _
  | case3 x xs y ys ih1 ih2 =>
    intro t ht
    simp only [interleavings, List.mem_append, List.mem_map] at ht
    rcases ht with ⟨t', ht', rfl⟩ | ⟨t', ht', rfl⟩
    · exact List.Sublist.cons x (ih1 t' ht')
    · exact List.Sublist.cons₂ y (ih2 t' ht')

/-- A merge keeps the order of its first sequence. -/
theorem interleavings_sublist_left {α : Type} :
    ∀ (a b t : List α), t ∈ interleavings a b → a.Sublist t := by
  intro a b
  induction a, b using interleavings.induct with
  | case1 ys =>
    intro t ht
    exact List.nil_sublist _
  | case2 x xs =>
    intro t ht
    simp only [interleavings, List.mem_singleton] at ht
    subst ht
    exact List.Sublist.refl _
  | case3 x xs y ys ih1 ih2 =>
    intro t ht
    simp only [interleavings, List.mem_append, List.mem_map] at ht
    rcases ht with ⟨t', ht', rfl⟩ | ⟨t', ht', rfl⟩
    · exact List.Sublist.cons₂ x (ih1 t' ht')
    · exact List.Sublist.cons y (ih2 t' ht')

/-- Running the second sequence after the first is one of the merges. -/
theorem append_mem_interleavings {α : Type} :
    ∀ (a b : List α), a ++ b ∈ interleavings a b := by
  intro a b
  induction a, b using interleavings.induct with
  | case1 ys => simp [interleavings]
  | case2 x xs => simp [interleavings]
  | case3 x xs y ys ih1 ih2 =>
    simp only [interleavings, List.mem_append, List.mem_map]
    exact Or.inl ⟨_, ih1, rfl⟩

/-- A trace that contains `y` splits at its last `y`. -/
theorem split_at_last {α : Type} (y : α) :
    ∀ t : List α, y ∈ t → ∃ a b, t = a ++ y :: b ∧ y ∉ b := by
  intro t
  induction t with
  | nil => intro h; cases h
  | cons h t ih =>
    intro hy
    by_cases hyt : y ∈ t
    · obtain ⟨a, b, hab, hb⟩ := ih hyt
      exact ⟨h :: a, b, by rw [hab]; rfl, hb⟩
    · have : y = h := by
        rcases List.mem_cons.mp hy with h1 | h1
        · exact h1
        · exact absurd h1 hyt
      subst this
      exact ⟨[], t, rfl, hyt⟩

/-- When `x`, then `y`, occur in this order in a trace, `x` occurs before the
last `y` of the trace. -/
theorem before_last_of_sublist {α : Type} (x y : α) :
    ∀ t : List α, [x, y].Sublist t →
      ∃ a b, t = a ++ y :: b ∧ y ∉ b ∧ x ∈ a := by
  intro t
  induction t with
  | nil => intro h; cases h
  | cons h t ih =>
    intro hs
    cases hs with
    | cons _ hs' =>
      obtain ⟨a, b, hab, hb, hx⟩ := ih hs'
      exact ⟨h :: a, b, by rw [hab]; rfl, hb, List.mem_cons_of_mem _ hx⟩
    | cons₂ _ hs' =>
      have hy : y ∈ t := by
        have := hs'.subset
        exact this (List.mem_singleton_self y)
      obtain ⟨a, b, hab, hb⟩ := split_at_last y t hy
      exact ⟨x :: a, b, by rw [hab]; rfl, hb, List.mem_cons_self _ _⟩

/-! ## The pass-through read path -/

/-- The runs of a pass-through read that is not diverted, gets its lock at
once and finds no dirty line: a fixed beginning `pre`, which ends with the
submission of the core read and holds the two gets, followed by a merge of the
remaining calls of `ocf_read_pt` with the calls of the completion. -/
theorem read_pt_runs_acquired (pt : ocf_pt_env) (req : ocf_request) (e : Int)
    (hacq : 0 ≤ pt.OCF_LOCK_ACQUIRED)
    (hdiv : ((traversed pt req).seq_cutoff &&
      pt.ocf_engine_is_dirty_all (traversed pt req) &&
      !(traversed pt req).force_pt) = false)
    (hlock : pt.ocf_engine_mapped_count (traversed pt req) = 0 ∨
      pt.ocf_req_async_lock_rd (traversed pt req) = pt.OCF_LOCK_ACQUIRED)
    (hdirty : (traversed pt req).info.dirty_any = false) :
    ∃ pre : List ocf_event,
      ocf_read_pt_runs pt req e =
        (interleavings
          [.ocf_engine_update_block_stats,
           .ocf_core_stats_pt_block_update (traversed pt req).part_id
             (traversed pt req).rw (traversed pt req).bytes,
           .ocf_core_stats_request_pt_update (traversed pt req).part_id
             (traversed pt req).rw (traversed pt req).info.hit_no
             (traversed pt req).core_line_count,
           .ocf_req_put, .ocf_req_put]
          (_ocf_read_pt_complete e)).map (pre ++ ·) ∧
      gets pre = 2 ∧ puts pre = 0 ∧ pre.countP is_complete = 0 := by
  unfold traversed at hdiv hlock hdirty
  have hl : (if decide (pt.ocf_engine_mapped_count (pt.ocf_engine_traverse
        { req with engine_handler := some .ocf_read_pt_do }) ≠ 0) = true
      then pt.ocf_req_async_lock_rd (pt.ocf_engine_traverse
        { req with engine_handler := some .ocf_read_pt_do })
      else pt.OCF_LOCK_ACQUIRED) = pt.OCF_LOCK_ACQUIRED := by
    split_ifs with h
    · rcases hlock with h0 | h1
      · simp [h0] at h
      · exact h1
    · rfl
  refine ⟨[.ocf_req_get, .ocf_req_hash, .ocf_hb_req_prot_lock_rd,
      .ocf_engine_traverse] ++
    (if pt.ocf_engine_mapped_count (pt.ocf_engine_traverse
        { req with engine_handler := some .ocf_read_pt_do }) ≠ 0
      then [.ocf_req_async_lock_rd] else []) ++
    [.ocf_hb_req_prot_unlock_rd, .call .ocf_read_pt_do, .ocf_req_get] ++
    (if pt.ocf_engine_needs_repart (pt.ocf_engine_traverse
        { req with engine_handler := some .ocf_read_pt_do }) = true
      then [.ocf_hb_req_prot_lock_wr, .ocf_user_part_move,
        .ocf_hb_req_prot_unlock_wr] else []) ++
    [.ocf_engine_forward_core_io_req ._ocf_read_pt_complete], ?_, ?_, ?_, ?_⟩
  · unfold ocf_read_pt_runs ocf_read_pt ocf_read_pt_do traversed
    simp only [hdiv, hl, hdirty, hacq, ge_iff_le, if_true, if_false,
      Bool.false_eq_true, _ocf_read_pt_submit]
    by_cases hm : pt.ocf_engine_mapped_count (pt.ocf_engine_traverse
          { req with engine_handler := some .ocf_read_pt_do }) = 0 <;>
    by_cases hr : pt.ocf_engine_needs_repart (pt.ocf_engine_traverse
          { req with engine_handler := some .ocf_read_pt_do }) = true <;>
    simp [hm, hr, split_at_forward]
  · simp only [gets]
    split_ifs <;> simp
  · simp only [puts]
    split_ifs <;> simp
  · split_ifs <;> simp [is_complete]

/-- In the completion, `complete` is called before the final put. -/
theorem complete_put_sublist (e : Int) :
    [ocf_event.complete e, ocf_event.ocf_req_put].Sublist
      (_ocf_read_pt_complete e) := by
  unfold _ocf_read_pt_complete
  have h : [ocf_event.complete e, ocf_event.ocf_req_put].Sublist
      [ocf_event.complete e, ocf_event.ocf_req_unlock, ocf_event.ocf_req_put] :=
    List.Sublist.cons₂ _ (List.Sublist.cons _ (List.Sublist.refl _))
  exact h.trans (List.sublist_append_right _ _)

/-- C3: take a request entering `ocf_read_pt` that is not diverted to the
generic read, whose lock status is `OCF_LOCK_ACQUIRED` (a non-negative
constant), either because the lock manager returned it or because no line is
mapped, and whose `info.dirty_any` is false after the traverse; let the
forwarded core read complete with status `e`. Then in every run of
`ocf_read_pt`, `ocf_read_pt_do` and `_ocf_read_pt_complete`, whatever the
moment of the completion, `req->complete` is called exactly once, with status
`e`; there is exactly one put more than there are gets; and the last put
comes after the call of `complete`. At least one run exists. -/
theorem C3_read_pt_complete_once_and_release (pt : ocf_pt_env)
    (req : ocf_request) (e : Int)
    (hacq : 0 ≤ pt.OCF_LOCK_ACQUIRED)
    (hdiv : ((traversed pt req).seq_cutoff &&
      pt.ocf_engine_is_dirty_all (traversed pt req) &&
      !(traversed pt req).force_pt) = false)
    (hlock : pt.ocf_engine_mapped_count (traversed pt req) = 0 ∨
      pt.ocf_req_async_lock_rd (traversed pt req) = pt.OCF_LOCK_ACQUIRED)
    (hdirty : (traversed pt req).info.dirty_any = false) :
    ocf_read_pt_runs pt req e ≠ [] ∧
    ∀ t ∈ ocf_read_pt_runs pt req e,
      t.countP is_complete = 1 ∧
      ocf_event.complete e ∈ t ∧
      puts t = gets t + 1 ∧
      ∃ a b, t = a ++ ocf_event.ocf_req_put :: b ∧
        ocf_event.ocf_req_put ∉ b ∧ ocf_event.complete e ∈ a := by
  obtain ⟨pre, hruns, hg, hp, hc⟩ :=
    read_pt_runs_acquired pt req e hacq hdiv hlock hdirty
  rw [hruns]
  constructor
  · intro h
    have hm := append_mem_interleavings
      [.ocf_engine_update_block_stats,
       .ocf_core_stats_pt_block_update (traversed pt req).part_id
         (traversed pt req).rw (traversed pt req).bytes,
       .ocf_core_stats_request_pt_update (traversed pt req).part_id
         (traversed pt req).rw (traversed pt req).info.hit_no
         (traversed pt req).core_line_count,
       .ocf_req_put, .ocf_req_put]
      (_ocf_read_pt_complete e)
    rw [List.map_eq_nil_iff] at h
    rw [h] at hm
    cases hm
  · intro t ht
    obtain ⟨t', ht', rfl⟩ := List.mem_map.mp ht
    have hperm := interleavings_perm _ _ _ ht'
    have hsub := (complete_put_sublist e).trans
      (interleavings_sublist_right _ _ _ ht')
    obtain ⟨a, b, hab, hb, ha⟩ := before_last_of_sublist _ _ _ hsub
    have hcnt : t'.countP is_complete = 1 := by
      rw [hperm.countP_eq]
      unfold _ocf_read_pt_complete
      split_ifs <;> simp [is_complete]
    have hmem : ocf_event.complete e ∈ t' := by
      rw [hab]
      exact List.mem_append_left _ ha
    have hputs : puts t' = 3 := by
      unfold puts
      rw [hperm.count_eq]
      unfold _ocf_read_pt_complete
      split_ifs <;> simp
    have hgets : gets t' = 0 := by
      unfold gets
      rw [hperm.count_eq]
      unfold _ocf_read_pt_complete
      split_ifs <;> simp
    refine ⟨?_, ?_, ?_, ?_⟩
    · rw [List.countP_append, hc, hcnt]
    · exact List.mem_append_right _ hmem
    · unfold puts gets at *
      rw [List.count_append, List.count_append, hg, hp, hputs, hgets]
    · exact ⟨pre ++ a, b, by rw [hab, List.append_assoc], hb,
        List.mem_append_right _ ha⟩

/-- C3 (witness): a read with one mapped line whose lock is acquired at once,
completing with status `-5`. -/
theorem C3_read_pt_complete_once_and_release_witness :
    ocf_read_pt_runs ex_pt_env ex_req_force_pt (-5) ≠ [] ∧
    ∀ t ∈ ocf_read_pt_runs ex_pt_env ex_req_force_pt (-5),
      t.countP is_complete = 1 ∧
      ocf_event.complete (-5) ∈ t ∧
      puts t = gets t + 1 ∧
      ∃ a b, t = a ++ ocf_event.ocf_req_put :: b ∧
        ocf_event.ocf_req_put ∉ b ∧ ocf_event.complete (-5) ∈ a :=
  C3_read_pt_complete_once_and_release ex_pt_env ex_req_force_pt (-5)
    (by decide) (by decide) (Or.inr (by decide)) (by decide)

/-- C4 (counterexample): when the core read completes without error, the
completion calls `complete`, then `ocf_req_unlock`, then `ocf_req_put`; the
unlock does not precede the call of `complete`. -/
theorem C4_unlock_not_before_complete :
    _ocf_read_pt_complete 0 =
      [.complete 0, .ocf_req_unlock, .ocf_req_put] ∧
    ¬ precedes .ocf_req_unlock (.complete 0) (_ocf_read_pt_complete 0) := by
  decide

/-- C4 (amended): in `_ocf_read_pt_complete`, for every error value, the
cache-line lock is released after `req->complete` has been called with that
value and before the reference is put: `complete`, `ocf_req_unlock` and
`ocf_req_put` are each called exactly once, in this order, and the unlock
does not precede `complete`. -/
theorem C4_complete_then_unlock_then_put (error : Int) :
    (_ocf_read_pt_complete error).countP is_complete = 1 ∧
    (_ocf_read_pt_complete error).count .ocf_req_unlock = 1 ∧
    puts (_ocf_read_pt_complete error) = 1 ∧
    precedes (.complete error) .ocf_req_unlock (_ocf_read_pt_complete error) ∧
    precedes .ocf_req_unlock .ocf_req_put (_ocf_read_pt_complete error) ∧
    ¬ precedes .ocf_req_unlock (.complete error)
      (_ocf_read_pt_complete error) := by
  unfold _ocf_read_pt_complete precedes puts
  split_ifs <;> simp [is_complete, List.indexOf_cons]

/-! ## The mode resolver: rules 2, 3 and 4, and resolving twice -/

/-- The fallback state does not depend on `pt_unaligned_io`. -/
theorem fallback_pt_is_on_unaligned_flag {Core : Type} (env : ocf_env Core)
    (cache : ocf_cache) (b : Bool) :
    ocf_fallback_pt_is_on env { cache with pt_unaligned_io := b } =
      ocf_fallback_pt_is_on env cache := rfl

/-- C11: on a cache (with a non-negative error counter) that has
`pt_unaligned_io` enabled, a request whose start address or length is not a
multiple of 4096 is resolved to pass-through. A request whose start and
length are both multiples of 4096 is resolved, request for request, as on the
same cache with `pt_unaligned_io` disabled, the partition configuration
being the same for both. -/
theorem C11_unaligned_rule {Core : Type} (env : ocf_env Core)
    (cache : ocf_cache) (core : Core) (req : ocf_request)
    (hc : 0 ≤ cache.fallback_pt_error_counter) :
    (cache.pt_unaligned_io = true →
      (req.addr % 4096 ≠ 0 ∨ req.bytes % 4096 ≠ 0) →
      ∃ r, ocf_resolve_effective_cache_mode env cache core req = some r ∧
        r.cache_mode = .pt) ∧
    (req.addr % 4096 = 0 → req.bytes % 4096 = 0 →
      env.ocf_user_part_class2id { cache with pt_unaligned_io := false }
        = env.ocf_user_part_class2id cache →
      env.ocf_user_part_get_cache_mode { cache with pt_unaligned_io := false }
        = env.ocf_user_part_get_cache_mode cache →
      ∃ r, ocf_resolve_effective_cache_mode env cache core req = some r ∧
        ocf_resolve_effective_cache_mode env
          { cache with pt_unaligned_io := false } core req = some r) := by
  constructor
  · intro hu hna
    refine ⟨_, resolve_eq env cache core req hc, ?_⟩
    have h2 : (cache.pt_unaligned_io &&
        !ocf_req_is_4k req.addr req.bytes) = true := by
      rw [hu]
      unfold ocf_req_is_4k
      rcases hna with h | h <;> simp [h]
    rw [if_pos (Or.inr (Or.inl h2))]
  · intro ha hb hclass hmode
    have h4k : ocf_req_is_4k req.addr req.bytes = true := by
      unfold ocf_req_is_4k
      simp [ha, hb]
    have hM : configured_mode env { cache with pt_unaligned_io := false } req
        = configured_mode env cache req := by
      unfold configured_mode
      rw [hclass, hmode]
    refine ⟨_, resolve_eq env cache core req hc, ?_⟩
    rw [resolve_eq env { cache with pt_unaligned_io := false } core req hc,
      fallback_pt_is_on_unaligned_flag, hM]
    simp only [h4k, Bool.not_true, Bool.and_false, Bool.false_eq_true,
      false_or]

/-- C11 (witness): the statement at a 512-byte read on a cache with
`pt_unaligned_io` enabled. -/
theorem C11_unaligned_rule_witness :
    (ex_cache.pt_unaligned_io = true →
      (ex_req_unaligned.addr % 4096 ≠ 0 ∨ ex_req_unaligned.bytes % 4096 ≠ 0) →
      ∃ r, ocf_resolve_effective_cache_mode ex_env ex_cache () ex_req_unaligned
          = some r ∧
        r.cache_mode = .pt) ∧
    (ex_req_unaligned.addr % 4096 = 0 → ex_req_unaligned.bytes % 4096 = 0 →
      ex_env.ocf_user_part_class2id { ex_cache with pt_unaligned_io := false }
        = ex_env.ocf_user_part_class2id ex_cache →
      ex_env.ocf_user_part_get_cache_mode
          { ex_cache with pt_unaligned_io := false }
        = ex_env.ocf_user_part_get_cache_mode ex_cache →
      ∃ r, ocf_resolve_effective_cache_mode ex_env ex_cache () ex_req_unaligned
          = some r ∧
        ocf_resolve_effective_cache_mode ex_env
          { ex_cache with pt_unaligned_io := false } () ex_req_unaligned
          = some r) :=
  C11_unaligned_rule ex_env ex_cache () ex_req_unaligned (by decide)

/-- Rule 2 on the examples: with `pt_unaligned_io` enabled the 512-byte read
is resolved to pass-through and the aligned read to the configured
write-back; with the flag disabled both are resolved to write-back. -/
theorem ex_unaligned_modes :
    (ocf_resolve_effective_cache_mode ex_env ex_cache () ex_req_unaligned).map
      (fun r => r.cache_mode) = some .pt ∧
    (ocf_resolve_effective_cache_mode ex_env ex_cache () ex_req_read).map
      (fun r => r.cache_mode) = some .wb ∧
    (ocf_resolve_effective_cache_mode ex_env
      { ex_cache with pt_unaligned_io := false } () ex_req_unaligned).map
      (fun r => r.cache_mode) = some .wb ∧
    (ocf_resolve_effective_cache_mode ex_env
      { ex_cache with pt_unaligned_io := false } () ex_req_read).map
      (fun r => r.cache_mode) = some .wb := by
  decide

/-- C12: on a cache with a non-negative error counter, a request that spans
more lines than the cache holds is resolved to pass-through. The comparison is
strict: when the cache is not in fallback, rule 2 does not match and the
sequential cut-off check does not fire, a read that spans exactly as many
lines as the cache holds is resolved to the configured mode `M`. -/
theorem C12_size_rule {Core : Type} (env : ocf_env Core)
    (cache : ocf_cache) (core : Core) (req : ocf_request)
    (hc : 0 ≤ cache.fallback_pt_error_counter) :
    (cache.conf_meta.cachelines < req.core_line_count →
      ∃ r, ocf_resolve_effective_cache_mode env cache core req = some r ∧
        r.cache_mode = .pt) ∧
    (ocf_fallback_pt_is_on env cache = some false →
      (cache.pt_unaligned_io = false ∨
        ocf_req_is_4k req.addr req.bytes = true) →
      env.ocf_core_seq_cutoff_check core req = false →
      req.rw = .OCF_READ →
      req.core_line_count = cache.conf_meta.cachelines →
      ∃ r, ocf_resolve_effective_cache_mode env cache core req = some r ∧
        r.cache_mode = configured_mode env cache req) := by
  constructor
  · intro h3
    refine ⟨_, resolve_eq env cache core req hc, ?_⟩
    rw [if_pos (Or.inr (Or.inr h3))]
  · intro h1 h2 h4 hr heq
    have h2' : (cache.pt_unaligned_io &&
        !ocf_req_is_4k req.addr req.bytes) = false := by
      rcases h2 with h | h <;> simp [h]
    refine ⟨_, resolve_rule_5_6 env cache core req h1 h2' (le_of_eq heq) h4, ?_⟩
    rw [if_neg]
    intro h
    rw [hr] at h
    exact absurd h.1 (by decide)

/-- C12 (witness): the statement at a read of exactly 1024 lines on a cache
of 1024 lines. -/
theorem C12_size_rule_witness :
    (ex_cache.conf_meta.cachelines < ex_req_1024_lines.core_line_count →
      ∃ r, ocf_resolve_effective_cache_mode ex_env ex_cache ()
          ex_req_1024_lines = some r ∧
        r.cache_mode = .pt) ∧
    (ocf_fallback_pt_is_on ex_env ex_cache = some false →
      (ex_cache.pt_unaligned_io = false ∨
        ocf_req_is_4k ex_req_1024_lines.addr ex_req_1024_lines.bytes = true) →
      ex_env.ocf_core_seq_cutoff_check () ex_req_1024_lines = false →
      ex_req_1024_lines.rw = .OCF_READ →
      ex_req_1024_lines.core_line_count = ex_cache.conf_meta.cachelines →
      ∃ r, ocf_resolve_effective_cache_mode ex_env ex_cache ()
          ex_req_1024_lines = some r ∧
        r.cache_mode = configured_mode ex_env ex_cache ex_req_1024_lines) :=
  C12_size_rule ex_env ex_cache () ex_req_1024_lines (by decide)

/-- Rule 3 on the examples: on a cache of 1024 lines whose partition is
configured write-back, a read of 1025 lines is resolved to pass-through and a
read of 1024 lines to write-back. -/
theorem ex_size_modes :
    configured_mode ex_env ex_cache ex_req_1025_lines = .wb ∧
    (ocf_resolve_effective_cache_mode ex_env ex_cache ()
      ex_req_1025_lines).map (fun r => r.cache_mode) = some .pt ∧
    (ocf_resolve_effective_cache_mode ex_env ex_cache ()
      ex_req_1024_lines).map (fun r => r.cache_mode) = some .wb := by
  decide

/-- C13: on a cache with a non-negative error counter the resolver succeeds,
and for a request that enters with `seq_cutoff` false it leaves `seq_cutoff`
true if and only if none of rules 1 to 3 matches and the sequential cut-off
check returns true for the core and the request; when it leaves the flag true
the resolved mode is pass-through. When one of rules 1 to 3 matches, the flag
is left as it was. -/
theorem C13_seq_cutoff_flag {Core : Type} (env : ocf_env Core)
    (cache : ocf_cache) (core : Core) (req : ocf_request)
    (hc : 0 ≤ cache.fallback_pt_error_counter) :
    ∃ r, ocf_resolve_effective_cache_mode env cache core req = some r ∧
      (req.seq_cutoff = false →
        (r.seq_cutoff = true ↔
          (¬ (ocf_fallback_pt_is_on env cache = some true ∨
              (cache.pt_unaligned_io &&
                !ocf_req_is_4k req.addr req.bytes) = true ∨
              cache.conf_meta.cachelines < req.core_line_count) ∧
            env.ocf_core_seq_cutoff_check core req = true))) ∧
      (req.seq_cutoff = false → r.seq_cutoff = true → r.cache_mode = .pt) ∧
      ((ocf_fallback_pt_is_on env cache = some true ∨
          (cache.pt_unaligned_io &&
            !ocf_req_is_4k req.addr req.bytes) = true ∨
          cache.conf_meta.cachelines < req.core_line_count) →
        r.seq_cutoff = req.seq_cutoff ∧ r.cache_mode = .pt) := by
  refine ⟨_, resolve_eq env cache core req hc, ?_, ?_, ?_⟩
  · intro hf
    split_ifs with h13 h4 h6
    · constructor
      · intro h
        have h' : req.seq_cutoff = true := h
        rw [hf] at h'
        cases h'
      · intro h
        exact absurd h13 h.1
    · exact ⟨fun _ => ⟨h13, h4⟩, fun _ => rfl⟩
    · constructor
      · intro h
        have h' : req.seq_cutoff = true := h
        rw [hf] at h'
        cases h'
      · intro h
        exact absurd h.2 h4
    · constructor
      · intro h
        have h' : req.seq_cutoff = true := h
        rw [hf] at h'
        cases h'
      · intro h
        exact absurd h.2 h4
  · intro hf
    split_ifs with h13 h4 h6
    · intro _; rfl
    · intro _; rfl
    · intro h
      have h' : req.seq_cutoff = true := h
      rw [hf] at h'
      cases h'
    · intro h
      have h' : req.seq_cutoff = true := h
      rw [hf] at h'
      cases h'
  · intro h13
    rw [if_pos h13]
    exact ⟨rfl, rfl⟩

/-- C13 (witness): the statement at an aligned read on a core whose
sequential cut-off check fires. -/
theorem C13_seq_cutoff_flag_witness :
    ∃ r, ocf_resolve_effective_cache_mode ex_env_seq ex_cache () ex_req_read
        = some r ∧
      (ex_req_read.seq_cutoff = false →
        (r.seq_cutoff = true ↔
          (¬ (ocf_fallback_pt_is_on ex_env_seq ex_cache = some true ∨
              (ex_cache.pt_unaligned_io &&
                !ocf_req_is_4k ex_req_read.addr ex_req_read.bytes) = true ∨
              ex_cache.conf_meta.cachelines < ex_req_read.core_line_count) ∧
            ex_env_seq.ocf_core_seq_cutoff_check () ex_req_read = true))) ∧
      (ex_req_read.seq_cutoff = false → r.seq_cutoff = true →
        r.cache_mode = .pt) ∧
      ((ocf_fallback_pt_is_on ex_env_seq ex_cache = some true ∨
          (ex_cache.pt_unaligned_io &&
            !ocf_req_is_4k ex_req_read.addr ex_req_read.bytes) = true ∨
          ex_cache.conf_meta.cachelines < ex_req_read.core_line_count) →
        r.seq_cutoff = ex_req_read.seq_cutoff ∧ r.cache_mode = .pt) :=
  C13_seq_cutoff_flag ex_env_seq ex_cache () ex_req_read (by decide)

/-- Rule 4 on the examples: when the check fires on an aligned small read the
request leaves with `seq_cutoff` set and in pass-through mode; on the cache in
fallback, rule 1 decides and the flag stays clear. -/
theorem ex_seq_cutoff_modes :
    (ocf_resolve_effective_cache_mode ex_env_seq ex_cache () ex_req_read).map
      (fun r => (r.seq_cutoff, r.cache_mode)) = some (true, .pt) ∧
    (ocf_resolve_effective_cache_mode ex_env_seq ex_cache_fallback ()
      ex_req_read).map
      (fun r => (r.seq_cutoff, r.cache_mode)) = some (false, .pt) := by
  decide

/-- C14: on a cache with a non-negative error counter the resolver succeeds,
and applying it again to the request it has left, with the same cache, and
with a sequential cut-off check that answers on the resolved request as it
did on the original one, succeeds and leaves that request as it is; in
particular the mode of the second resolution is the mode of the first. -/
theorem C14_resolve_twice {Core : Type} (env : ocf_env Core)
    (cache : ocf_cache) (core : Core) (req : ocf_request)
    (hc : 0 ≤ cache.fallback_pt_error_counter) :
    ∃ r1, ocf_resolve_effective_cache_mode env cache core req = some r1 ∧
      (env.ocf_core_seq_cutoff_check core r1
          = env.ocf_core_seq_cutoff_check core req →
        ocf_resolve_effective_cache_mode env cache core r1 = some r1 ∧
        ∃ r2, ocf_resolve_effective_cache_mode env cache core r1 = some r2 ∧
          r2.cache_mode = r1.cache_mode) := by
  by_cases h13 : ocf_fallback_pt_is_on env cache = some true ∨
      (cache.pt_unaligned_io && !ocf_req_is_4k req.addr req.bytes) = true ∨
      cache.conf_meta.cachelines < req.core_line_count
  · -- rules 1 to 3
    have e1 : ocf_resolve_effective_cache_mode env cache core req
        = some { req with cache_mode := .pt } := by
      rw [resolve_eq env cache core req hc, if_pos h13]
    refine ⟨_, e1, fun _ => ?_⟩
    have e2 : ocf_resolve_effective_cache_mode env cache core
        { req with cache_mode := .pt } = some { req with cache_mode := .pt } := by
      rw [resolve_eq env cache core _ hc]
      simp only []
      rw [if_pos h13]
    exact ⟨e2, _, e2, rfl⟩
  · by_cases h4 : env.ocf_core_seq_cutoff_check core req = true
    · -- rule 4
      have e1 : ocf_resolve_effective_cache_mode env cache core req
          = some { req with cache_mode := .pt, seq_cutoff := true } := by
        rw [resolve_eq env cache core req hc, if_neg h13, if_pos h4]
      refine ⟨_, e1, fun hseq => ?_⟩
      have e2 : ocf_resolve_effective_cache_mode env cache core
          { req with cache_mode := .pt, seq_cutoff := true }
          = some { req with cache_mode := .pt, seq_cutoff := true } := by
        rw [resolve_eq env cache core _ hc, hseq]
        simp only []
        rw [if_neg h13, if_pos h4]
      exact ⟨e2, _, e2, rfl⟩
    · by_cases h6 : req.rw = .OCF_WRITE ∧
          ocf_req_cache_mode_has_lazy_write (configured_mode env cache req)
            = true ∧
          env.ocf_req_set_dirty
            { req with cache_mode := configured_mode env cache req } ≠ 0
      · -- rules 5 and 6, escalation to write-through
        have e1 : ocf_resolve_effective_cache_mode env cache core req
            = some { req with cache_mode := .wt } := by
          rw [resolve_eq env cache core req hc, if_neg h13, if_neg h4,
            if_pos h6]
        refine ⟨_, e1, fun hseq => ?_⟩
        have hM : configured_mode env cache { req with cache_mode := .wt }
            = configured_mode env cache req := rfl
        have e2 : ocf_resolve_effective_cache_mode env cache core
            { req with cache_mode := .wt }
            = some { req with cache_mode := .wt } := by
          rw [resolve_eq env cache core _ hc, hseq, hM]
          simp only []
          rw [if_neg h13, if_neg h4, if_pos h6]
        exact ⟨e2, _, e2, rfl⟩
      · -- rule 5, the configured mode
        have e1 : ocf_resolve_effective_cache_mode env cache core req
            = some { req with cache_mode := configured_mode env cache req } := by
          rw [resolve_eq env cache core req hc, if_neg h13, if_neg h4,
            if_neg h6]
        refine ⟨_, e1, fun hseq => ?_⟩
        have hM : configured_mode env cache
            { req with cache_mode := configured_mode env cache req }
            = configured_mode env cache req := rfl
        have e2 : ocf_resolve_effective_cache_mode env cache core
            { req with cache_mode := configured_mode env cache req }
            = some { req with cache_mode := configured_mode env cache req } := by
          rw [resolve_eq env cache core _ hc, hseq, hM]
          simp only []
          rw [if_neg h13, if_neg h4, if_neg h6]
        exact ⟨e2, _, e2, rfl⟩

/-- C14 (witness): the statement at a write on a write-back partition whose
dirty mark fails, which the first resolution escalates to write-through. -/
theorem C14_resolve_twice_witness :
    ∃ r1, ocf_resolve_effective_cache_mode ex_env_frozen ex_cache ()
        ex_req_write = some r1 ∧
      (ex_env_frozen.ocf_core_seq_cutoff_check () r1
          = ex_env_frozen.ocf_core_seq_cutoff_check () ex_req_write →
        ocf_resolve_effective_cache_mode ex_env_frozen ex_cache () r1
          = some r1 ∧
        ∃ r2, ocf_resolve_effective_cache_mode ex_env_frozen ex_cache () r1
            = some r2 ∧
          r2.cache_mode = r1.cache_mode) :=
  C14_resolve_twice ex_env_frozen ex_cache () ex_req_write (by decide)

/-- Resolving twice on the examples: the write escalated to write-through,
and the read redirected by the sequential cut-off, keep their mode. -/
theorem ex_resolve_twice :
    ((ocf_resolve_effective_cache_mode ex_env_frozen ex_cache ()
      ex_req_write).bind
      (ocf_resolve_effective_cache_mode ex_env_frozen ex_cache ())).map
      (fun r => r.cache_mode) = some .wt ∧
    ((ocf_resolve_effective_cache_mode ex_env_seq ex_cache ()
      ex_req_read).bind
      (ocf_resolve_effective_cache_mode ex_env_seq ex_cache ())).map
      (fun r => r.cache_mode) = some .pt := by
  decide

/-! ## The pass-through read path: branches of `ocf_read_pt` -/

/-- C15: `ocf_read_pt` takes the divert branch exactly when, after the
traverse, `seq_cutoff` is set, every line is dirty and `force_pt` is clear.
On that branch it calls `ocf_req_clear` once and then `ocf_read_generic`
once, requests no cache-line lock, and calls neither `ocf_read_pt_do` nor
`complete`; its own get is matched by one put. On every other branch it calls
neither `ocf_req_clear` nor `ocf_read_generic`. -/
theorem C15_divert_branch (pt : ocf_pt_env) (req : ocf_request) :
    (((traversed pt req).seq_cutoff &&
        pt.ocf_engine_is_dirty_all (traversed pt req) &&
        !(traversed pt req).force_pt) = true →
      (ocf_read_pt pt req).2.2.count .ocf_req_clear = 1 ∧
      (ocf_read_pt pt req).2.2.count (.call .ocf_read_generic) = 1 ∧
      precedes .ocf_req_clear (.call .ocf_read_generic)
        (ocf_read_pt pt req).2.2 ∧
      ocf_event.ocf_req_async_lock_rd ∉ (ocf_read_pt pt req).2.2 ∧
      ocf_event.call .ocf_read_pt_do ∉ (ocf_read_pt pt req).2.2 ∧
      (ocf_read_pt pt req).2.2.countP is_complete = 0 ∧
      (ocf_read_pt pt req).2.2.countP is_forward = 0 ∧
      gets (ocf_read_pt pt req).2.2 = 1 ∧
      puts (ocf_read_pt pt req).2.2 = 1 ∧
      (ocf_read_pt pt req).2.1 = pt.ocf_req_clear (traversed pt req)) ∧
    (((traversed pt req).seq_cutoff &&
        pt.ocf_engine_is_dirty_all (traversed pt req) &&
        !(traversed pt req).force_pt) = false →
      ocf_event.ocf_req_clear ∉ (ocf_read_pt pt req).2.2 ∧
      ocf_event.call .ocf_read_generic ∉ (ocf_read_pt pt req).2.2 ∧
      (ocf_read_pt pt req).2.1 = traversed pt req) ∧
    (ocf_event.ocf_req_clear ∈ (ocf_read_pt pt req).2.2 ↔
      ((traversed pt req).seq_cutoff = true ∧
        pt.ocf_engine_is_dirty_all (traversed pt req) = true ∧
        (traversed pt req).force_pt = false)) ∧
    (ocf_read_pt pt req).1 = 0 := by
  have hdo : ∀ q : ocf_request,
      ocf_event.ocf_req_clear ∉ (ocf_read_pt_do pt q).2 ∧
      ocf_event.call .ocf_read_generic ∉ (ocf_read_pt_do pt q).2 := by
    intro q
    unfold ocf_read_pt_do _ocf_read_pt_submit
    split_ifs <;> simp
  by_cases hc : ((traversed pt req).seq_cutoff &&
      pt.ocf_engine_is_dirty_all (traversed pt req) &&
      !(traversed pt req).force_pt) = true
  · have hout : ocf_read_pt pt req =
        (0, pt.ocf_req_clear (traversed pt req),
          [.ocf_req_get, .ocf_req_hash, .ocf_hb_req_prot_lock_rd,
           .ocf_engine_traverse, .ocf_hb_req_prot_unlock_rd, .ocf_req_clear,
           .call .ocf_read_generic, .ocf_req_put]) := by
      unfold traversed at hc
      unfold ocf_read_pt traversed
      simp only [hc, if_true]
      rfl
    rw [hout]
    refine ⟨fun _ => ?_, fun h => ?_, ?_, rfl⟩
    · refine ⟨by simp, by simp, by simp [precedes, List.indexOf_cons],
        by simp, by simp, by simp [is_complete], by simp [is_forward],
        by simp [gets], by simp [puts], rfl⟩
    · rw [hc] at h; cases h
    · simp only [Bool.and_eq_true, Bool.not_eq_true'] at hc
      simp [hc.1.1, hc.1.2, hc.2]
  · have hcf : ((traversed pt req).seq_cutoff &&
        pt.ocf_engine_is_dirty_all (traversed pt req) &&
        !(traversed pt req).force_pt) = false := by
      simpa using hc
    have hnd : ocf_event.ocf_req_clear ∉ (ocf_read_pt pt req).2.2 ∧
        ocf_event.call .ocf_read_generic ∉ (ocf_read_pt pt req).2.2 ∧
        (ocf_read_pt pt req).2.1 = traversed pt req ∧
        (ocf_read_pt pt req).1 = 0 := by
      have h1 := (hdo (traversed pt req)).1
      have h2 := (hdo (traversed pt req)).2
      unfold traversed at hcf h1 h2
      unfold ocf_read_pt traversed
      simp only [hcf, Bool.false_eq_true, if_false]
      split_ifs <;> simp [h1, h2]
    refine ⟨fun h => ?_, fun _ => ⟨hnd.1, hnd.2.1, hnd.2.2.1⟩, ?_, hnd.2.2.2⟩
    · exact absurd h hc
    · constructor
      · intro h; exact absurd h hnd.1
      · intro h
        exfalso
        apply hc
        simp [h.1, h.2.1, h.2.2]

/-- The divert branch on an example: a read redirected by the sequential
cut-off whose lines are all dirty goes to `ocf_read_generic`. -/
theorem ex_divert_trace :
    (ocf_read_pt ex_pt_env_dirty_all ex_req_seq_cutoff).2.2 =
      [.ocf_req_get, .ocf_req_hash, .ocf_hb_req_prot_lock_rd,
       .ocf_engine_traverse, .ocf_hb_req_prot_unlock_rd, .ocf_req_clear,
       .call .ocf_read_generic, .ocf_req_put] := by
  decide

/-- The calls of `ocf_read_pt_do` that matter for its caller: it is not a
call of itself, it never calls `complete`, and it takes and puts one
reference. -/
theorem read_pt_do_frame (pt : ocf_pt_env) (q : ocf_request) :
    (ocf_read_pt_do pt q).2.count (.call .ocf_read_pt_do) = 0 ∧
    (ocf_read_pt_do pt q).2.countP is_complete = 0 ∧
    (ocf_read_pt_do pt q).2.count .ocf_req_async_lock_rd = 0 ∧
    gets (ocf_read_pt_do pt q).2 = 1 ∧
    puts (ocf_read_pt_do pt q).2 = 1 := by
  unfold ocf_read_pt_do _ocf_read_pt_submit gets puts
  split_ifs <;> simp [is_complete]

/-- The four outcomes of `ocf_read_pt` on its non-divert branch. -/
theorem read_pt_nondivert (pt : ocf_pt_env) (req : ocf_request)
    (hdiv : ((traversed pt req).seq_cutoff &&
      pt.ocf_engine_is_dirty_all (traversed pt req) &&
      !(traversed pt req).force_pt) = false) :
    (pt.ocf_engine_mapped_count (traversed pt req) = 0 →
      0 ≤ pt.OCF_LOCK_ACQUIRED →
      ocf_read_pt pt req = (0, traversed pt req,
        [.ocf_req_get, .ocf_req_hash, .ocf_hb_req_prot_lock_rd,
         .ocf_engine_traverse, .ocf_hb_req_prot_unlock_rd,
         .call .ocf_read_pt_do] ++
        (ocf_read_pt_do pt (traversed pt req)).2 ++ [.ocf_req_put])) ∧
    (pt.ocf_engine_mapped_count (traversed pt req) ≠ 0 →
      pt.ocf_req_async_lock_rd (traversed pt req) = pt.OCF_LOCK_ACQUIRED →
      0 ≤ pt.OCF_LOCK_ACQUIRED →
      ocf_read_pt pt req = (0, traversed pt req,
        [.ocf_req_get, .ocf_req_hash, .ocf_hb_req_prot_lock_rd,
         .ocf_engine_traverse, .ocf_req_async_lock_rd,
         .ocf_hb_req_prot_unlock_rd, .call .ocf_read_pt_do] ++
        (ocf_read_pt_do pt (traversed pt req)).2 ++ [.ocf_req_put])) ∧
    (pt.ocf_engine_mapped_count (traversed pt req) ≠ 0 →
      0 ≤ pt.ocf_req_async_lock_rd (traversed pt req) →
      pt.ocf_req_async_lock_rd (traversed pt req) ≠ pt.OCF_LOCK_ACQUIRED →
      ocf_read_pt pt req = (0, traversed pt req,
        [.ocf_req_get, .ocf_req_hash, .ocf_hb_req_prot_lock_rd,
         .ocf_engine_traverse, .ocf_req_async_lock_rd,
         .ocf_hb_req_prot_unlock_rd, .ocf_req_put])) ∧
    (pt.ocf_engine_mapped_count (traversed pt req) ≠ 0 →
      pt.ocf_req_async_lock_rd (traversed pt req) < 0 →
      ocf_read_pt pt req = (0, traversed pt req,
        [.ocf_req_get, .ocf_req_hash, .ocf_hb_req_prot_lock_rd,
         .ocf_engine_traverse, .ocf_req_async_lock_rd,
         .ocf_hb_req_prot_unlock_rd,
         .complete (pt.ocf_req_async_lock_rd (traversed pt req)),
         .ocf_req_put, .ocf_req_put])) := by
  unfold traversed at hdiv ⊢
  refine ⟨?_, ?_, ?_, ?_⟩
  · intro hm hacq
    unfold ocf_read_pt
    simp only [hdiv, hm, hacq, Bool.false_eq_true, if_false, ne_eq,
      not_true_eq_false, decide_False, ge_iff_le, if_true]
    rfl
  · intro hm hl hacq
    unfold ocf_read_pt
    simp only [hdiv, hm, hl, hacq, Bool.false_eq_true, if_false, ne_eq,
      not_false_eq_true, decide_True, ge_iff_le, if_true]
    rfl
  · intro hm hl0 hlne
    unfold ocf_read_pt
    simp only [hdiv, hm, hl0, hlne, Bool.false_eq_true, if_false, ne_eq,
      not_false_eq_true, decide_True, ge_iff_le, if_true]
    rfl
  · intro hm hl
    have hl' : ¬ (0 ≤ pt.ocf_req_async_lock_rd (pt.ocf_engine_traverse
        { req with engine_handler := some .ocf_read_pt_do })) := not_le.mpr hl
    unfold ocf_read_pt
    simp only [hdiv, hm, hl', Bool.false_eq_true, if_false, ne_eq,
      not_false_eq_true, decide_True, ge_iff_le, if_true]
    rfl

/-- C16: on the non-divert branch of `ocf_read_pt`, with `OCF_LOCK_ACQUIRED`
a non-negative constant, the lock status decides what follows. Without mapped
lines the lock manager is not called and the request goes on as with the
status `OCF_LOCK_ACQUIRED`; with mapped lines the lock manager is called once
and its answer is the status. On `OCF_LOCK_ACQUIRED`, `ocf_read_pt_do` is
called exactly once and `ocf_read_pt` does not call `complete`. On another
status that is not negative, neither `ocf_read_pt_do` nor `complete` is
called, no core read is forwarded, and there are as many puts as gets. On a
negative status `L`, `complete` is called exactly once, with `L`,
`ocf_read_pt_do` is not called, no core read is forwarded, and there is one
put more than there are gets. In all cases `ocf_read_pt` returns 0. -/
theorem C16_lock_status (pt : ocf_pt_env) (req : ocf_request)
    (hacq : 0 ≤ pt.OCF_LOCK_ACQUIRED)
    (hdiv : ((traversed pt req).seq_cutoff &&
      pt.ocf_engine_is_dirty_all (traversed pt req) &&
      !(traversed pt req).force_pt) = false) :
    (pt.ocf_engine_mapped_count (traversed pt req) = 0 →
      ocf_event.ocf_req_async_lock_rd ∉ (ocf_read_pt pt req).2.2 ∧
      (ocf_read_pt pt req).2.2.count (.call .ocf_read_pt_do) = 1 ∧
      (ocf_read_pt pt req).2.2.countP is_complete = 0) ∧
    (pt.ocf_engine_mapped_count (traversed pt req) ≠ 0 →
      (ocf_read_pt pt req).2.2.count .ocf_req_async_lock_rd = 1 ∧
      (pt.ocf_req_async_lock_rd (traversed pt req) = pt.OCF_LOCK_ACQUIRED →
        (ocf_read_pt pt req).2.2.count (.call .ocf_read_pt_do) = 1 ∧
        (ocf_read_pt pt req).2.2.countP is_complete = 0) ∧
      (0 ≤ pt.ocf_req_async_lock_rd (traversed pt req) →
        pt.ocf_req_async_lock_rd (traversed pt req) ≠ pt.OCF_LOCK_ACQUIRED →
        ocf_event.call .ocf_read_pt_do ∉ (ocf_read_pt pt req).2.2 ∧
        (ocf_read_pt pt req).2.2.countP is_complete = 0 ∧
        (ocf_read_pt pt req).2.2.countP is_forward = 0 ∧
        gets (ocf_read_pt pt req).2.2 = 1 ∧
        puts (ocf_read_pt pt req).2.2 = 1) ∧
      (pt.ocf_req_async_lock_rd (traversed pt req) < 0 →
        (ocf_read_pt pt req).2.2.countP is_complete = 1 ∧
        (ocf_read_pt pt req).2.2.count
          (.complete (pt.ocf_req_async_lock_rd (traversed pt req))) = 1 ∧
        ocf_event.call .ocf_read_pt_do ∉ (ocf_read_pt pt req).2.2 ∧
        (ocf_read_pt pt req).2.2.countP is_forward = 0 ∧
        gets (ocf_read_pt pt req).2.2 = 1 ∧
        puts (ocf_read_pt pt req).2.2 = 2)) ∧
    (ocf_read_pt pt req).1 = 0 := by
  obtain ⟨f1, f2, f3, f4, f5⟩ := read_pt_do_frame pt (traversed pt req)
  obtain ⟨c1, c2, c3, c4⟩ := read_pt_nondivert pt req hdiv
  unfold gets at f4
  unfold puts at f5
  refine ⟨?_, ?_, ?_⟩
  · intro hm
    rw [c1 hm hacq]
    refine ⟨?_, ?_, ?_⟩
    · have h3 := List.count_eq_zero.mp f3
      simp [h3]
    · simp [List.count_append, f1]
    · simp [List.countP_append, f2, is_complete]
  · intro hm
    refine ⟨?_, ?_, ?_, ?_⟩
    · by_cases hl0 : 0 ≤ pt.ocf_req_async_lock_rd (traversed pt req)
      · by_cases hl : pt.ocf_req_async_lock_rd (traversed pt req)
            = pt.OCF_LOCK_ACQUIRED
        · rw [c2 hm hl hacq]
          simp [List.count_append, f3]
        · rw [c3 hm hl0 hl]
          simp
      · rw [c4 hm (not_le.mp hl0)]
        simp
    · intro hl
      rw [c2 hm hl hacq]
      constructor
      · simp [List.count_append, f1]
      · simp [List.countP_append, f2, is_complete]
    · intro hl0 hlne
      rw [c3 hm hl0 hlne]
      simp [is_complete, is_forward, gets, puts]
    · intro hl
      rw [c4 hm hl]
      simp [is_complete, is_forward, gets, puts]
  · by_cases hm : pt.ocf_engine_mapped_count (traversed pt req) = 0
    · rw [c1 hm hacq]
    · by_cases hl0 : 0 ≤ pt.ocf_req_async_lock_rd (traversed pt req)
      · by_cases hl : pt.ocf_req_async_lock_rd (traversed pt req)
            = pt.OCF_LOCK_ACQUIRED
        · rw [c2 hm hl hacq]
        · rw [c3 hm hl0 hl]
      · rw [c4 hm (not_le.mp hl0)]

/-- C16 (witness): the statement at a read with one mapped line whose lock
request fails with `-12`. -/
theorem C16_lock_status_witness :
    (ex_pt_env_lock_error.ocf_engine_mapped_count
        (traversed ex_pt_env_lock_error ex_req_read) = 0 →
      ocf_event.ocf_req_async_lock_rd ∉
        (ocf_read_pt ex_pt_env_lock_error ex_req_read).2.2 ∧
      (ocf_read_pt ex_pt_env_lock_error ex_req_read).2.2.count
        (.call .ocf_read_pt_do) = 1 ∧
      (ocf_read_pt ex_pt_env_lock_error ex_req_read).2.2.countP is_complete
        = 0) ∧
    (ex_pt_env_lock_error.ocf_engine_mapped_count
        (traversed ex_pt_env_lock_error ex_req_read) ≠ 0 →
      (ocf_read_pt ex_pt_env_lock_error ex_req_read).2.2.count
        .ocf_req_async_lock_rd = 1 ∧
      (ex_pt_env_lock_error.ocf_req_async_lock_rd
          (traversed ex_pt_env_lock_error ex_req_read)
          = ex_pt_env_lock_error.OCF_LOCK_ACQUIRED →
        (ocf_read_pt ex_pt_env_lock_error ex_req_read).2.2.count
          (.call .ocf_read_pt_do) = 1 ∧
        (ocf_read_pt ex_pt_env_lock_error ex_req_read).2.2.countP is_complete
          = 0) ∧
      (0 ≤ ex_pt_env_lock_error.ocf_req_async_lock_rd
          (traversed ex_pt_env_lock_error ex_req_read) →
        ex_pt_env_lock_error.ocf_req_async_lock_rd
          (traversed ex_pt_env_lock_error ex_req_read)
          ≠ ex_pt_env_lock_error.OCF_LOCK_ACQUIRED →
        ocf_event.call .ocf_read_pt_do ∉
          (ocf_read_pt ex_pt_env_lock_error ex_req_read).2.2 ∧
        (ocf_read_pt ex_pt_env_lock_error ex_req_read).2.2.countP is_complete
          = 0 ∧
        (ocf_read_pt ex_pt_env_lock_error ex_req_read).2.2.countP is_forward
          = 0 ∧
        gets (ocf_read_pt ex_pt_env_lock_error ex_req_read).2.2 = 1 ∧
        puts (ocf_read_pt ex_pt_env_lock_error ex_req_read).2.2 = 1) ∧
      (ex_pt_env_lock_error.ocf_req_async_lock_rd
          (traversed ex_pt_env_lock_error ex_req_read) < 0 →
        (ocf_read_pt ex_pt_env_lock_error ex_req_read).2.2.countP is_complete
          = 1 ∧
        (ocf_read_pt ex_pt_env_lock_error ex_req_read).2.2.count
          (.complete (ex_pt_env_lock_error.ocf_req_async_lock_rd
            (traversed ex_pt_env_lock_error ex_req_read))) = 1 ∧
        ocf_event.call .ocf_read_pt_do ∉
          (ocf_read_pt ex_pt_env_lock_error ex_req_read).2.2 ∧
        (ocf_read_pt ex_pt_env_lock_error ex_req_read).2.2.countP is_forward
          = 0 ∧
        gets (ocf_read_pt ex_pt_env_lock_error ex_req_read).2.2 = 1 ∧
        puts (ocf_read_pt ex_pt_env_lock_error ex_req_read).2.2 = 2)) ∧
    (ocf_read_pt ex_pt_env_lock_error ex_req_read).1 = 0 :=
  C16_lock_status ex_pt_env_lock_error ex_req_read (by decide) (by decide)

/-- The three lock outcomes on examples: the traces of `ocf_read_pt` when the
lock request fails with `-12`, when it is pending, and when the lock is
acquired at once on a clean request that needs a repartition. -/
theorem ex_lock_traces :
    (ocf_read_pt ex_pt_env_lock_error ex_req_read).2.2 =
      [.ocf_req_get, .ocf_req_hash, .ocf_hb_req_prot_lock_rd,
       .ocf_engine_traverse, .ocf_req_async_lock_rd,
       .ocf_hb_req_prot_unlock_rd, .complete (-12), .ocf_req_put,
       .ocf_req_put] ∧
    (ocf_read_pt ex_pt_env_pending ex_req_read).2.2 =
      [.ocf_req_get, .ocf_req_hash, .ocf_hb_req_prot_lock_rd,
       .ocf_engine_traverse, .ocf_req_async_lock_rd,
       .ocf_hb_req_prot_unlock_rd, .ocf_req_put] ∧
    (ocf_read_pt ex_pt_env ex_req_read).2.2 =
      [.ocf_req_get, .ocf_req_hash, .ocf_hb_req_prot_lock_rd,
       .ocf_engine_traverse, .ocf_req_async_lock_rd,
       .ocf_hb_req_prot_unlock_rd, .call .ocf_read_pt_do, .ocf_req_get,
       .ocf_hb_req_prot_lock_wr, .ocf_user_part_move,
       .ocf_hb_req_prot_unlock_wr,
       .ocf_engine_forward_core_io_req ._ocf_read_pt_complete,
       .ocf_engine_update_block_stats,
       .ocf_core_stats_pt_block_update 0 .OCF_READ 4096,
       .ocf_core_stats_request_pt_update 0 .OCF_READ 0 1,
       .ocf_req_put, .ocf_req_put] := by
  decide

/-! ## The pass-through read path: `ocf_read_pt_do` -/

/-- C18: on a request with `info.dirty_any` set, `ocf_read_pt_do` returns 0
after these calls: it takes a reference first, calls the clean operation
exactly once, after taking the hash-bucket lock and before releasing it,
forwards no core read, updates no statistics, and puts the reference last, so
that gets and puts balance. The core read is submitted by `ocf_read_pt_do`
exactly on the requests whose `info.dirty_any` is clear. -/
theorem C18_read_pt_do_dirty (pt : ocf_pt_env) (req : ocf_request)
    (hd : req.info.dirty_any = true) :
    (ocf_read_pt_do pt req).1 = 0 ∧
    (ocf_read_pt_do pt req).2.count .ocf_engine_clean = 1 ∧
    precedes .ocf_hb_req_prot_lock_rd .ocf_engine_clean
      (ocf_read_pt_do pt req).2 ∧
    precedes .ocf_engine_clean .ocf_hb_req_prot_unlock_rd
      (ocf_read_pt_do pt req).2 ∧
    (ocf_read_pt_do pt req).2.count .ocf_hb_req_prot_lock_rd = 1 ∧
    (ocf_read_pt_do pt req).2.count .ocf_hb_req_prot_unlock_rd = 1 ∧
    (ocf_read_pt_do pt req).2.countP is_forward = 0 ∧
    (ocf_read_pt_do pt req).2.countP is_stats_update = 0 ∧
    (ocf_read_pt_do pt req).2.head? = some .ocf_req_get ∧
    (ocf_read_pt_do pt req).2.getLast? = some .ocf_req_put ∧
    gets (ocf_read_pt_do pt req).2 = 1 ∧
    puts (ocf_read_pt_do pt req).2 = 1 ∧
    (∀ req' : ocf_request,
      (ocf_read_pt_do pt req').2.countP is_forward ≠ 0 ↔
        req'.info.dirty_any = false) := by
  have hout : ocf_read_pt_do pt req =
      (0, [.ocf_req_get, .ocf_hb_req_prot_lock_rd, .ocf_engine_clean,
           .ocf_hb_req_prot_unlock_rd, .ocf_req_put]) := by
    unfold ocf_read_pt_do
    rw [if_pos hd]
  rw [hout]
  refine ⟨rfl, by decide, by decide, by decide, by decide, by decide,
    by decide, by decide, rfl, rfl, by decide, by decide, ?_⟩
  intro req'
  unfold ocf_read_pt_do _ocf_read_pt_submit
  cases hd' : req'.info.dirty_any
  · simp only [Bool.false_eq_true, if_false]
    split_ifs <;> simp [is_forward]
  · simp [is_forward]

/-- C18 (witness): the statement at a read with a dirty line. -/
theorem C18_read_pt_do_dirty_witness :
    (ocf_read_pt_do ex_pt_env ex_req_dirty).1 = 0 ∧
    (ocf_read_pt_do ex_pt_env ex_req_dirty).2.count .ocf_engine_clean = 1 ∧
    precedes .ocf_hb_req_prot_lock_rd .ocf_engine_clean
      (ocf_read_pt_do ex_pt_env ex_req_dirty).2 ∧
    precedes .ocf_engine_clean .ocf_hb_req_prot_unlock_rd
      (ocf_read_pt_do ex_pt_env ex_req_dirty).2 ∧
    (ocf_read_pt_do ex_pt_env ex_req_dirty).2.count
      .ocf_hb_req_prot_lock_rd = 1 ∧
    (ocf_read_pt_do ex_pt_env ex_req_dirty).2.count
      .ocf_hb_req_prot_unlock_rd = 1 ∧
    (ocf_read_pt_do ex_pt_env ex_req_dirty).2.countP is_forward = 0 ∧
    (ocf_read_pt_do ex_pt_env ex_req_dirty).2.countP is_stats_update = 0 ∧
    (ocf_read_pt_do ex_pt_env ex_req_dirty).2.head? = some .ocf_req_get ∧
    (ocf_read_pt_do ex_pt_env ex_req_dirty).2.getLast? = some .ocf_req_put ∧
    gets (ocf_read_pt_do ex_pt_env ex_req_dirty).2 = 1 ∧
    puts (ocf_read_pt_do ex_pt_env ex_req_dirty).2 = 1 ∧
    (∀ req' : ocf_request,
      (ocf_read_pt_do ex_pt_env req').2.countP is_forward ≠ 0 ↔
        req'.info.dirty_any = false) :=
  C18_read_pt_do_dirty ex_pt_env ex_req_dirty (by decide)

/-- C19: on a request with `info.dirty_any` clear, `ocf_read_pt_do` returns 0
after these calls: it takes a reference first; it calls `ocf_user_part_move`
if and only if `ocf_engine_needs_repart` holds, and then once, after taking
and before releasing the hash-bucket write lock, the release coming before
the submission; it forwards the core read exactly once, with
`_ocf_read_pt_complete` as completion; after the submission it updates the
block statistics, the pass-through block statistics and the pass-through
request statistics once each, the latter two with the `part_id` and the
direction of the request; it never calls the clean operation; and it puts the
reference last, so that gets and puts balance. -/
theorem C19_read_pt_do_clean (pt : ocf_pt_env) (req : ocf_request)
    (hd : req.info.dirty_any = false) :
    (ocf_read_pt_do pt req).1 = 0 ∧
    (ocf_read_pt_do pt req).2.countP is_forward = 1 ∧
    (ocf_read_pt_do pt req).2.count
      (.ocf_engine_forward_core_io_req ._ocf_read_pt_complete) = 1 ∧
    ocf_event.ocf_engine_clean ∉ (ocf_read_pt_do pt req).2 ∧
    (ocf_event.ocf_user_part_move ∈ (ocf_read_pt_do pt req).2 ↔
      pt.ocf_engine_needs_repart req = true) ∧
    (pt.ocf_engine_needs_repart req = true →
      (ocf_read_pt_do pt req).2.count .ocf_user_part_move = 1 ∧
      precedes .ocf_hb_req_prot_lock_wr .ocf_user_part_move
        (ocf_read_pt_do pt req).2 ∧
      precedes .ocf_user_part_move .ocf_hb_req_prot_unlock_wr
        (ocf_read_pt_do pt req).2 ∧
      precedes .ocf_hb_req_prot_unlock_wr
        (.ocf_engine_forward_core_io_req ._ocf_read_pt_complete)
        (ocf_read_pt_do pt req).2) ∧
    (ocf_read_pt_do pt req).2.countP is_stats_update = 3 ∧
    (ocf_read_pt_do pt req).2.count .ocf_engine_update_block_stats = 1 ∧
    (ocf_read_pt_do pt req).2.count
      (.ocf_core_stats_pt_block_update req.part_id req.rw req.bytes) = 1 ∧
    (ocf_read_pt_do pt req).2.count
      (.ocf_core_stats_request_pt_update req.part_id req.rw req.info.hit_no
        req.core_line_count) = 1 ∧
    precedes (.ocf_engine_forward_core_io_req ._ocf_read_pt_complete)
      .ocf_engine_update_block_stats (ocf_read_pt_do pt req).2 ∧
    precedes .ocf_engine_update_block_stats
      (.ocf_core_stats_pt_block_update req.part_id req.rw req.bytes)
      (ocf_read_pt_do pt req).2 ∧
    precedes (.ocf_core_stats_pt_block_update req.part_id req.rw req.bytes)
      (.ocf_core_stats_request_pt_update req.part_id req.rw req.info.hit_no
        req.core_line_count)
      (ocf_read_pt_do pt req).2 ∧
    (ocf_read_pt_do pt req).2.head? = some .ocf_req_get ∧
    (ocf_read_pt_do pt req).2.getLast? = some .ocf_req_put ∧
    gets (ocf_read_pt_do pt req).2 = 1 ∧
    puts (ocf_read_pt_do pt req).2 = 1 := by
  by_cases hr : pt.ocf_engine_needs_repart req = true
  · have hout : ocf_read_pt_do pt req =
        (0, [.ocf_req_get, .ocf_hb_req_prot_lock_wr, .ocf_user_part_move,
             .ocf_hb_req_prot_unlock_wr,
             .ocf_engine_forward_core_io_req ._ocf_read_pt_complete,
             .ocf_engine_update_block_stats,
             .ocf_core_stats_pt_block_update req.part_id req.rw req.bytes,
             .ocf_core_stats_request_pt_update req.part_id req.rw
               req.info.hit_no req.core_line_count,
             .ocf_req_put]) := by
      unfold ocf_read_pt_do _ocf_read_pt_submit
      simp [hd, hr]
    rw [hout]
    simp [hr, is_forward, is_stats_update, precedes, List.indexOf_cons,
      gets, puts]
  · have hout : ocf_read_pt_do pt req =
        (0, [.ocf_req_get,
             .ocf_engine_forward_core_io_req ._ocf_read_pt_complete,
             .ocf_engine_update_block_stats,
             .ocf_core_stats_pt_block_update req.part_id req.rw req.bytes,
             .ocf_core_stats_request_pt_update req.part_id req.rw
               req.info.hit_no req.core_line_count,
             .ocf_req_put]) := by
      unfold ocf_read_pt_do _ocf_read_pt_submit
      simp [hd, hr]
    rw [hout]
    simp [hr, is_forward, is_stats_update, precedes, List.indexOf_cons,
      gets, puts]

/-- C19 (witness): the statement at a clean read that needs a repartition. -/
theorem C19_read_pt_do_clean_witness :
    (ocf_read_pt_do ex_pt_env ex_req_read).1 = 0 ∧
    (ocf_read_pt_do ex_pt_env ex_req_read).2.countP is_forward = 1 ∧
    (ocf_read_pt_do ex_pt_env ex_req_read).2.count
      (.ocf_engine_forward_core_io_req ._ocf_read_pt_complete) = 1 ∧
    ocf_event.ocf_engine_clean ∉ (ocf_read_pt_do ex_pt_env ex_req_read).2 ∧
    (ocf_event.ocf_user_part_move ∈ (ocf_read_pt_do ex_pt_env ex_req_read).2 ↔
      ex_pt_env.ocf_engine_needs_repart ex_req_read = true) ∧
    (ex_pt_env.ocf_engine_needs_repart ex_req_read = true →
      (ocf_read_pt_do ex_pt_env ex_req_read).2.count .ocf_user_part_move = 1 ∧
      precedes .ocf_hb_req_prot_lock_wr .ocf_user_part_move
        (ocf_read_pt_do ex_pt_env ex_req_read).2 ∧
      precedes .ocf_user_part_move .ocf_hb_req_prot_unlock_wr
        (ocf_read_pt_do ex_pt_env ex_req_read).2 ∧
      precedes .ocf_hb_req_prot_unlock_wr
        (.ocf_engine_forward_core_io_req ._ocf_read_pt_complete)
        (ocf_read_pt_do ex_pt_env ex_req_read).2) ∧
    (ocf_read_pt_do ex_pt_env ex_req_read).2.countP is_stats_update = 3 ∧
    (ocf_read_pt_do ex_pt_env ex_req_read).2.count
      .ocf_engine_update_block_stats = 1 ∧
    (ocf_read_pt_do ex_pt_env ex_req_read).2.count
      (.ocf_core_stats_pt_block_update ex_req_read.part_id ex_req_read.rw
        ex_req_read.bytes) = 1 ∧
    (ocf_read_pt_do ex_pt_env ex_req_read).2.count
      (.ocf_core_stats_request_pt_update ex_req_read.part_id ex_req_read.rw
        ex_req_read.info.hit_no ex_req_read.core_line_count) = 1 ∧
    precedes (.ocf_engine_forward_core_io_req ._ocf_read_pt_complete)
      .ocf_engine_update_block_stats (ocf_read_pt_do ex_pt_env ex_req_read).2 ∧
    precedes .ocf_engine_update_block_stats
      (.ocf_core_stats_pt_block_update ex_req_read.part_id ex_req_read.rw
        ex_req_read.bytes)
      (ocf_read_pt_do ex_pt_env ex_req_read).2 ∧
    precedes
      (.ocf_core_stats_pt_block_update ex_req_read.part_id ex_req_read.rw
        ex_req_read.bytes)
      (.ocf_core_stats_request_pt_update ex_req_read.part_id ex_req_read.rw
        ex_req_read.info.hit_no ex_req_read.core_line_count)
      (ocf_read_pt_do ex_pt_env ex_req_read).2 ∧
    (ocf_read_pt_do ex_pt_env ex_req_read).2.head? = some .ocf_req_get ∧
    (ocf_read_pt_do ex_pt_env ex_req_read).2.getLast? = some .ocf_req_put ∧
    gets (ocf_read_pt_do ex_pt_env ex_req_read).2 = 1 ∧
    puts (ocf_read_pt_do ex_pt_env ex_req_read).2 = 1 :=
  C19_read_pt_do_clean ex_pt_env ex_req_read (by decide)

/-! ## The parallelizer: construction -/

/-- The position after `i` in a circular list of `q` entries. -/
theorem succ_mod_eq (i q : Nat) (hq : 0 < q) :
    (i + 1) % q = if i % q + 1 = q then 0 else i % q + 1 := by
  have hlt : i % q < q := Nat.mod_lt _ hq
  have hdiv : q * (i / q) + i % q = i := Nat.div_add_mod i q
  split_ifs with h
  · have : i + 1 = q * (i / q + 1) := by
      rw [Nat.mul_add, Nat.mul_one]
      omega
    rw [this, Nat.mul_mod_right]
  · have : i + 1 = q * (i / q) + (i % q + 1) := by omega
    rw [this, Nat.mul_add_mod, Nat.mod_eq_of_lt (by omega)]

/-- The allocation loop in closed form: when it succeeds from the counter `i`
with the list position `i mod Q`, it appends, for each `k` below the number of
iterations, the request of shard `i + k`, bound to the queue at position
`(i + k) mod Q` of the I/O queue list, or to the management queue when the
list is empty. -/
theorem create_reqs_eq (env : ocf_prl_env) :
    ∀ (n i iter : Nat) (reqs r : List ocf_prl_req),
      (0 < env.io_queues.length → iter = i % env.io_queues.length) →
      ocf_parallelize_create_reqs env env.io_queues.length n i iter reqs
        = .ok r →
      r = reqs ++ (List.range n).map (fun k =>
        { queue :=
            if 0 < env.io_queues.length then
              env.io_queues.getD ((i + k) % env.io_queues.length)
                env.mngt_queue
            else env.mngt_queue,
          internal := true,
          engine_handler := ._ocf_parallelize_hndl,
          byte_position := i + k }) := by
  intro n
  induction n with
  | zero =>
    intro i iter reqs r _ h
    simp only [ocf_parallelize_create_reqs] at h
    cases h
    simp
  | succ n ih =>
    intro i iter reqs r hiter h
    simp only [ocf_parallelize_create_reqs] at h
    by_cases hq : 0 < env.io_queues.length
    · have hi := hiter hq
      simp only [gt_iff_lt, hq, if_true] at h
      split_ifs at h with h1 h2
      · have hnext : (0 < env.io_queues.length →
            0 = (i + 1) % env.io_queues.length) := by
          intro _
          rw [succ_mod_eq i _ hq, ← hi, if_pos h2]
        have hr := ih (i + 1) 0 _ r hnext h
        rw [hr, List.range_succ_eq_map, List.map_cons, List.map_map,
          List.append_assoc]
        simp only [List.singleton_append, Nat.add_zero, hq, if_true, hi]
        congr 2
        apply List.map_congr_left
        intro k _
        simp only [Function.comp, Nat.succ_eq_add_one]
        rw [show i + 1 + k = i + (k + 1) by omega]
      · have hnext : (0 < env.io_queues.length →
            iter + 1 = (i + 1) % env.io_queues.length) := by
          intro _
          rw [succ_mod_eq i _ hq, ← hi, if_neg h2]
        have hr := ih (i + 1) (iter + 1) _ r hnext h
        rw [hr, List.range_succ_eq_map, List.map_cons, List.map_map,
          List.append_assoc]
        simp only [List.singleton_append, Nat.add_zero, hq, if_true, hi]
        congr 2
        apply List.map_congr_left
        intro k _
        simp only [Function.comp, Nat.succ_eq_add_one]
        rw [show i + 1 + k = i + (k + 1) by omega]
    · simp only [gt_iff_lt, hq, if_false] at h
      split_ifs at h with h2
      have hr := ih (i + 1) iter _ r (fun h0 => absurd h0 hq) h
      rw [hr, List.range_succ_eq_map, List.map_cons, List.map_map,
        List.append_assoc]
      simp only [List.singleton_append, Nat.add_zero, hq, if_false]
      congr 2
      apply List.map_congr_left
      intro k _
      simp only [Function.comp, Nat.succ_eq_add_one]
      rw [show i + 1 + k = i + (k + 1) by omega]

/-- What `ocf_parallelize_create` returns when it succeeds, field by field,
with `B` the base address the allocator returned. -/
theorem create_eq (env : ocf_prl_env) (shards_cnt priv_size : Nat)
    (p : ocf_parallelize)
    (h : ocf_parallelize_create env shards_cnt priv_size = .ok p) :
    p.shards_cnt =
      (if shards_cnt = 0 then
        (if env.io_queues.length ≠ 0 then env.io_queues.length else 1)
       else shards_cnt) ∧
    p.reqs = (List.range p.shards_cnt).map (fun k =>
      { queue :=
          if 0 < env.io_queues.length then
            env.io_queues.getD (k % env.io_queues.length) env.mngt_queue
          else env.mngt_queue,
        internal := true,
        engine_handler := ._ocf_parallelize_hndl,
        byte_position := k }) ∧
    ∃ B, env.env_vzalloc
        (((env.sizeof_parallelize + p.shards_cnt * env.sizeof_req_ptr) % 2 ^ 64
          + priv_size + OCF_PARALLELIZE_ALIGNMENT) % 2 ^ 64) = some B ∧
      p.priv =
        (if priv_size > 0 then
          some ((OCF_DIV_ROUND_UP
            ((B + (env.sizeof_parallelize +
              p.shards_cnt * env.sizeof_req_ptr) % 2 ^ 64) % 2 ^ 64)
            OCF_PARALLELIZE_ALIGNMENT * OCF_PARALLELIZE_ALIGNMENT) % 2 ^ 64)
         else none) := by
  unfold ocf_parallelize_create at h
  simp only [] at h
  split at h
  · cases h
  · rename_i B hB
    split at h
    · cases h
    · rename_i reqs hreqs
      have hr := create_reqs_eq env _ 0 0 [] reqs (fun _ => by simp) hreqs
      cases h
      refine ⟨rfl, ?_, B, hB, rfl⟩
      rw [hr]
      simp

/-- C17: when `ocf_parallelize_create` succeeds on a cache with `Q` I/O
queues, the shard count `N` is the caller's value when that is not zero and
otherwise `Q`, or 1 when `Q` is 0; exactly `N` shard requests are allocated;
the request of shard `i` carries the shard index `i`, is marked internal and
has `_ocf_parallelize_hndl` as handler; when `Q > 0` it is bound to the queue
at position `i mod Q` of the I/O queue list, and when `Q = 0` to the
management queue. -/
theorem C17_create_shards (env : ocf_prl_env) (shards_cnt priv_size : Nat)
    (p : ocf_parallelize)
    (h : ocf_parallelize_create env shards_cnt priv_size = .ok p) :
    p.shards_cnt =
      (if shards_cnt ≠ 0 then shards_cnt
       else if env.io_queues.length ≠ 0 then env.io_queues.length else 1) ∧
    p.reqs.length = p.shards_cnt ∧
    ∀ i, i < p.shards_cnt →
      ∃ r, p.reqs.get? i = some r ∧
        r.byte_position = i ∧
        r.internal = true ∧
        r.engine_handler = ._ocf_parallelize_hndl ∧
        (0 < env.io_queues.length →
          env.io_queues.get? (i % env.io_queues.length) = some r.queue) ∧
        (env.io_queues.length = 0 → r.queue = env.mngt_queue) := by
  obtain ⟨hN, hreqs, _⟩ := create_eq env shards_cnt priv_size p h
  refine ⟨?_, ?_, ?_⟩
  · rw [hN]
    by_cases h0 : shards_cnt = 0 <;> simp [h0]
  · rw [hreqs]
    simp
  · intro i hi
    have hget : p.reqs.get? i = some
        { queue :=
            if 0 < env.io_queues.length then
              env.io_queues.getD (i % env.io_queues.length) env.mngt_queue
            else env.mngt_queue,
          internal := true,
          engine_handler := ._ocf_parallelize_hndl,
          byte_position := i } := by
      rw [hreqs, List.get?_eq_getElem?, List.getElem?_map,
        List.getElem?_range hi]
      rfl
    refine ⟨_, hget, rfl, rfl, rfl, ?_, ?_⟩
    · intro hq
      simp only [hq, if_true]
      have hlt : i % env.io_queues.length < env.io_queues.length :=
        Nat.mod_lt _ hq
      rw [List.getD_eq_getElem _ _ hlt, List.get?_eq_getElem?,
        List.getElem?_eq_getElem hlt]
    · intro hq
      simp [hq]

/-- C17 (witness): eight shards requested on a cache with four I/O queues. -/
theorem C17_create_shards_witness :
    ex_parallelize.shards_cnt =
      (if (8 : Nat) ≠ 0 then 8
       else if ex_prl_env.io_queues.length ≠ 0
        then ex_prl_env.io_queues.length else 1) ∧
    ex_parallelize.reqs.length = ex_parallelize.shards_cnt ∧
    ∀ i, i < ex_parallelize.shards_cnt →
      ∃ r, ex_parallelize.reqs.get? i = some r ∧
        r.byte_position = i ∧
        r.internal = true ∧
        r.engine_handler = ._ocf_parallelize_hndl ∧
        (0 < ex_prl_env.io_queues.length →
          ex_prl_env.io_queues.get? (i % ex_prl_env.io_queues.length)
            = some r.queue) ∧
        (ex_prl_env.io_queues.length = 0 →
          r.queue = ex_prl_env.mngt_queue) :=
  C17_create_shards ex_prl_env 8 0 ex_parallelize rfl

/-- The default shard count on examples: with no count given, four shards on
the cache with four I/O queues, and one shard, bound to the management queue,
on the cache without I/O queue. -/
theorem ex_create_default_count :
    ocf_parallelize_create ex_prl_env 0 0 = .ok
      { priv := none, shards_cnt := 4, remaining := 5, error := 0,
        reqs := [
          { queue := 10, internal := true,
            engine_handler := ._ocf_parallelize_hndl, byte_position := 0 },
          { queue := 11, internal := true,
            engine_handler := ._ocf_parallelize_hndl, byte_position := 1 },
          { queue := 12, internal := true,
            engine_handler := ._ocf_parallelize_hndl, byte_position := 2 },
          { queue := 13, internal := true,
            engine_handler := ._ocf_parallelize_hndl, byte_position := 3 }] } ∧
    ocf_parallelize_create ex_prl_env_no_queue 0 0 = .ok
      { priv := none, shards_cnt := 1, remaining := 2, error := 0,
        reqs := [
          { queue := 1, internal := true,
            engine_handler := ._ocf_parallelize_hndl, byte_position := 0 }] } :=
  ⟨rfl, rfl⟩

/-- C20: let `ocf_parallelize_create` succeed, with `B` the base address of
its allocation of `S + P + 64` bytes, where `S` is the size of the header and
of the `N` request pointers and `P` the size asked for the private area, and
let `B + S + P + 64` not exceed the 64-bit address range. When `P > 0`,
`priv` is the least multiple of 64 that is at least `B + S`: it is a multiple
of 64, it lies at or after the end `B + S` of the request pointers, and the
area of `P` bytes from `priv` ends within the allocation. When `P = 0`, `priv`
is left null. -/
theorem C20_priv_alignment (env : ocf_prl_env) (shards_cnt priv_size : Nat)
    (p : ocf_parallelize) (B : Nat)
    (hcreate : ocf_parallelize_create env shards_cnt priv_size = .ok p)
    (hB : env.env_vzalloc
      (env.sizeof_parallelize + p.shards_cnt * env.sizeof_req_ptr
        + priv_size + 64) = some B)
    (hov : B + (env.sizeof_parallelize + p.shards_cnt * env.sizeof_req_ptr)
      + priv_size + 64 < 2 ^ 64) :
    (0 < priv_size →
      ∃ a, p.priv = some a ∧
        a % 64 = 0 ∧
        B + (env.sizeof_parallelize + p.shards_cnt * env.sizeof_req_ptr) ≤ a ∧
        (∀ m, m % 64 = 0 →
          B + (env.sizeof_parallelize + p.shards_cnt * env.sizeof_req_ptr) ≤ m →
          a ≤ m) ∧
        B ≤ a ∧
        a + priv_size ≤ B + (env.sizeof_parallelize +
          p.shards_cnt * env.sizeof_req_ptr + priv_size + 64)) ∧
    (priv_size = 0 → p.priv = none) := by
  obtain ⟨_, _, B', hB', hpriv⟩ := create_eq env shards_cnt priv_size p hcreate
  generalize hS : env.sizeof_parallelize + p.shards_cnt * env.sizeof_req_ptr
    = S at hB hov hB' hpriv ⊢
  have hSmod : S % 2 ^ 64 = S := Nat.mod_eq_of_lt (by omega)
  have hsize : (S % 2 ^ 64 + priv_size + OCF_PARALLELIZE_ALIGNMENT) % 2 ^ 64
      = S + priv_size + 64 := by
    rw [hSmod]
    unfold OCF_PARALLELIZE_ALIGNMENT
    exact Nat.mod_eq_of_lt (by omega)
  rw [hsize, hB] at hB'
  injection hB' with hBB
  subst hBB
  rw [hSmod] at hpriv
  have hval : (OCF_DIV_ROUND_UP ((B + S) % 2 ^ 64) OCF_PARALLELIZE_ALIGNMENT
      * OCF_PARALLELIZE_ALIGNMENT) % 2 ^ 64 = (B + S + 63) / 64 * 64 := by
    unfold OCF_DIV_ROUND_UP OCF_PARALLELIZE_ALIGNMENT
    rw [Nat.mod_eq_of_lt (show B + S < 2 ^ 64 by omega)]
    rw [show B + S + 64 - 1 = B + S + 63 by omega]
    rw [Nat.mod_eq_of_lt (show B + S + 63 < 2 ^ 64 by omega)]
    exact Nat.mod_eq_of_lt (by omega)
  rw [hval] at hpriv
  constructor
  · intro hP
    rw [if_pos hP] at hpriv
    refine ⟨_, hpriv, ?_, ?_, ?_, ?_, ?_⟩
    · omega
    · omega
    · intro m hm hle
      omega
    · omega
    · omega
  · intro hP
    rw [hpriv, hP]
    rfl

/-- C20 (witness): three shards and a private area of 100 bytes on an
allocation that starts at 4104; `priv` is 4224. -/
theorem C20_priv_alignment_witness :
    (0 < 100 →
      ∃ a, ex_parallelize_priv.priv = some a ∧
        a % 64 = 0 ∧
        4104 + (ex_prl_env.sizeof_parallelize +
          ex_parallelize_priv.shards_cnt * ex_prl_env.sizeof_req_ptr) ≤ a ∧
        (∀ m, m % 64 = 0 →
          4104 + (ex_prl_env.sizeof_parallelize +
            ex_parallelize_priv.shards_cnt * ex_prl_env.sizeof_req_ptr) ≤ m →
          a ≤ m) ∧
        4104 ≤ a ∧
        a + 100 ≤ 4104 + (ex_prl_env.sizeof_parallelize +
          ex_parallelize_priv.shards_cnt * ex_prl_env.sizeof_req_ptr
          + 100 + 64)) ∧
    ((100 : Nat) = 0 → ex_parallelize_priv.priv = none) :=
  C20_priv_alignment ex_prl_env 3 100 ex_parallelize_priv 4104 rfl rfl
    (by decide)

/-! ## The parallelizer: concurrent runs -/

/-- The position of a thread after one thread was moved. -/
theorem pc_set_apply (pc : ocf_prl_thread → ocf_prl_pc) (w w' : ocf_prl_thread)
    (v : ocf_prl_pc) : pc_set pc w v w' = if w' = w then v else pc w' :=
  rfl

/-- The invariant holds when `ocf_parallelize_run` is entered. -/
theorem prl_inv_init (handle : Nat → Nat → Int) (p : ocf_parallelize)
    (hrem : p.remaining = (p.shards_cnt : Int) + 1) (herr : p.error = 0) :
    prl_inv handle p [] (ocf_prl_init p) := by
  refine
    { cnt := rfl, reqs := rfl, rem := ?_, err := ?_, dec_nodup := ?_,
      dec_mem := ?_, cas_nodup := ?_, cas_mem := ?_, value := ?_, idle := ?_,
      push_lt := ?_, unpushed := ?_, pushed := ?_, run_pc := ?_,
      shard_pc := ?_, phase := ?_ }
  · simp [ocf_prl_init, dec_order, hrem]
  · simp [ocf_prl_init, cas_order, shard_errors, latch, first_error, herr]
  · simp [dec_order]
  · intro w
    cases w with
    | run =>
      simp only [dec_order, List.filterMap_nil, List.not_mem_nil, ocf_prl_init,
        false_iff]
      split_ifs <;> simp [reported]
    | shard i => simp [dec_order, ocf_prl_init, reported]
  · simp [cas_order]
  · intro i
    simp [cas_order, ocf_prl_init, latched]
  · intro i e he
    simp [ocf_prl_init] at he
  · intro i _
    rfl
  · intro j hj
    simp only [ocf_prl_init] at hj
    split_ifs at hj with h0
    · cases hj
      exact h0
  · intro i j _ _
    rfl
  · intro i hi _
    refine ⟨0, ?_, Nat.zero_le i⟩
    simp only [ocf_prl_init]
    rw [if_pos (by omega)]
  · simp only [ocf_prl_init]
    split_ifs <;> simp
  · intro i j
    simp [ocf_prl_init]
  · left
    refine ⟨rfl, ?_, by simp [dec_order]⟩
    intro w
    cases w with
    | run =>
      simp only [ocf_prl_init]
      split_ifs <;> simp [finishing]
    | shard i => simp [ocf_prl_init, finishing]

/-- A thread that is not idle is a thread of the run. -/
theorem prl_inv_valid {handle : Nat → Nat → Int} {p : ocf_parallelize}
    {l : List ocf_prl_op} {c : ocf_prl_conc} (h : prl_inv handle p l c)
    (w : ocf_prl_thread) (hw : c.pc w ≠ .idle) :
    w ∈ ocf_prl_threads p.shards_cnt := by
  rw [mem_prl_threads]
  cases w with
  | run => exact Or.inl rfl
  | shard i =>
    right
    refine ⟨i, ?_, rfl⟩
    by_contra hi
    exact hw (h.idle i hi)

/-- The threads that have decremented are threads of the run. -/
theorem prl_inv_dec_valid {handle : Nat → Nat → Int} {p : ocf_parallelize}
    {l : List ocf_prl_op} {c : ocf_prl_conc} (h : prl_inv handle p l c) :
    ∀ w ∈ dec_order l, w ∈ ocf_prl_threads p.shards_cnt := by
  intro w hw
  apply prl_inv_valid h
  have h1 := (h.dec_mem w).mp hw
  intro h2
  rw [h2] at h1
  simp [reported] at h1

/-- While a thread of the run has not decremented yet, `finish` has not been
called and no thread is on its way to call it. -/
theorem prl_inv_active {handle : Nat → Nat → Int} {p : ocf_parallelize}
    {l : List ocf_prl_op} {c : ocf_prl_conc} (h : prl_inv handle p l c)
    (w : ocf_prl_thread) (hw : c.pc w ≠ .idle)
    (h1 : reported (c.pc w) = false) :
    finish_calls c.state.log = [] ∧ (∀ w, finishing (c.pc w) = false) ∧
      (dec_order l).length ≤ p.shards_cnt := by
  have hfull : (dec_order l).length = p.shards_cnt + 1 → False := by
    intro hl
    have hm := prl_threads_full _ _ h.dec_nodup (prl_inv_dec_valid h) hl w
      (prl_inv_valid h w hw)
    have h3 := (h.dec_mem w).mp hm
    rw [h1] at h3
    cases h3
  rcases h.phase with ha | ⟨_, _, _, _, _, _, hl⟩ | ⟨_, _, _, _, _, _, hl⟩ |
    ⟨_, _, _, _, _, hl⟩
  · exact ha
  · exact (hfull hl).elim
  · exact (hfull hl).elim
  · exact (hfull hl).elim

/-- The invariant is kept by an iteration of the push loop. -/
theorem prl_inv_push {handle : Nat → Nat → Int} {p : ocf_parallelize}
    {l : List ocf_prl_op} {c c' : ocf_prl_conc} (h : prl_inv handle p l c)
    (hop : ocf_prl_op_exec handle c .push = some c') :
    prl_inv handle p (l ++ [.push]) c' := by
  simp only [ocf_prl_op_exec] at hop
  split at hop
  · rename_i i hpc
    injection hop with hop
    subst hop
    have hi : i < p.shards_cnt := h.push_lt i hpc
    have hsi : c.pc (.shard i) = .idle := h.unpushed i i hpc (le_refl _)
    obtain ⟨ha1, ha2, ha3⟩ := prl_inv_active h .run (by rw [hpc]; simp)
      (by rw [hpc]; rfl)
    have hd : dec_order (l ++ [.push]) = dec_order l := by
      simp [dec_order_append, dec_order]
    have hc : cas_order (l ++ [.push]) = cas_order l := by
      simp [cas_order_append, cas_order]
    refine
      { cnt := h.cnt, reqs := h.reqs, rem := ?_, err := ?_, dec_nodup := ?_,
        dec_mem := ?_, cas_nodup := ?_, cas_mem := ?_, value := ?_,
        idle := ?_, push_lt := ?_, unpushed := ?_, pushed := ?_,
        run_pc := ?_, shard_pc := ?_, phase := ?_ }
    all_goals try dsimp only
    · rw [hd]; exact h.rem
    · rw [hc]; exact h.err
    · rw [hd]; exact h.dec_nodup
    · intro w
      rw [hd, h.dec_mem w]
      simp only [pc_set_apply]
      by_cases hw : w = .run
      · subst hw
        rw [if_pos rfl, hpc]
        split_ifs <;> simp [reported]
      · rw [if_neg hw]
        by_cases hw2 : w = .shard i
        · subst hw2
          rw [if_pos rfl, hsi]
          simp [reported]
        · rw [if_neg hw2]
    · rw [hc]; exact h.cas_nodup
    · intro k
      rw [hc, h.cas_mem k]
      simp only [pc_set_apply]
      rw [if_neg (by simp)]
      by_cases hki : k = i
      · subst hki
        rw [if_pos rfl, hsi]
        simp [latched]
      · rw [if_neg (by simp [hki])]
    · intro k e
      simp only [pc_set_apply]
      rw [if_neg (by simp)]
      by_cases hki : k = i
      · subst hki
        rw [if_pos rfl]
        intro he
        cases he
      · rw [if_neg (by simp [hki])]
        exact h.value k e
    · intro k hk
      simp only [pc_set_apply]
      rw [if_neg (by simp), if_neg (by
        intro e
        cases e
        exact hk hi)]
      exact h.idle k hk
    · intro j hj
      rw [pc_set_same, h.cnt] at hj
      split_ifs at hj with h1
      · cases hj
        exact h1
    · intro k j hj hjk
      rw [pc_set_same, h.cnt] at hj
      split_ifs at hj with h1
      cases hj
      simp only [pc_set_apply]
      rw [if_neg (by simp), if_neg (by
        intro e
        cases e
        omega)]
      exact h.unpushed k i hpc (by omega)
    · intro k hk hidle
      simp only [pc_set_apply] at hidle ⊢
      rw [if_neg (by simp)] at hidle
      by_cases hki : k = i
      · subst hki
        rw [if_pos rfl] at hidle
        cases hidle
      · rw [if_neg (by simp [hki])] at hidle
        obtain ⟨j0, hj0, hle⟩ := h.pushed k hk hidle
        rw [hpc] at hj0
        cases hj0
        refine ⟨i + 1, ?_, by omega⟩
        rw [if_true, h.cnt, if_pos (by omega)]
    · rw [pc_set_same]
      split_ifs <;> simp
    · intro k j
      simp only [pc_set_apply]
      rw [if_neg (by simp)]
      by_cases hki : k = i
      · subst hki
        rw [if_pos rfl]
        simp
      · rw [if_neg (by simp [hki])]
        exact h.shard_pc k j
    · left
      refine ⟨?_, ?_, ?_⟩
      all_goals try dsimp only
      · simp only [finish_calls_append, ha1]
        rfl
      · intro w
        simp only [pc_set_apply]
        by_cases hw : w = .run
        · subst hw
          rw [if_pos rfl]
          split_ifs <;> rfl
        · rw [if_neg hw]
          by_cases hw2 : w = .shard i
          · subst hw2
            rw [if_pos rfl]
            rfl
          · rw [if_neg hw2]
            exact ha2 w
      · rw [hd]; exact ha3
  · cases hop

/-- The invariant is kept by the call of the user handler of a shard. -/
theorem prl_inv_handle {handle : Nat → Nat → Int} {p : ocf_parallelize}
    {l : List ocf_prl_op} {c c' : ocf_prl_conc} (i : Nat)
    (h : prl_inv handle p l c)
    (hop : ocf_prl_op_exec handle c (.handle i) = some c') :
    prl_inv handle p (l ++ [.handle i]) c' := by
  simp only [ocf_prl_op_exec] at hop
  split_ifs at hop with hpc
  split at hop
  · rename_i req hreq
    injection hop with hop
    subst hop
    obtain ⟨ha1, ha2, ha3⟩ := prl_inv_active h (.shard i) (by rw [hpc]; simp)
      (by rw [hpc]; rfl)
    have hd : dec_order (l ++ [.handle i]) = dec_order l := by
      simp [dec_order_append, dec_order]
    have hc : cas_order (l ++ [.handle i]) = cas_order l := by
      simp [cas_order_append, cas_order]
    refine
      { cnt := h.cnt, reqs := h.reqs, rem := ?_, err := ?_, dec_nodup := ?_,
        dec_mem := ?_, cas_nodup := ?_, cas_mem := ?_, value := ?_,
        idle := ?_, push_lt := ?_, unpushed := ?_, pushed := ?_,
        run_pc := ?_, shard_pc := ?_, phase := ?_ }
    all_goals try dsimp only
    · rw [hd]; exact h.rem
    · rw [hc]; exact h.err
    · rw [hd]; exact h.dec_nodup
    · intro w
      rw [hd, h.dec_mem w, pc_set_apply]
      by_cases hw : w = .shard i
      · subst hw
        rw [if_pos rfl, hpc]
        simp [reported]
      · rw [if_neg hw]
    · rw [hc]; exact h.cas_nodup
    · intro k
      rw [hc, h.cas_mem k, pc_set_apply]
      by_cases hki : k = i
      · subst hki
        rw [if_pos rfl, hpc]
        simp [latched]
      · rw [if_neg (by simp [hki])]
    · intro k e
      rw [pc_set_apply]
      by_cases hki : k = i
      · subst hki
        rw [if_pos rfl]
        intro he
        injection he with he
        refine ⟨req, ?_, ?_⟩
        · rw [← h.reqs]; exact hreq
        · rw [← he, h.cnt]
      · rw [if_neg (by simp [hki])]
        exact h.value k e
    · intro k hk
      rw [pc_set_apply]
      by_cases hki : k = i
      · subst hki
        rw [h.idle k hk] at hpc
        cases hpc
      · rw [if_neg (by simp [hki])]
        exact h.idle k hk
    · intro j hj
      rw [pc_set_apply, if_neg (by simp)] at hj
      exact h.push_lt j hj
    · intro k j hj hjk
      rw [pc_set_apply, if_neg (by simp)] at hj
      rw [pc_set_apply]
      by_cases hki : k = i
      · subst hki
        rw [h.unpushed k j hj hjk] at hpc
        cases hpc
      · rw [if_neg (by simp [hki])]
        exact h.unpushed k j hj hjk
    · intro k hk hidle
      rw [pc_set_apply] at hidle
      rw [pc_set_apply, if_neg (by simp)]
      by_cases hki : k = i
      · subst hki
        rw [if_pos rfl] at hidle
        cases hidle
      · rw [if_neg (by simp [hki])] at hidle
        exact h.pushed k hk hidle
    · rw [pc_set_apply, if_neg (by simp)]
      exact h.run_pc
    · intro k j
      rw [pc_set_apply]
      by_cases hki : k = i
      · subst hki
        rw [if_pos rfl]
        simp
      · rw [if_neg (by simp [hki])]
        exact h.shard_pc k j
    · left
      refine ⟨ha1, ?_, ?_⟩
      all_goals try dsimp only
      · intro w
        rw [pc_set_apply]
        by_cases hw : w = .shard i
        · rw [if_pos hw]
          rfl
        · rw [if_neg hw]
          exact ha2 w
      · rw [hd]; exact ha3
  · cases hop

/-- The invariant is kept by the compare-and-swap of a shard. -/
theorem prl_inv_cmpxchg {handle : Nat → Nat → Int} {p : ocf_parallelize}
    {l : List ocf_prl_op} {c c' : ocf_prl_conc} (i : Nat)
    (h : prl_inv handle p l c)
    (hop : ocf_prl_op_exec handle c (.cmpxchg i) = some c') :
    prl_inv handle p (l ++ [.cmpxchg i]) c' := by
  simp only [ocf_prl_op_exec] at hop
  split at hop
  · rename_i error hpc
    injection hop with hop
    subst hop
    obtain ⟨ha1, ha2, ha3⟩ := prl_inv_active h (.shard i) (by rw [hpc]; simp)
      (by rw [hpc]; rfl)
    obtain ⟨req, hreq, herror⟩ := h.value i error hpc
    have hd : dec_order (l ++ [.cmpxchg i]) = dec_order l := by
      simp [dec_order_append, dec_order]
    have hc : cas_order (l ++ [.cmpxchg i]) = cas_order l ++ [i] := by
      simp [cas_order_append, cas_order]
    have hnot : i ∉ cas_order l := by
      rw [h.cas_mem i, hpc]
      simp [latched]
    refine
      { cnt := h.cnt, reqs := h.reqs, rem := ?_, err := ?_, dec_nodup := ?_,
        dec_mem := ?_, cas_nodup := ?_, cas_mem := ?_, value := ?_,
        idle := ?_, push_lt := ?_, unpushed := ?_, pushed := ?_,
        run_pc := ?_, shard_pc := ?_, phase := ?_ }
    all_goals try dsimp only
    · rw [hd]; exact h.rem
    · have hs : shard_errors handle p.reqs p.shards_cnt (cas_order l ++ [i]) =
          shard_errors handle p.reqs p.shards_cnt (cas_order l) ++ [error] := by
        have hreq' : p.reqs[i]? = some req := by
          rw [← List.get?_eq_getElem?]
          exact hreq
        simp [shard_errors, List.filterMap_append, hreq', herror]
      rw [hc, hs, latch_append_singleton, ← h.err]
    · rw [hd]; exact h.dec_nodup
    · intro w
      rw [hd, h.dec_mem w, pc_set_apply]
      by_cases hw : w = .shard i
      · subst hw
        rw [if_pos rfl, hpc]
        simp [reported]
      · rw [if_neg hw]
    · rw [hc]
      exact List.Nodup.append h.cas_nodup (List.nodup_singleton i)
        (by simpa using hnot)
    · intro k
      rw [hc, List.mem_append, h.cas_mem k, pc_set_apply]
      by_cases hki : k = i
      · subst hki
        rw [if_pos rfl]
        simp [latched]
      · rw [if_neg (by simp [hki])]
        simp [hki]
    · intro k e
      rw [pc_set_apply]
      by_cases hki : k = i
      · subst hki
        rw [if_pos rfl]
        intro he
        cases he
      · rw [if_neg (by simp [hki])]
        exact h.value k e
    · intro k hk
      rw [pc_set_apply]
      by_cases hki : k = i
      · subst hki
        rw [h.idle k hk] at hpc
        cases hpc
      · rw [if_neg (by simp [hki])]
        exact h.idle k hk
    · intro j hj
      rw [pc_set_apply, if_neg (by simp)] at hj
      exact h.push_lt j hj
    · intro k j hj hjk
      rw [pc_set_apply, if_neg (by simp)] at hj
      rw [pc_set_apply]
      by_cases hki : k = i
      · subst hki
        rw [h.unpushed k j hj hjk] at hpc
        cases hpc
      · rw [if_neg (by simp [hki])]
        exact h.unpushed k j hj hjk
    · intro k hk hidle
      rw [pc_set_apply] at hidle
      rw [pc_set_apply, if_neg (by simp)]
      by_cases hki : k = i
      · subst hki
        rw [if_pos rfl] at hidle
        cases hidle
      · rw [if_neg (by simp [hki])] at hidle
        exact h.pushed k hk hidle
    · rw [pc_set_apply, if_neg (by simp)]
      exact h.run_pc
    · intro k j
      rw [pc_set_apply]
      by_cases hki : k = i
      · subst hki
        rw [if_pos rfl]
        simp
      · rw [if_neg (by simp [hki])]
        exact h.shard_pc k j
    · left
      refine ⟨ha1, ?_, ?_⟩
      all_goals try dsimp only
      · intro w
        rw [pc_set_apply]
        by_cases hw : w = .shard i
        · rw [if_pos hw]
          rfl
        · rw [if_neg hw]
          exact ha2 w
      · rw [hd]; exact ha3
  · cases hop

/-- The invariant is kept by a decrement of `remaining`. -/
theorem prl_inv_dec {handle : Nat → Nat → Int} {p : ocf_parallelize}
    {l : List ocf_prl_op} {c c' : ocf_prl_conc} (w : ocf_prl_thread)
    (hrange : p.shards_cnt + 1 < 2 ^ 31) (h : prl_inv handle p l c)
    (hop : ocf_prl_op_exec handle c (.dec w) = some c') :
    prl_inv handle p (l ++ [.dec w]) c' := by
  simp only [ocf_prl_op_exec] at hop
  have hpc : c.pc w = .dec := by
    by_contra hpc
    rw [if_neg hpc] at hop
    cases hop
  rw [if_pos hpc] at hop
  obtain ⟨ha1, ha2, ha3⟩ := prl_inv_active h w (by rw [hpc]; simp)
    (by rw [hpc]; rfl)
  have hrem : to_int32 (c.state.parallelize.remaining - 1) =
      (p.shards_cnt : Int) - ((dec_order l).length : Int) := by
    rw [h.rem, to_int32_of_range _ (by omega) (by omega)]
    omega
  rw [hrem] at hop
  have hv : ∃ v, c' =
      { state := { c.state with
          parallelize := { c.state.parallelize with
            remaining := (p.shards_cnt : Int) - ((dec_order l).length : Int) } },
        pc := pc_set c.pc w v } ∧
      ((v = .done ∧ (dec_order l).length < p.shards_cnt) ∨
        (v = .read ∧ (dec_order l).length = p.shards_cnt)) := by
    by_cases hlen : (dec_order l).length = p.shards_cnt
    · refine ⟨.read, ?_, Or.inr ⟨rfl, hlen⟩⟩
      rw [if_neg (by omega)] at hop
      injection hop with hop
      exact hop.symm
    · refine ⟨.done, ?_, Or.inl ⟨rfl, by omega⟩⟩
      rw [if_pos (by omega)] at hop
      injection hop with hop
      exact hop.symm
  obtain ⟨v, rfl, hvc⟩ := hv
  have hrep : reported v = true := by
    rcases hvc with ⟨hv, _⟩ | ⟨hv, _⟩ <;> rw [hv] <;> rfl
  have hlat : latched v = true := by
    rcases hvc with ⟨hv, _⟩ | ⟨hv, _⟩ <;> rw [hv] <;> rfl
  have hvidle : v ≠ .idle := by
    rcases hvc with ⟨hv, _⟩ | ⟨hv, _⟩ <;> rw [hv] <;> simp
  have hvhandle : v ≠ .handle := by
    rcases hvc with ⟨hv, _⟩ | ⟨hv, _⟩ <;> rw [hv] <;> simp
  have hvpush : ∀ j, v ≠ .push j := by
    intro j
    rcases hvc with ⟨hv, _⟩ | ⟨hv, _⟩ <;> rw [hv] <;> simp
  have hvcas : ∀ e, v ≠ .cmpxchg e := by
    intro e
    rcases hvc with ⟨hv, _⟩ | ⟨hv, _⟩ <;> rw [hv] <;> simp
  have hd : dec_order (l ++ [.dec w]) = dec_order l ++ [w] := by
    simp [dec_order_append, dec_order]
  have hc : cas_order (l ++ [.dec w]) = cas_order l := by
    simp [cas_order_append, cas_order]
  have hnot : w ∉ dec_order l := by
    rw [h.dec_mem w, hpc]
    simp [reported]
  refine
    { cnt := h.cnt, reqs := h.reqs, rem := ?_, err := ?_, dec_nodup := ?_,
      dec_mem := ?_, cas_nodup := ?_, cas_mem := ?_, value := ?_,
      idle := ?_, push_lt := ?_, unpushed := ?_, pushed := ?_,
      run_pc := ?_, shard_pc := ?_, phase := ?_ }
  all_goals try dsimp only
  · rw [hd, List.length_append, List.length_singleton]
    push_cast
    omega
  · rw [hc]; exact h.err
  · rw [hd]
    exact List.Nodup.append h.dec_nodup (List.nodup_singleton w)
      (by simpa using hnot)
  · intro w'
    rw [hd, List.mem_append, h.dec_mem w', pc_set_apply]
    by_cases hw : w' = w
    · subst hw
      rw [if_pos rfl]
      simp [hrep]
    · rw [if_neg hw]
      simp [hw]
  · rw [hc]; exact h.cas_nodup
  · intro k
    rw [hc, h.cas_mem k, pc_set_apply]
    by_cases hk : ocf_prl_thread.shard k = w
    · rw [if_pos hk, hk, hpc, hlat]
      simp [latched]
    · rw [if_neg hk]
  · intro k e
    rw [pc_set_apply]
    by_cases hk : ocf_prl_thread.shard k = w
    · rw [if_pos hk]
      intro he
      exact (hvcas e he).elim
    · rw [if_neg hk]
      exact h.value k e
  · intro k hk
    rw [pc_set_apply]
    by_cases hkw : ocf_prl_thread.shard k = w
    · rw [← hkw, h.idle k hk] at hpc
      cases hpc
    · rw [if_neg hkw]
      exact h.idle k hk
  · intro j hj
    rw [pc_set_apply] at hj
    by_cases hw : ocf_prl_thread.run = w
    · rw [if_pos hw] at hj
      exact (hvpush j hj).elim
    · rw [if_neg hw] at hj
      exact h.push_lt j hj
  · intro k j hj hjk
    rw [pc_set_apply] at hj
    by_cases hw : ocf_prl_thread.run = w
    · rw [if_pos hw] at hj
      exact (hvpush j hj).elim
    · rw [if_neg hw] at hj
      rw [pc_set_apply]
      by_cases hkw : ocf_prl_thread.shard k = w
      · rw [← hkw, h.unpushed k j hj hjk] at hpc
        cases hpc
      · rw [if_neg hkw]
        exact h.unpushed k j hj hjk
  · intro k hk hidle
    rw [pc_set_apply] at hidle
    by_cases hkw : ocf_prl_thread.shard k = w
    · rw [if_pos hkw] at hidle
      exact (hvidle hidle).elim
    · rw [if_neg hkw] at hidle
      obtain ⟨j, hj, hle⟩ := h.pushed k hk hidle
      refine ⟨j, ?_, hle⟩
      rw [pc_set_apply, if_neg ?_]
      · exact hj
      · intro hw
        rw [← hw, hj] at hpc
        cases hpc
  · rw [pc_set_apply]
    by_cases hw : ocf_prl_thread.run = w
    · rw [if_pos hw]
      exact ⟨hvidle, hvhandle, hvcas⟩
    · rw [if_neg hw]
      exact h.run_pc
  · intro k j
    rw [pc_set_apply]
    by_cases hkw : ocf_prl_thread.shard k = w
    · rw [if_pos hkw]
      exact hvpush j
    · rw [if_neg hkw]
      exact h.shard_pc k j
  · rcases hvc with ⟨hv, hlt⟩ | ⟨hv, hlen⟩
    · left
      refine ⟨ha1, ?_, ?_⟩
      all_goals try dsimp only
      · intro w'
        rw [pc_set_apply]
        by_cases hw : w' = w
        · rw [if_pos hw, hv]
          rfl
        · rw [if_neg hw]
          exact ha2 w'
      · rw [hd, List.length_append, List.length_singleton]
        omega
    · right
      left
      refine ⟨l, w, rfl, ha1, ?_, ?_, ?_⟩
      all_goals try dsimp only
      · rw [pc_set_same, hv]
      · intro w' hw'
        rw [pc_set_apply] at hw'
        by_cases hw : w' = w
        · exact hw
        · rw [if_neg hw, ha2 w'] at hw'
          cases hw'
      · rw [hd, List.length_append, List.length_singleton, hlen]

/-- The invariant is kept by the read of `error` before `finish`. -/
theorem prl_inv_read {handle : Nat → Nat → Int} {p : ocf_parallelize}
    {l : List ocf_prl_op} {c c' : ocf_prl_conc} (w : ocf_prl_thread)
    (h : prl_inv handle p l c)
    (hop : ocf_prl_op_exec handle c (.read w) = some c') :
    prl_inv handle p (l ++ [.read w]) c' := by
  simp only [ocf_prl_op_exec] at hop
  split_ifs at hop with hpc
  injection hop with hop
  subst hop
  have hd : dec_order (l ++ [.read w]) = dec_order l := by
    simp [dec_order_append, dec_order]
  have hc : cas_order (l ++ [.read w]) = cas_order l := by
    simp [cas_order_append, cas_order]
  have hfin : finishing (c.pc w) = true := by rw [hpc]; rfl
  refine
    { cnt := h.cnt, reqs := h.reqs, rem := ?_, err := ?_, dec_nodup := ?_,
      dec_mem := ?_, cas_nodup := ?_, cas_mem := ?_, value := ?_,
      idle := ?_, push_lt := ?_, unpushed := ?_, pushed := ?_,
      run_pc := ?_, shard_pc := ?_, phase := ?_ }
  all_goals try dsimp only
  · rw [hd]; exact h.rem
  · rw [hc]; exact h.err
  · rw [hd]; exact h.dec_nodup
  · intro w'
    rw [hd, h.dec_mem w', pc_set_apply]
    by_cases hw : w' = w
    · subst hw
      rw [if_pos rfl, hpc]
      simp [reported]
    · rw [if_neg hw]
  · rw [hc]; exact h.cas_nodup
  · intro k
    rw [hc, h.cas_mem k, pc_set_apply]
    by_cases hk : ocf_prl_thread.shard k = w
    · rw [if_pos hk, hk, hpc]
      simp [latched]
    · rw [if_neg hk]
  · intro k e
    rw [pc_set_apply]
    by_cases hk : ocf_prl_thread.shard k = w
    · rw [if_pos hk]
      intro he
      cases he
    · rw [if_neg hk]
      exact h.value k e
  · intro k hk
    rw [pc_set_apply]
    by_cases hkw : ocf_prl_thread.shard k = w
    · rw [← hkw, h.idle k hk] at hpc
      cases hpc
    · rw [if_neg hkw]
      exact h.idle k hk
  · intro j hj
    rw [pc_set_apply] at hj
    by_cases hw : ocf_prl_thread.run = w
    · rw [if_pos hw] at hj
      cases hj
    · rw [if_neg hw] at hj
      exact h.push_lt j hj
  · intro k j hj hjk
    rw [pc_set_apply] at hj
    by_cases hw : ocf_prl_thread.run = w
    · rw [if_pos hw] at hj
      cases hj
    · rw [if_neg hw] at hj
      rw [pc_set_apply]
      by_cases hkw : ocf_prl_thread.shard k = w
      · rw [← hkw, h.unpushed k j hj hjk] at hpc
        cases hpc
      · rw [if_neg hkw]
        exact h.unpushed k j hj hjk
  · intro k hk hidle
    rw [pc_set_apply] at hidle
    by_cases hkw : ocf_prl_thread.shard k = w
    · rw [if_pos hkw] at hidle
      cases hidle
    · rw [if_neg hkw] at hidle
      obtain ⟨j, hj, hle⟩ := h.pushed k hk hidle
      refine ⟨j, ?_, hle⟩
      rw [pc_set_apply, if_neg ?_]
      · exact hj
      · intro hw
        rw [← hw, hj] at hpc
        cases hpc
  · rw [pc_set_apply]
    by_cases hw : ocf_prl_thread.run = w
    · rw [if_pos hw]
      simp
    · rw [if_neg hw]
      exact h.run_pc
  · intro k j
    rw [pc_set_apply]
    by_cases hkw : ocf_prl_thread.shard k = w
    · rw [if_pos hkw]
      simp
    · rw [if_neg hkw]
      exact h.shard_pc k j
  · rcases h.phase with ⟨_, ha2, _⟩ | ⟨l', w0, hl, hf, hw0, huniq, hlen⟩ |
      ⟨l', w0, hl, hf, hw0, huniq, hlen⟩ | ⟨_, _, _, _, ha2, _⟩
    · rw [ha2 w] at hfin
      cases hfin
    · have hww : w = w0 := huniq w hfin
      subst hww
      right
      right
      left
      refine ⟨l', w, ?_, hf, ?_, ?_, ?_⟩
      all_goals try dsimp only
      · rw [hl, List.append_assoc]
        rfl
      · rw [pc_set_same]
      · intro w' hw'
        rw [pc_set_apply] at hw'
        by_cases hw : w' = w
        · exact hw
        · rw [if_neg hw] at hw'
          exact huniq w' hw'
      · rw [hd]; exact hlen
    · have hww : w = w0 := huniq w hfin
      subst hww
      rw [hpc] at hw0
      cases hw0
    · rw [ha2 w] at hfin
      cases hfin

/-- The invariant is kept by the call of `finish`. -/
theorem prl_inv_finish {handle : Nat → Nat → Int} {p : ocf_parallelize}
    {l : List ocf_prl_op} {c c' : ocf_prl_conc} (w : ocf_prl_thread)
    (h : prl_inv handle p l c)
    (hop : ocf_prl_op_exec handle c (.finish w) = some c') :
    prl_inv handle p (l ++ [.finish w]) c' := by
  simp only [ocf_prl_op_exec] at hop
  split at hop
  · rename_i error hpc
    injection hop with hop
    subst hop
    have hd : dec_order (l ++ [.finish w]) = dec_order l := by
      simp [dec_order_append, dec_order]
    have hc : cas_order (l ++ [.finish w]) = cas_order l := by
      simp [cas_order_append, cas_order]
    have hfin : finishing (c.pc w) = true := by rw [hpc]; rfl
    refine
      { cnt := h.cnt, reqs := h.reqs, rem := ?_, err := ?_, dec_nodup := ?_,
        dec_mem := ?_, cas_nodup := ?_, cas_mem := ?_, value := ?_,
        idle := ?_, push_lt := ?_, unpushed := ?_, pushed := ?_,
        run_pc := ?_, shard_pc := ?_, phase := ?_ }
    all_goals try dsimp only
    · rw [hd]; exact h.rem
    · rw [hc]; exact h.err
    · rw [hd]; exact h.dec_nodup
    · intro w'
      rw [hd, h.dec_mem w', pc_set_apply]
      by_cases hw : w' = w
      · subst hw
        rw [if_pos rfl, hpc]
        simp [reported]
      · rw [if_neg hw]
    · rw [hc]; exact h.cas_nodup
    · intro k
      rw [hc, h.cas_mem k, pc_set_apply]
      by_cases hk : ocf_prl_thread.shard k = w
      · rw [if_pos hk, hk, hpc]
        simp [latched]
      · rw [if_neg hk]
    · intro k e
      rw [pc_set_apply]
      by_cases hk : ocf_prl_thread.shard k = w
      · rw [if_pos hk]
        intro he
        cases he
      · rw [if_neg hk]
        exact h.value k e
    · intro k hk
      rw [pc_set_apply]
      by_cases hkw : ocf_prl_thread.shard k = w
      · rw [← hkw, h.idle k hk] at hpc
        cases hpc
      · rw [if_neg hkw]
        exact h.idle k hk
    · intro j hj
      rw [pc_set_apply] at hj
      by_cases hw : ocf_prl_thread.run = w
      · rw [if_pos hw] at hj
        cases hj
      · rw [if_neg hw] at hj
        exact h.push_lt j hj
    · intro k j hj hjk
      rw [pc_set_apply] at hj
      by_cases hw : ocf_prl_thread.run = w
      · rw [if_pos hw] at hj
        cases hj
      · rw [if_neg hw] at hj
        rw [pc_set_apply]
        by_cases hkw : ocf_prl_thread.shard k = w
        · rw [← hkw, h.unpushed k j hj hjk] at hpc
          cases hpc
        · rw [if_neg hkw]
          exact h.unpushed k j hj hjk
    · intro k hk hidle
      rw [pc_set_apply] at hidle
      by_cases hkw : ocf_prl_thread.shard k = w
      · rw [if_pos hkw] at hidle
        cases hidle
      · rw [if_neg hkw] at hidle
        obtain ⟨j, hj, hle⟩ := h.pushed k hk hidle
        refine ⟨j, ?_, hle⟩
        rw [pc_set_apply, if_neg ?_]
        · exact hj
        · intro hw
          rw [← hw, hj] at hpc
          cases hpc
    · rw [pc_set_apply]
      by_cases hw : ocf_prl_thread.run = w
      · rw [if_pos hw]
        simp
      · rw [if_neg hw]
        exact h.run_pc
    · intro k j
      rw [pc_set_apply]
      by_cases hkw : ocf_prl_thread.shard k = w
      · rw [if_pos hkw]
        simp
      · rw [if_neg hkw]
        exact h.shard_pc k j
    · rcases h.phase with ⟨_, ha2, _⟩ | ⟨l', w0, hl, hf, hw0, huniq, hlen⟩ |
        ⟨l', w0, hl, hf, hw0, huniq, hlen⟩ | ⟨_, _, _, _, ha2, _⟩
      · rw [ha2 w] at hfin
        cases hfin
      · have hww : w = w0 := huniq w hfin
        subst hww
        rw [hpc] at hw0
        cases hw0
      · have hww : w = w0 := huniq w hfin
        subst hww
        rw [hpc] at hw0
        injection hw0 with herror
        right
        right
        right
        refine ⟨l', w, ?_, ?_, ?_, ?_⟩
        all_goals try dsimp only
        · rw [hl, List.append_assoc]
          rfl
        · rw [finish_calls_append, hf, herror]
          rfl
        · intro w'
          rw [pc_set_apply]
          by_cases hw : w' = w
          · rw [if_pos hw]
            rfl
          · rw [if_neg hw]
            cases hfw : finishing (c.pc w') with
            | false => rfl
            | true => exact (hw (huniq w' hfw)).elim
        · rw [hd]; exact hlen
      · rw [ha2 w] at hfin
        cases hfin
  · cases hop

/-- The invariant is kept by every operation. -/
theorem prl_inv_step {handle : Nat → Nat → Int} {p : ocf_parallelize}
    {l : List ocf_prl_op} {c c' : ocf_prl_conc} (op : ocf_prl_op)
    (hrange : p.shards_cnt + 1 < 2 ^ 31) (h : prl_inv handle p l c)
    (hop : ocf_prl_op_exec handle c op = some c') :
    prl_inv handle p (l ++ [op]) c' := by
  cases op with
  | push => exact prl_inv_push h hop
  | handle i => exact prl_inv_handle i h hop
  | cmpxchg i => exact prl_inv_cmpxchg i h hop
  | dec w => exact prl_inv_dec w hrange h hop
  | read w => exact prl_inv_read w h hop
  | finish w => exact prl_inv_finish w h hop

/-- A run of one more operation. -/
theorem prl_run_from_cons (handle : Nat → Nat → Int) (c : ocf_prl_conc)
    (op : ocf_prl_op) (sched : List ocf_prl_op) :
    ocf_prl_run_from handle c (op :: sched) =
      (ocf_prl_op_exec handle c op).bind
        (fun c1 => ocf_prl_run_from handle c1 sched) := by
  simp only [ocf_prl_run_from, List.foldlM_cons]
  rfl

/-- The invariant is kept by a run. -/
theorem prl_inv_run_from {handle : Nat → Nat → Int} {p : ocf_parallelize}
    (hrange : p.shards_cnt + 1 < 2 ^ 31) (sched : List ocf_prl_op) :
    ∀ (l : List ocf_prl_op) (c c' : ocf_prl_conc), prl_inv handle p l c →
      ocf_prl_run_from handle c sched = some c' →
      prl_inv handle p (l ++ sched) c' := by
  induction sched with
  | nil =>
    intro l c c' h hr
    simp only [ocf_prl_run_from, List.foldlM_nil] at hr
    injection hr with hr
    subst hr
    rw [List.append_nil]
    exact h
  | cons op rest ih =>
    intro l c c' h hr
    rw [prl_run_from_cons] at hr
    cases hop : ocf_prl_op_exec handle c op with
    | none =>
      rw [hop] at hr
      cases hr
    | some c1 =>
      rw [hop] at hr
      have h1 := ih (l ++ [op]) c1 c' (prl_inv_step op hrange h hop) hr
      rw [List.append_assoc] at h1
      exact h1

/-- A run is complete when every thread of the run has returned. -/
theorem prl_complete_iff (c : ocf_prl_conc) :
    ocf_prl_complete c = true ↔
      ∀ w ∈ ocf_prl_threads c.state.parallelize.shards_cnt, c.pc w = .done := by
  simp only [ocf_prl_complete, ocf_prl_threads, Bool.and_eq_true,
    decide_eq_true_eq, List.all_eq_true, List.mem_range, List.mem_cons,
    List.mem_map]
  constructor
  · rintro ⟨h1, h2⟩ w (hw | ⟨i, hi, hw⟩)
    · rw [hw]; exact h1
    · rw [← hw]; exact h2 i hi
  · intro h
    exact ⟨h .run (Or.inl rfl), fun i hi => h (.shard i) (Or.inr ⟨i, hi, rfl⟩)⟩

/-- In a complete run every thread has either returned or never started. -/
theorem prl_complete_pc {handle : Nat → Nat → Int} {p : ocf_parallelize}
    {l : List ocf_prl_op} {c : ocf_prl_conc} (h : prl_inv handle p l c)
    (hc : ocf_prl_complete c = true) (w : ocf_prl_thread) :
    c.pc w = .done ∨ c.pc w = .idle := by
  by_cases hw : c.pc w = .idle
  · exact Or.inr hw
  · left
    have hv := prl_inv_valid h w hw
    rw [← h.cnt] at hv
    exact (prl_complete_iff c).mp hc w hv

/-- No operation can be executed in a complete run. -/
theorem prl_complete_stuck {handle : Nat → Nat → Int} {p : ocf_parallelize}
    {l : List ocf_prl_op} {c : ocf_prl_conc} (h : prl_inv handle p l c)
    (hc : ocf_prl_complete c = true) (op : ocf_prl_op) :
    ocf_prl_op_exec handle c op = none := by
  cases op with
  | push =>
    rcases prl_complete_pc h hc .run with h1 | h1 <;>
      simp [ocf_prl_op_exec, h1]
  | handle i =>
    rcases prl_complete_pc h hc (.shard i) with h1 | h1 <;>
      simp [ocf_prl_op_exec, h1]
  | cmpxchg i =>
    rcases prl_complete_pc h hc (.shard i) with h1 | h1 <;>
      simp [ocf_prl_op_exec, h1]
  | dec w =>
    rcases prl_complete_pc h hc w with h1 | h1 <;>
      simp [ocf_prl_op_exec, h1]
  | read w =>
    rcases prl_complete_pc h hc w with h1 | h1 <;>
      simp [ocf_prl_op_exec, h1]
  | finish w =>
    rcases prl_complete_pc h hc w with h1 | h1 <;>
      simp [ocf_prl_op_exec, h1]

/-- A run that is not complete can go on: some thread can execute its next
operation. -/
theorem prl_progress {handle : Nat → Nat → Int} {p : ocf_parallelize}
    {l : List ocf_prl_op} {c : ocf_prl_conc} (h : prl_inv handle p l c)
    (hlen : p.reqs.length = p.shards_cnt)
    (hc : ocf_prl_complete c = false) :
    ∃ op, (ocf_prl_op_exec handle c op).isSome = true := by
  have hex : ∃ w, w ∈ ocf_prl_threads p.shards_cnt ∧ c.pc w ≠ .done := by
    by_contra hno
    have hall : ocf_prl_complete c = true := by
      rw [prl_complete_iff, h.cnt]
      intro w hw
      by_contra hd
      exact hno ⟨w, hw, hd⟩
    rw [hall] at hc
    cases hc
  obtain ⟨w, hw, hdone⟩ := hex
  have hpush : ∀ j, c.pc .run = .push j →
      ∃ op, (ocf_prl_op_exec handle c op).isSome = true := by
    intro j hj
    exact ⟨.push, by simp [ocf_prl_op_exec, hj]⟩
  cases hpc : c.pc w with
  | idle =>
    cases w with
    | run => exact (h.run_pc.1 hpc).elim
    | shard i =>
      rw [mem_prl_threads] at hw
      rcases hw with hw | ⟨k, hk, hw⟩
      · cases hw
      · cases hw
        obtain ⟨j, hj, _⟩ := h.pushed i hk hpc
        exact hpush j hj
  | push j =>
    cases w with
    | run => exact hpush j hpc
    | shard i => exact (h.shard_pc i j hpc).elim
  | handle =>
    cases w with
    | run => exact (h.run_pc.2.1 hpc).elim
    | shard i =>
      rw [mem_prl_threads] at hw
      rcases hw with hw | ⟨k, hk, hw⟩
      · cases hw
      · cases hw
        have hget : ∃ req, c.state.parallelize.reqs.get? i = some req := by
          rw [h.reqs]
          exact ⟨p.reqs.get ⟨i, by omega⟩, List.get?_eq_get _⟩
        obtain ⟨req, hreq⟩ := hget
        refine ⟨.handle i, ?_⟩
        simp only [ocf_prl_op_exec]
        rw [if_pos hpc, hreq]
        rfl
  | cmpxchg e =>
    cases w with
    | run => exact (h.run_pc.2.2 e hpc).elim
    | shard i => exact ⟨.cmpxchg i, by simp [ocf_prl_op_exec, hpc]⟩
  | dec => exact ⟨.dec w, by simp [ocf_prl_op_exec, hpc]⟩
  | read => exact ⟨.read w, by simp [ocf_prl_op_exec, hpc]⟩
  | finish e => exact ⟨.finish w, by simp [ocf_prl_op_exec, hpc]⟩
  | done => exact (hdone hpc).elim

/-- A thread that has decremented and is not on its way to `finish` has
returned. -/
theorem reported_not_finishing (v : ocf_prl_pc) (h1 : reported v = true)
    (h2 : finishing v = false) : v = .done := by
  cases v <;> simp [reported, finishing] at h1 h2 ⊢

/-- In a complete run all the threads have decremented, the last three
operations are the last decrement, the read of `error` and the call of
`finish` by one thread, and `finish` was called once, with the latched
error. -/
theorem prl_complete_phase {handle : Nat → Nat → Int} {p : ocf_parallelize}
    {l : List ocf_prl_op} {c : ocf_prl_conc} (h : prl_inv handle p l c)
    (hc : ocf_prl_complete c = true) :
    (∃ pre w, l = pre ++ [.dec w, .read w, .finish w]) ∧
      finish_calls c.state.log = [c.state.parallelize.error] ∧
      (dec_order l).length = p.shards_cnt + 1 := by
  have hno : ∀ w, finishing (c.pc w) = false := by
    intro w
    rcases prl_complete_pc h hc w with h1 | h1 <;> rw [h1] <;> rfl
  rcases h.phase with ⟨_, _, hle⟩ | ⟨_, w, _, _, hw, _, _⟩ |
    ⟨_, w, _, _, hw, _, _⟩ | ⟨pre, w, hl, hf, _, hlen⟩
  · have hsub : ∀ w ∈ ocf_prl_threads p.shards_cnt, w ∈ dec_order l := by
      intro w hw
      rw [h.dec_mem w]
      rw [← h.cnt] at hw
      rw [(prl_complete_iff c).mp hc w hw]
      rfl
    have h1 := (List.subperm_of_subset (prl_threads_nodup p.shards_cnt)
      hsub).length_le
    rw [prl_threads_length] at h1
    omega
  · have h1 := hno w
    rw [hw] at h1
    cases h1
  · have h1 := hno w
    rw [hw] at h1
    cases h1
  · exact ⟨⟨pre, w, hl⟩, hf, hlen⟩

/-- While a run is not complete, `finish` has not been called. -/
theorem prl_not_complete_calls {handle : Nat → Nat → Int}
    {p : ocf_parallelize} {l : List ocf_prl_op} {c : ocf_prl_conc}
    (h : prl_inv handle p l c) (hc : ocf_prl_complete c = false) :
    finish_calls c.state.log = [] := by
  rcases h.phase with ⟨hf, _, _⟩ | ⟨_, _, _, hf, _, _, _⟩ |
    ⟨_, _, _, hf, _, _, _⟩ | ⟨_, _, _, _, hno, hlen⟩
  · exact hf
  · exact hf
  · exact hf
  · have hall : ocf_prl_complete c = true := by
      rw [prl_complete_iff, h.cnt]
      intro w hw
      have hm := prl_threads_full _ _ h.dec_nodup (prl_inv_dec_valid h) hlen
        w hw
      exact reported_not_finishing _ ((h.dec_mem w).mp hm) (hno w)
    rw [hall] at hc
    cases hc

/-- The threads that have decremented are at most the threads of the run. -/
theorem prl_inv_dec_length {handle : Nat → Nat → Int} {p : ocf_parallelize}
    {l : List ocf_prl_op} {c : ocf_prl_conc} (h : prl_inv handle p l c) :
    (dec_order l).length ≤ p.shards_cnt + 1 :=
  prl_threads_bound _ _ h.dec_nodup (prl_inv_dec_valid h)

/-- In a complete run every thread has decremented exactly once. -/
theorem prl_complete_dec_perm {handle : Nat → Nat → Int}
    {p : ocf_parallelize} {l : List ocf_prl_op} {c : ocf_prl_conc}
    (h : prl_inv handle p l c) (hc : ocf_prl_complete c = true) :
    (dec_order l).Perm (ocf_prl_threads p.shards_cnt) := by
  apply (List.subperm_of_subset h.dec_nodup
    (prl_inv_dec_valid h)).perm_of_length_le
  rw [prl_threads_length, (prl_complete_phase h hc).2.2]

/-- The shards that have executed their compare-and-swap are shards of the
run. -/
theorem prl_inv_cas_lt {handle : Nat → Nat → Int} {p : ocf_parallelize}
    {l : List ocf_prl_op} {c : ocf_prl_conc} (h : prl_inv handle p l c) :
    ∀ i ∈ cas_order l, i < p.shards_cnt := by
  intro i hi
  by_contra hlt
  have h1 := (h.cas_mem i).mp hi
  rw [h.idle i hlt] at h1
  cases h1

/-- In a complete run every shard has executed its compare-and-swap exactly
once. -/
theorem prl_complete_cas_perm {handle : Nat → Nat → Int}
    {p : ocf_parallelize} {l : List ocf_prl_op} {c : ocf_prl_conc}
    (h : prl_inv handle p l c) (hc : ocf_prl_complete c = true) :
    (cas_order l).Perm (List.range p.shards_cnt) := by
  rw [List.perm_ext_iff_of_nodup h.cas_nodup (List.nodup_range _)]
  intro i
  rw [List.mem_range]
  constructor
  · exact prl_inv_cas_lt h i
  · intro hi
    rw [h.cas_mem i]
    have hm : ocf_prl_thread.shard i ∈
        ocf_prl_threads c.state.parallelize.shards_cnt := by
      rw [h.cnt, mem_prl_threads]
      exact Or.inr ⟨i, hi, rfl⟩
    rw [(prl_complete_iff c).mp hc _ hm]
    rfl

/-- On the requests that `ocf_parallelize_create` builds, the handler of
shard `i` is called with the shard index `i`. -/
theorem shard_errors_created (handle : Nat → Nat → Int) (n : Nat)
    (f : Nat → ocf_prl_req) (hf : ∀ k, (f k).byte_position = k)
    (order : List Nat) (ho : ∀ i ∈ order, i < n) :
    shard_errors handle ((List.range n).map f) n order =
      order.map (fun i => handle i n) := by
  induction order with
  | nil => rfl
  | cons a rest ih =>
    have ha : a < n := ho a (List.mem_cons_self a rest)
    have hget : ((List.range n).map f).get? a = some (f a) := by
      rw [List.get?_eq_getElem?, List.getElem?_map, List.getElem?_range ha]
      rfl
    have ih1 := ih (fun i hi => ho i (List.mem_cons_of_mem a hi))
    unfold shard_errors at ih1 ⊢
    rw [List.filterMap_cons, hget, ih1]
    simp [hf]

/-- A sum over the shards when the value of one shard changes. -/
theorem sum_range_update (n i : Nat) (f g : Nat → Nat) (hi : i < n)
    (hg : ∀ k, k ≠ i → g k = f k) :
    ((List.range n).map g).sum + f i = ((List.range n).map f).sum + g i := by
  induction n with
  | zero => omega
  | succ n ih =>
    rw [List.range_succ, List.map_append, List.map_append, List.sum_append,
      List.sum_append]
    simp only [List.map_cons, List.map_nil, List.sum_cons, List.sum_nil,
      Nat.add_zero]
    by_cases hin : i = n
    · subst hin
      have hsame : (List.range i).map g = (List.range i).map f := by
        apply List.map_congr_left
        intro k hk
        rw [List.mem_range] at hk
        exact hg k (by omega)
      rw [hsame]
      omega
    · have h1 := ih (by omega)
      have h2 := hg n (fun h => hin h.symm)
      omega

/-- The bound when one thread of the run moves. -/
theorem prl_ops_left_set (n : Nat) (pc : ocf_prl_thread → ocf_prl_pc)
    (w : ocf_prl_thread) (v : ocf_prl_pc) (hw : w ∈ ocf_prl_threads n) :
    prl_ops_left n (pc_set pc w v) + ops_left n (pc w) =
      prl_ops_left n pc + ops_left n v := by
  unfold prl_ops_left
  rw [mem_prl_threads] at hw
  rcases hw with hw | ⟨i, hi, hw⟩
  · subst hw
    rw [pc_set_same]
    have hsame : (List.range n).map
        (fun i => ops_left n (pc_set pc .run v (.shard i))) =
        (List.range n).map (fun i => ops_left n (pc (.shard i))) := by
      apply List.map_congr_left
      intro k _
      rw [pc_set_apply, if_neg (by simp)]
    rw [hsame]
    omega
  · subst hw
    rw [pc_set_apply, if_neg (by simp)]
    have h1 := sum_range_update n i
      (fun k => ops_left n (pc (.shard k)))
      (fun k => ops_left n (pc_set pc (.shard i) v (.shard k))) hi
      (by
        intro k hk
        show ops_left n (pc_set pc (.shard i) v (.shard k)) = _
        rw [pc_set_apply, if_neg (by simp [hk])])
    have h2 : ops_left n (pc_set pc (.shard i) v (.shard i)) =
        ops_left n v := by
      rw [pc_set_same]
    simp only [h2] at h1
    omega

/-- Every operation lowers the bound on the operations left. -/
theorem prl_ops_left_step {handle : Nat → Nat → Int} {p : ocf_parallelize}
    {l : List ocf_prl_op} {c c' : ocf_prl_conc} (op : ocf_prl_op)
    (h : prl_inv handle p l c)
    (hop : ocf_prl_op_exec handle c op = some c') :
    prl_ops_left p.shards_cnt c'.pc + 1 ≤ prl_ops_left p.shards_cnt c.pc := by
  have hmove : ∀ (w : ocf_prl_thread) (v : ocf_prl_pc), c.pc w ≠ .idle →
      ops_left p.shards_cnt v + 1 ≤ ops_left p.shards_cnt (c.pc w) →
      prl_ops_left p.shards_cnt (pc_set c.pc w v) + 1 ≤
        prl_ops_left p.shards_cnt c.pc := by
    intro w v hw hlt
    have h1 := prl_ops_left_set p.shards_cnt c.pc w v (prl_inv_valid h w hw)
    omega
  cases op with
  | push =>
    simp only [ocf_prl_op_exec] at hop
    split at hop
    · rename_i j hpc
      injection hop with hop
      subst hop
      dsimp only
      have hj := h.push_lt j hpc
      have hidle := h.unpushed j j hpc (le_refl _)
      have hv : ∃ v, (if j + 1 < c.state.parallelize.shards_cnt
          then ocf_prl_pc.push (j + 1) else .dec) = v ∧
          ops_left p.shards_cnt v + 1 ≤ p.shards_cnt - j + 3 := by
        rw [h.cnt]
        by_cases hlt : j + 1 < p.shards_cnt
        · exact ⟨_, if_pos hlt, by simp only [ops_left]; omega⟩
        · exact ⟨_, if_neg hlt, by simp only [ops_left]; omega⟩
      obtain ⟨v, hveq, hvle⟩ := hv
      rw [hveq]
      have h1 := prl_ops_left_set p.shards_cnt c.pc (.shard j) .handle
        (by rw [mem_prl_threads]; exact Or.inr ⟨j, hj, rfl⟩)
      have h2 := prl_ops_left_set p.shards_cnt
        (pc_set c.pc (.shard j) .handle) .run v
        (by rw [mem_prl_threads]; exact Or.inl rfl)
      rw [pc_set_apply, if_neg (by simp), hpc] at h2
      rw [hidle] at h1
      have e1 : ops_left p.shards_cnt .idle = 5 := rfl
      have e2 : ops_left p.shards_cnt .handle = 5 := rfl
      have e3 : ops_left p.shards_cnt (.push j) = p.shards_cnt - j + 3 := rfl
      rw [e1, e2] at h1
      rw [e3] at h2
      omega
    · cases hop
  | handle i =>
    simp only [ocf_prl_op_exec] at hop
    split_ifs at hop with hpc
    split at hop
    · injection hop with hop
      subst hop
      exact hmove _ _ (by rw [hpc]; simp) (by rw [hpc]; simp [ops_left])
    · cases hop
  | cmpxchg i =>
    simp only [ocf_prl_op_exec] at hop
    split at hop
    · rename_i e hpc
      injection hop with hop
      subst hop
      exact hmove _ _ (by rw [hpc]; simp) (by rw [hpc]; simp [ops_left])
    · cases hop
  | dec w =>
    simp only [ocf_prl_op_exec] at hop
    have hpc : c.pc w = .dec := by
      by_contra hpc
      rw [if_neg hpc] at hop
      cases hop
    rw [if_pos hpc] at hop
    injection hop with hop
    subst hop
    apply hmove _ _ (by rw [hpc]; simp)
    rw [hpc]
    split_ifs <;> simp [ops_left]
  | read w =>
    simp only [ocf_prl_op_exec] at hop
    split_ifs at hop with hpc
    injection hop with hop
    subst hop
    exact hmove _ _ (by rw [hpc]; simp) (by rw [hpc]; simp [ops_left])
  | finish w =>
    simp only [ocf_prl_op_exec] at hop
    split at hop
    · rename_i e hpc
      injection hop with hop
      subst hop
      exact hmove _ _ (by rw [hpc]; simp) (by rw [hpc]; simp [ops_left])
    · cases hop

/-- A run is not longer than the bound on the operations left at its
start. -/
theorem prl_ops_left_run_from {handle : Nat → Nat → Int}
    {p : ocf_parallelize} (hrange : p.shards_cnt + 1 < 2 ^ 31)
    (sched : List ocf_prl_op) :
    ∀ (l : List ocf_prl_op) (c c' : ocf_prl_conc), prl_inv handle p l c →
      ocf_prl_run_from handle c sched = some c' →
      prl_ops_left p.shards_cnt c'.pc + sched.length ≤
        prl_ops_left p.shards_cnt c.pc := by
  induction sched with
  | nil =>
    intro l c c' _ hr
    simp only [ocf_prl_run_from, List.foldlM_nil] at hr
    injection hr with hr
    subst hr
    exact le_refl _
  | cons op rest ih =>
    intro l c c' h hr
    rw [prl_run_from_cons] at hr
    cases hop : ocf_prl_op_exec handle c op with
    | none =>
      rw [hop] at hr
      cases hr
    | some c1 =>
      rw [hop] at hr
      have h1 := ih (l ++ [op]) c1 c' (prl_inv_step op hrange h hop) hr
      have h2 := prl_ops_left_step op h hop
      rw [List.length_cons]
      omega

/-- The bound on the operations left when `ocf_parallelize_run` is
entered. -/
theorem prl_ops_left_init (p : ocf_parallelize) :
    prl_ops_left p.shards_cnt (ocf_prl_init p).pc ≤ 6 * p.shards_cnt + 3 := by
  have hsum : ∀ n : Nat, ((List.range n).map
      (fun i => ops_left p.shards_cnt
        ((ocf_prl_init p).pc (.shard i)))).sum = 5 * n := by
    intro n
    induction n with
    | zero => rfl
    | succ n ih =>
      rw [List.range_succ, List.map_append, List.sum_append, ih]
      simp [ocf_prl_init, ops_left]
      omega
  unfold prl_ops_left
  rw [hsum]
  simp only [ocf_prl_init]
  split_ifs <;> simp only [ops_left] <;> omega

/-- Moving one thread twice. -/
theorem pc_set_set (pc : ocf_prl_thread → ocf_prl_pc) (w : ocf_prl_thread)
    (a b : ocf_prl_pc) : pc_set (pc_set pc w a) w b = pc_set pc w b := by
  funext w'
  simp only [pc_set_apply]
  split_ifs <;> rfl

/-- A run in two parts. -/
theorem prl_run_from_append (handle : Nat → Nat → Int) (c : ocf_prl_conc)
    (a b : List ocf_prl_op) :
    ocf_prl_run_from handle c (a ++ b) =
      (ocf_prl_run_from handle c a).bind
        (fun c1 => ocf_prl_run_from handle c1 b) := by
  simp only [ocf_prl_run_from, List.foldlM_append]
  rfl

/-- A run of no operation. -/
theorem prl_run_from_nil (handle : Nat → Nat → Int) (c : ocf_prl_conc) :
    ocf_prl_run_from handle c [] = some c :=
  rfl

/-- The operations of `_ocf_parallelize_finish`, executed by one thread with
no operation of another thread in between, amount to the function
`_ocf_parallelize_finish`. -/
theorem prl_finish_ops_run (handle : Nat → Nat → Int) (c : ocf_prl_conc)
    (w : ocf_prl_thread) (hpc : c.pc w = .dec) :
    ocf_prl_run_from handle c (ocf_prl_finish_ops c.state w) =
      some { state := _ocf_parallelize_finish c.state,
             pc := pc_set c.pc w .done } := by
  unfold ocf_prl_finish_ops _ocf_parallelize_finish
  by_cases h : to_int32 (c.state.parallelize.remaining - 1) ≠ 0
  · rw [if_pos h]
    simp only [prl_run_from_cons, ocf_prl_op_exec, if_pos hpc, if_pos h,
      Option.some_bind, prl_run_from_nil]
  · rw [if_neg h]
    simp only [prl_run_from_cons, ocf_prl_op_exec, if_pos hpc, if_neg h,
      Option.some_bind, prl_run_from_nil, pc_set_same,
      if_true, pc_set_set]

/-- The operations of `_ocf_parallelize_hndl`, executed for one shard with no
operation of another thread in between, amount to the function
`_ocf_parallelize_hndl`. -/
theorem prl_hndl_ops_run (handle : Nat → Nat → Int) (c : ocf_prl_conc)
    (i : Nat) (req : ocf_prl_req) (hpc : c.pc (.shard i) = .handle)
    (hreq : c.state.parallelize.reqs.get? i = some req) :
    ocf_prl_run_from handle c (ocf_prl_hndl_ops c.state i) =
      some { state := _ocf_parallelize_hndl handle req c.state,
             pc := pc_set c.pc (.shard i) .done } := by
  unfold ocf_prl_hndl_ops
  rw [prl_run_from_append]
  simp only [prl_run_from_cons, ocf_prl_op_exec, if_pos hpc, hreq,
    Option.some_bind, pc_set_same, prl_run_from_nil, pc_set_set]
  have h := prl_finish_ops_run handle
    { state := { c.state with
        parallelize := { c.state.parallelize with
          error :=
            if c.state.parallelize.error = 0 then
              handle req.byte_position c.state.parallelize.shards_cnt
            else c.state.parallelize.error } },
      pc := pc_set c.pc (.shard i) .dec } (.shard i) (pc_set_same _ _ _)
  rw [pc_set_set] at h
  exact h

/-- The iterations of the push loop that are left when the caller is about to
push shard `j`: the shards from `j` on are pushed in order and become ready
to run their handler, and the caller goes on to its decrement. -/
theorem prl_pushes_run (handle : Nat → Nat → Int) :
    ∀ (k j : Nat) (c : ocf_prl_conc), c.pc .run = .push j →
      j + (k + 1) = c.state.parallelize.shards_cnt →
      ∃ c', ocf_prl_run_from handle c (List.replicate (k + 1) .push) =
          some c' ∧
        c'.state = { c.state with
          log := c.state.log ++ (List.range' j (k + 1)).map (fun i =>
            .ocf_queue_push_req i
              { OCF_QUEUE_ALLOW_SYNC := false,
                OCF_QUEUE_PRIO_HIGH := true }) } ∧
        c'.pc .run = .dec ∧
        ∀ i, c'.pc (.shard i) =
          if j ≤ i ∧ i < j + (k + 1) then .handle else c.pc (.shard i) := by
  intro k
  induction k with
  | zero =>
    intro j c hpc hcnt
    have hstep : ocf_prl_op_exec handle c .push = some
        { state := { c.state with
            log := c.state.log ++
              [.ocf_queue_push_req j
                { OCF_QUEUE_ALLOW_SYNC := false,
                  OCF_QUEUE_PRIO_HIGH := true }] },
          pc := pc_set (pc_set c.pc (.shard j) .handle) .run .dec } := by
      simp only [ocf_prl_op_exec, hpc]
      rw [if_neg (by omega)]
    refine ⟨{ state := { c.state with
                log := c.state.log ++
                  [.ocf_queue_push_req j
                    { OCF_QUEUE_ALLOW_SYNC := false,
                      OCF_QUEUE_PRIO_HIGH := true }] },
              pc := pc_set (pc_set c.pc (.shard j) .handle) .run .dec },
      ?_, ?_, ?_, ?_⟩
    · rw [List.replicate_succ, prl_run_from_cons, hstep, Option.some_bind,
        List.replicate_zero, prl_run_from_nil]
    · rfl
    · dsimp only
      rw [pc_set_same]
    · intro i
      dsimp only
      rw [pc_set_apply, if_neg (by simp), pc_set_apply]
      by_cases hi : i = j
      · subst hi
        rw [if_pos rfl, if_pos (by omega)]
      · rw [if_neg (by simp [hi]), if_neg (by omega)]
  | succ k ih =>
    intro j c hpc hcnt
    have hstep : ocf_prl_op_exec handle c .push = some
        { state := { c.state with
            log := c.state.log ++
              [.ocf_queue_push_req j
                { OCF_QUEUE_ALLOW_SYNC := false,
                  OCF_QUEUE_PRIO_HIGH := true }] },
          pc := pc_set (pc_set c.pc (.shard j) .handle) .run
            (.push (j + 1)) } := by
      simp only [ocf_prl_op_exec, hpc]
      rw [if_pos (by omega)]
    obtain ⟨c', hrun, hstate, hrunpc, hshard⟩ := ih (j + 1)
      { state := { c.state with
          log := c.state.log ++
            [.ocf_queue_push_req j
              { OCF_QUEUE_ALLOW_SYNC := false,
                OCF_QUEUE_PRIO_HIGH := true }] },
        pc := pc_set (pc_set c.pc (.shard j) .handle) .run
          (.push (j + 1)) }
      (by
        dsimp only
        rw [pc_set_same]) (by
        show j + 1 + (k + 1) = c.state.parallelize.shards_cnt
        omega)
    refine ⟨c', ?_, ?_, hrunpc, ?_⟩
    · rw [List.replicate_succ, prl_run_from_cons, hstep]
      exact hrun
    · rw [hstate]
      simp only [List.append_assoc, List.singleton_append]
      rw [List.range'_succ j (k + 1)]
      rfl
    · intro i
      rw [hshard i]
      dsimp only
      have hpcs : pc_set (pc_set c.pc (.shard j) .handle) .run
          (.push (j + 1)) (.shard i) =
          if i = j then .handle else c.pc (.shard i) := by
        rw [pc_set_apply, if_neg (by simp), pc_set_apply]
        by_cases hi : i = j
        · rw [if_pos hi, if_pos (by rw [hi])]
        · rw [if_neg hi, if_neg (by simp [hi])]
      rw [hpcs]
      split_ifs <;> first | rfl | omega

/-- The operations of `ocf_parallelize_run`, executed by the caller with no
operation of another thread in between, amount to the function
`ocf_parallelize_run`: afterwards the caller has returned and every shard is
ready to run its handler. -/
theorem prl_run_ops_run (handle : Nat → Nat → Int) (p : ocf_parallelize) :
    ∃ c, ocf_prl_run handle p
        (ocf_prl_run_ops { parallelize := p, log := [] }) = some c ∧
      c.state = ocf_parallelize_run { parallelize := p, log := [] } ∧
      c.pc .run = .done ∧
      ∀ i, c.pc (.shard i) = if i < p.shards_cnt then .handle else .idle := by
  unfold ocf_prl_run ocf_prl_run_ops ocf_parallelize_run
  rw [prl_run_from_append]
  cases hn : p.shards_cnt with
  | zero =>
    have hpc : (ocf_prl_init p).pc .run = .dec := by
      simp [ocf_prl_init, hn]
    refine ⟨{ state := _ocf_parallelize_finish (ocf_prl_init p).state,
              pc := pc_set (ocf_prl_init p).pc .run .done },
      ?_, ?_, ?_, ?_⟩
    · show (ocf_prl_run_from handle (ocf_prl_init p)
          (List.replicate 0 .push)).bind _ = _
      rw [List.replicate_zero, prl_run_from_nil, Option.some_bind]
      exact prl_finish_ops_run handle (ocf_prl_init p) .run hpc
    · show _ocf_parallelize_finish _ = _ocf_parallelize_finish _
      simp [ocf_prl_init, ocf_parallelize_run_push, hn]
    · dsimp only
      rw [pc_set_same]
    · intro i
      dsimp only
      rw [pc_set_apply, if_neg (by simp), if_neg (by omega)]
      rfl
  | succ k =>
    have hpc : (ocf_prl_init p).pc .run = .push 0 := by
      simp [ocf_prl_init, hn]
    obtain ⟨c', hrun, hstate, hrunpc, hshard⟩ := prl_pushes_run handle k 0
      (ocf_prl_init p) hpc (by
        show 0 + (k + 1) = p.shards_cnt
        omega)
    have hfin := prl_finish_ops_run handle c' .run hrunpc
    have hops : ocf_prl_finish_ops c'.state .run =
        ocf_prl_finish_ops { parallelize := p, log := [] } .run := by
      rw [hstate]
      rfl
    rw [hops] at hfin
    refine ⟨{ state := _ocf_parallelize_finish c'.state,
              pc := pc_set c'.pc .run .done },
      ?_, ?_, ?_, ?_⟩
    · show (ocf_prl_run_from handle (ocf_prl_init p)
          (List.replicate (k + 1) .push)).bind _ = _
      rw [hrun, Option.some_bind]
      exact hfin
    · show _ocf_parallelize_finish _ = _ocf_parallelize_finish _
      rw [hstate]
      simp [ocf_prl_init, ocf_parallelize_run_push, hn, List.range_eq_range']
    · dsimp only
      rw [pc_set_same]
    · intro i
      dsimp only
      rw [pc_set_apply, if_neg (by simp), hshard i]
      by_cases hi : i < k + 1
      · rw [if_pos (by omega), if_pos hi]
      · rw [if_neg (by omega), if_neg hi]
        rfl

/-- The invariant holds after every run of a parallelizer that
`ocf_parallelize_create` built. -/
theorem prl_inv_run (env : ocf_prl_env) (shards_cnt priv_size : Nat)
    (p : ocf_parallelize) (handle : Nat → Nat → Int)
    (sched : List ocf_prl_op) (c : ocf_prl_conc)
    (hcreate : ocf_parallelize_create env shards_cnt priv_size = .ok p)
    (hrange : p.shards_cnt + 1 < 2 ^ 31)
    (hrun : ocf_prl_run handle p sched = some c) :
    prl_inv handle p sched c := by
  obtain ⟨_, _, herr, hrem⟩ := create_ok env shards_cnt priv_size p hcreate
  have hrem1 : p.remaining = (p.shards_cnt : Int) + 1 := by
    rw [hrem, Nat.mod_eq_of_lt (by omega),
      to_int32_of_range _ (by omega) (by omega)]
    push_cast
    rfl
  have h := prl_inv_run_from hrange sched [] _ c
    (prl_inv_init handle p hrem1 herr) hrun
  rw [List.nil_append] at h
  exact h

/-- C2 (amended): a run of the parallelizer is a sequence of operations of its
threads: the pushes of `ocf_parallelize_run`; for each shard the call of the
user handler and the compare-and-swap on `error`; for every thread the
decrement of `remaining` and, when it returns 0, the read of `error` and the
call of `finish`. Executed by one thread with no operation of another thread
in between, the operations of `_ocf_parallelize_finish`, of
`_ocf_parallelize_hndl` and of `ocf_parallelize_run` amount to these
functions.

On a parallelizer that `ocf_parallelize_create` built with `N ≥ 1` shards
(`N + 1 < 2^31`), `remaining` starts at `N + 1` and `error` at 0. Take any
order in which the threads execute their operations. At most `6 N + 3`
operations have been executed; `remaining` is `N + 1` minus the number of
decrements, which are at most `N + 1`. While some thread has not returned,
`finish` has not been called and some thread can execute its next operation.
Once every thread has returned, no operation is left; every shard has
executed its compare-and-swap once and each of the `N + 1` threads has
decremented once; `remaining` is 0; the last three operations are the last
decrement, the read of `error` and the call of `finish`, all by the same
thread; and `finish` has been called exactly once, with the first non-zero
value among the handler results taken in the order of the compare-and-swaps
(which need not be the order of the decrements), or 0 if every handler
returned 0. -/
theorem C2_finish_once_first_cas_error
    (env : ocf_prl_env) (shards_cnt priv_size : Nat) (p : ocf_parallelize)
    (handle : Nat → Nat → Int) (sched : List ocf_prl_op)
    (hcreate : ocf_parallelize_create env shards_cnt priv_size = .ok p)
    (hrange : p.shards_cnt + 1 < 2 ^ 31)
    (hrun : (ocf_prl_run handle p sched).isSome = true) :
    (∀ (c : ocf_prl_conc) (w : ocf_prl_thread), c.pc w = .dec →
      ocf_prl_run_from handle c (ocf_prl_finish_ops c.state w) =
        some { state := _ocf_parallelize_finish c.state,
               pc := pc_set c.pc w .done }) ∧
    (∀ (c : ocf_prl_conc) (i : Nat) (req : ocf_prl_req),
      c.pc (.shard i) = .handle →
      c.state.parallelize.reqs.get? i = some req →
      ocf_prl_run_from handle c (ocf_prl_hndl_ops c.state i) =
        some { state := _ocf_parallelize_hndl handle req c.state,
               pc := pc_set c.pc (.shard i) .done }) ∧
    (∃ c, ocf_prl_run handle p
        (ocf_prl_run_ops { parallelize := p, log := [] }) = some c ∧
      c.state = ocf_parallelize_run { parallelize := p, log := [] } ∧
      c.pc .run = .done ∧
      ∀ i, c.pc (.shard i) =
        if i < p.shards_cnt then .handle else .idle) ∧
    1 ≤ p.shards_cnt ∧ p.remaining = (p.shards_cnt : Int) + 1 ∧
    p.error = 0 ∧
    ∃ c, ocf_prl_run handle p sched = some c ∧
      sched.length ≤ 6 * p.shards_cnt + 3 ∧
      (dec_order sched).length ≤ p.shards_cnt + 1 ∧
      c.state.parallelize.remaining =
        (p.shards_cnt : Int) + 1 - ((dec_order sched).length : Int) ∧
      (ocf_prl_complete c = false →
        finish_calls c.state.log = [] ∧
        ∃ op, (ocf_prl_op_exec handle c op).isSome = true) ∧
      (ocf_prl_complete c = true →
        (∀ op, ocf_prl_op_exec handle c op = none) ∧
        (cas_order sched).Perm (List.range p.shards_cnt) ∧
        (dec_order sched).Perm (ocf_prl_threads p.shards_cnt) ∧
        c.state.parallelize.remaining = 0 ∧
        (∃ pre w, sched = pre ++ [.dec w, .read w, .finish w]) ∧
        finish_calls c.state.log =
          [first_error
            ((cas_order sched).map (fun i => handle i p.shards_cnt))]) := by
  obtain ⟨hpos, hlen, herr, hrem⟩ :=
    create_ok env shards_cnt priv_size p hcreate
  obtain ⟨_, hreqs, _⟩ := create_eq env shards_cnt priv_size p hcreate
  have hrem1 : p.remaining = (p.shards_cnt : Int) + 1 := by
    rw [hrem, Nat.mod_eq_of_lt (by omega),
      to_int32_of_range _ (by omega) (by omega)]
    push_cast
    rfl
  refine ⟨prl_finish_ops_run handle, prl_hndl_ops_run handle,
    prl_run_ops_run handle p, hpos, hrem1, herr, ?_⟩
  obtain ⟨c, hc⟩ := Option.isSome_iff_exists.mp hrun
  have h := prl_inv_run env shards_cnt priv_size p handle sched c hcreate
    hrange hc
  have hbound : sched.length ≤ 6 * p.shards_cnt + 3 := by
    have h1 := prl_ops_left_run_from hrange sched [] _ c
      (prl_inv_init handle p hrem1 herr) hc
    have h2 := prl_ops_left_init p
    omega
  refine ⟨c, hc, hbound, prl_inv_dec_length h, h.rem, ?_, ?_⟩
  · intro hnc
    exact ⟨prl_not_complete_calls h hnc, prl_progress h hlen hnc⟩
  · intro hcomp
    obtain ⟨hlast, hcalls, hdec⟩ := prl_complete_phase h hcomp
    refine ⟨prl_complete_stuck h hcomp, prl_complete_cas_perm h hcomp,
      prl_complete_dec_perm h hcomp, ?_, hlast, ?_⟩
    · rw [h.rem, hdec]
      push_cast
      omega
    · rw [hcalls, h.err, hreqs, shard_errors_created]
      · simp [latch]
      · intro k
        rfl
      · exact prl_inv_cas_lt h

set_option maxRecDepth 100000 in
/-- C2 (amended), on a run: the parallelizer `ex_parallelize` of eight shards
with the operations in the order `ex_sched`. -/
theorem C2_finish_once_first_cas_error_witness :
    (∀ (c : ocf_prl_conc) (w : ocf_prl_thread), c.pc w = .dec →
      ocf_prl_run_from ex_handle c (ocf_prl_finish_ops c.state w) =
        some { state := _ocf_parallelize_finish c.state,
               pc := pc_set c.pc w .done }) ∧
    (∀ (c : ocf_prl_conc) (i : Nat) (req : ocf_prl_req),
      c.pc (.shard i) = .handle →
      c.state.parallelize.reqs.get? i = some req →
      ocf_prl_run_from ex_handle c (ocf_prl_hndl_ops c.state i) =
        some { state := _ocf_parallelize_hndl ex_handle req c.state,
               pc := pc_set c.pc (.shard i) .done }) ∧
    (∃ c, ocf_prl_run ex_handle ex_parallelize
        (ocf_prl_run_ops { parallelize := ex_parallelize, log := [] }) =
          some c ∧
      c.state =
        ocf_parallelize_run { parallelize := ex_parallelize, log := [] } ∧
      c.pc .run = .done ∧
      ∀ i, c.pc (.shard i) =
        if i < ex_parallelize.shards_cnt then .handle else .idle) ∧
    1 ≤ ex_parallelize.shards_cnt ∧
    ex_parallelize.remaining = (ex_parallelize.shards_cnt : Int) + 1 ∧
    ex_parallelize.error = 0 ∧
    ∃ c, ocf_prl_run ex_handle ex_parallelize ex_sched = some c ∧
      ex_sched.length ≤ 6 * ex_parallelize.shards_cnt + 3 ∧
      (dec_order ex_sched).length ≤ ex_parallelize.shards_cnt + 1 ∧
      c.state.parallelize.remaining =
        (ex_parallelize.shards_cnt : Int) + 1 -
          ((dec_order ex_sched).length : Int) ∧
      (ocf_prl_complete c = false →
        finish_calls c.state.log = [] ∧
        ∃ op, (ocf_prl_op_exec ex_handle c op).isSome = true) ∧
      (ocf_prl_complete c = true →
        (∀ op, ocf_prl_op_exec ex_handle c op = none) ∧
        (cas_order ex_sched).Perm (List.range ex_parallelize.shards_cnt) ∧
        (dec_order ex_sched).Perm
          (ocf_prl_threads ex_parallelize.shards_cnt) ∧
        c.state.parallelize.remaining = 0 ∧
        (∃ pre w, ex_sched = pre ++ [.dec w, .read w, .finish w]) ∧
        finish_calls c.state.log =
          [first_error ((cas_order ex_sched).map
            (fun i => ex_handle i ex_parallelize.shards_cnt))]) :=
  C2_finish_once_first_cas_error ex_prl_env 8 0 ex_parallelize ex_handle
    ex_sched rfl (by decide) rfl

set_option maxRecDepth 100000 in
/-- C2 (counterexample): eight shards are created on four queues and run in
the order `ex_sched`, in which the requests of each queue are handled one at
a time. The run is complete and `finish` is called once. The handlers report
(decrement `remaining`) in the order 1, 5, 3, caller, 0, 2, 6, 7, 4, so the
first non-zero value returned by a shard handler in the order of the reports
is the `-5` of shard 5; but shard 3 executed its compare-and-swap before
shard 5, and `finish` receives the `-3` of shard 3, the first non-zero value
in the order of the compare-and-swaps. -/
theorem C2_report_order_counterexample :
    ocf_parallelize_create ex_prl_env 8 0 = .ok ex_parallelize ∧
    queue_serial ex_parallelize.reqs ex_sched = true ∧
    (ocf_prl_run ex_handle ex_parallelize ex_sched).map ocf_prl_complete =
      some true ∧
    (ocf_prl_run ex_handle ex_parallelize ex_sched).map
      (fun c => finish_calls c.state.log) = some [-3] ∧
    dec_order ex_sched =
      [.shard 1, .shard 5, .shard 3, .run, .shard 0, .shard 2, .shard 6,
       .shard 7, .shard 4] ∧
    cas_order ex_sched = [1, 3, 5, 0, 2, 7, 6, 4] ∧
    shard_errors ex_handle ex_parallelize.reqs 8
      (shards_of (dec_order ex_sched)) = [0, -5, -3, 0, 0, 0, 0, 0] ∧
    first_error (shard_errors ex_handle ex_parallelize.reqs 8
      (shards_of (dec_order ex_sched))) = -5 ∧
    first_error (shard_errors ex_handle ex_parallelize.reqs 8
      (shards_of (dec_order ex_sched))) ≠ -3 ∧
    first_error (shard_errors ex_handle ex_parallelize.reqs 8
      (cas_order ex_sched)) = -3 :=
  ⟨rfl, by decide, rfl, rfl, by decide, by decide, by decide, by decide,
    by decide, by decide⟩

end Ocf
